import Mathlib

/-!
The immediate-mode Vulkan context of openFrameworks (`of::vk::Context`)

A shallow embedding of `libs/openFrameworks/vk/Context.cpp` and
`libs/openFrameworks/vk/Pipeline.cpp`.

* Vulkan handles and raw pointers are natural numbers, `0` being `nullptr`.
* `std::map<uint64_t, V>` is an association list kept in ascending key order
  (the order a C++ range-for visits it); string-keyed maps, which the code
  never iterates, are association lists in insertion order.
* Calls that leave the process (the Vulkan driver, `memcpy` into mapped GPU
  memory, the logger) are appended to `Context.trace`.
* What the Vulkan driver answers is read from a `Driver` record of oracles.
* Indexing a `std::vector` out of range is undefined in C++; here a read gives
  a default and a write is dropped.  Every index the code uses on states it
  can reach is in range.
-/

namespace OfVk

/-- A Vulkan handle or a raw pointer; `0` is `VK_NULL_HANDLE` / `nullptr`. -/
abbrev Handle := Nat

/-! ## Containers -/

/-- The `std::map<uint64_t, V>` of the source, as a key-ordered association list. -/
abbrev Map (V : Type) := List (Nat × V)

namespace Map

variable {V : Type}

/-- The value stored under `k`, if any: `std::map::find`. -/
def find : Map V → Nat → Option V
  | [], _ => none
  | (k', v) :: rest, k => if k' = k then some v else find rest k

/-- Whether `k` is a key: `m.find(k) != m.end()`. -/
def contains (m : Map V) (k : Nat) : Bool := (m.find k).isSome

/-- Insert-or-overwrite, `m[k] = v`, keeping the keys ascending. -/
def assign : Map V → Nat → V → Map V
  | [], k, v => [(k, v)]
  | (k', v') :: rest, k, v =>
    if k < k' then (k, v) :: (k', v') :: rest
    else if k = k' then (k, v) :: rest
    else (k', v') :: assign rest k v

/-- Insert without overwriting, `m.insert({k, v})`; the flag is
`insertionResult.second`. -/
def insert (m : Map V) (k : Nat) (v : V) : Map V × Bool :=
  match m.find k with
  | some _ => (m, false)
  | none => (m.assign k v, true)

/-- Read through `operator[]`: a missing key reads as the default value. -/
def findD (m : Map V) (k : Nat) (d : V) : V := (m.find k).getD d

end Map

/-- A `std::map<std::string, V>`; the source only looks keys up, so the order
of the entries is not observable. -/
abbrev StrMap (V : Type) := List (String × V)

namespace StrMap

variable {V : Type}

/-- The value stored under `k`, if any: `std::map::find`. -/
def find : StrMap V → String → Option V
  | [], _ => none
  | (k', v) :: rest, k => if k' = k then some v else find rest k

/-- Insert-or-overwrite, `m[k] = v`. -/
def assign : StrMap V → String → V → StrMap V
  | [], k, v => [(k, v)]
  | (k', v') :: rest, k, v =>
    if k' = k then (k, v) :: rest else (k', v') :: assign rest k v

/-- Insert without overwriting, `m.insert({k, v})`; the flag is
`insertionResult.second`. -/
def insert (m : StrMap V) (k : String) (v : V) : StrMap V × Bool :=
  match m.find k with
  | some _ => (m, false)
  | none => (m.assign k v, true)

end StrMap

/-- The effect of `std::vector::resize(n, v)`. -/
def resize {α : Type} (l : List α) (n : Nat) (v : α) : List α :=
  l.take n ++ List.replicate (n - l.length) v

/-! ## Data handed in by the collaborators (shader reflection, meshes) -/

/-- The `VkDescriptorType` values the context distinguishes. -/
inductive DescriptorType
  | uniformBufferDynamic
  | combinedImageSampler
  | other
deriving DecidableEq, Repr

/-- A reflected descriptor (`of::vk::Shader` reflection), with the fields
`Context.cpp` reads. -/
structure DescriptorInfo where
  hash : Nat
  name : String
  type : DescriptorType
  count : Nat
  storageSize : Nat
  /-- Member name, then `(offset, range)`, in the iteration order of the map. -/
  memberRanges : List (String × (Nat × Nat))
deriving DecidableEq, Repr

/-- A shader as the context sees it: its identity (the address held by the
`shared_ptr`) and its `getSetLayoutKeys()`. -/
structure Shader where
  id : Nat
  setLayoutKeys : List Nat
deriving DecidableEq, Repr

/-- The reflection results the context asks its `ShaderManager` for. -/
structure ShaderManager where
  /-- The `getDescriptorInfos()` map: uniform key and descriptor, in iteration order. -/
  descriptorInfos : List (Nat × DescriptorInfo)
  /-- The `getBindings(layoutKey)` table: binding number and descriptor, in iteration order. -/
  bindings : Nat → List (Nat × DescriptorInfo)
  /-- The `getVkDescriptorSetLayout(layoutKey)` handle. -/
  vkDescriptorSetLayout : Nat → Handle
  /-- The `getNumDescriptorSets()` count. -/
  numDescriptorSets : Nat
  /-- The `getVkDescriptorPoolSizes()` list: descriptor type and count. -/
  poolSizes : List (DescriptorType × Nat)

/-- An `of::vk::Texture`: its sampler and image view. -/
structure Texture where
  sampler : Handle
  imageView : Handle
deriving DecidableEq, Repr

/-- The attribute arrays of an `ofMesh`, as bytes, with the element counts the
mesh reports. -/
structure Mesh where
  numVertices : Nat
  numColors : Nat
  numNormals : Nat
  numTexCoords : Nat
  numIndices : Nat
  vertices : List Nat := []
  colors : List Nat := []
  normals : List Nat := []
  texCoords : List Nat := []
  indices : List Nat := []
deriving DecidableEq, Repr

/-! ## The frame allocator -/

/-- Modelled from the spec: the frame allocator `of::vk::Allocator`, whose
source (`vk/vkAllocator.cpp`) is not among the files.  A ring of `frames`
linear arenas cut from one buffer of `size` bytes; `cursor` holds the bump
cursor of every slot. -/
structure Allocator where
  frames : Nat
  size : Nat
  alignment : Nat
  /-- Host address the buffer is mapped at. -/
  mapped : Handle
  cursor : List Nat
deriving DecidableEq, Repr

/-- What `Allocator::allocate` hands back: the status, the two reference
parameters `pAddr` and `offset`, and the allocator afterwards. -/
structure AllocResult where
  success : Bool
  pData : Handle
  offset : Nat
  alloc : Allocator
deriving DecidableEq, Repr

namespace Allocator

/-- Bytes of one virtual frame. -/
def slotSize (a : Allocator) : Nat := a.size / a.frames

/-- Round `x` up to a multiple of `al`. -/
def alignUp (x al : Nat) : Nat := if al = 0 then x else (x + al - 1) / al * al

/-- Modelled from the spec: `allocate(numBytes, pData, offset, frame)` of the
missing `vk/vkAllocator.cpp`.  The offset is rounded up to the alignment; the
call fails when the request exceeds what remains of the slot, and then it
leaves the reference parameters `pData` and `offset` as the caller passed them. -/
def allocate (a : Allocator) (numBytes : Nat) (pData : Handle) (offset : Nat)
    (frame : Nat) : AllocResult :=
  let start := alignUp (a.cursor.getD frame 0) a.alignment
  if frame < a.frames ∧ start + numBytes ≤ a.slotSize then
    { success := true
      pData := a.mapped + frame * a.slotSize + start
      offset := frame * a.slotSize + start
      alloc := { a with cursor := a.cursor.set frame (start + numBytes) } }
  else
    { success := false, pData := pData, offset := offset, alloc := a }

/-- Modelled from the spec: `free(frame)` of the missing `vk/vkAllocator.cpp`
rewinds the cursor of one slot. -/
def free (a : Allocator) (frame : Nat) : Allocator :=
  { a with cursor := a.cursor.set frame 0 }

/-- Modelled from the spec: `reset()` of the missing `vk/vkAllocator.cpp`
rewinds every slot. -/
def reset (a : Allocator) : Allocator :=
  { a with cursor := List.replicate a.frames 0 }

end Allocator

/-! ## Uniform blocks -/

/-- Modelled from the spec: the `UboState` record of a uniform block, declared
in the revision of `Context.h` that is not among the sources: the bytes of the
block, where they were last uploaded and under which id.  `stackId = -1` means
dirty, which is what a new block is.  The fields are the ones `Context.cpp`
reads and writes; the ids are mathematical integers. -/
structure UboState where
  stackId : Int := -1
  memoryOffset : Nat := 0
  data : List Nat := []
deriving DecidableEq, Repr

/-- Modelled from the spec: the `UboStack` record, one per uniform block,
declared in the revision of `Context.h` that is not among the sources.  The
fields are the ones `Context.cpp` reads and writes, and a stack of saved
states; the counter `lastSavedStackId` starts at `-1`. -/
structure UboStack where
  name : String := ""
  struct_size : Nat := 0
  lastSavedStackId : Int := -1
  state : UboState := {}
  stateStack : List UboState := []
deriving DecidableEq, Repr

namespace UboStack

/-- Modelled from the spec: `UboStack::reset()`, declared in the missing
header, marks the block dirty so that the first draw of a frame uploads it. -/
def reset (u : UboStack) : UboStack :=
  { u with state := { u.state with stackId := -1 } }

/-- Modelled from the spec: `UboStack::push()`, declared in the missing
header, saves a snapshot of the current state of the block on its stack. -/
def push (u : UboStack) : UboStack :=
  { u with stateStack := u.state :: u.stateStack }

/-- Modelled from the spec: `UboStack::pop()`, declared in the missing header,
restores the most recent snapshot and marks the block dirty. -/
def pop (u : UboStack) : UboStack :=
  match u.stateStack with
  | [] => u
  | s :: rest => { u with state := { s with stackId := -1 }, stateStack := rest }

end UboStack

/-- The `UboBindingInfo` record as `initialiseFrameState` fills it: where a
member lives inside its block.  `buffer` is the address of the block, an entry
of `uboState`, given by its key. -/
structure UboBindingInfo where
  offset : Nat
  range : Nat
  buffer : Nat
deriving DecidableEq, Repr

/-- A binding table: binding number to uniform hash, a `std::map`. -/
abbrev BindingTable := Map Nat

/-- The `Frame` record behind `mCurrentFrameState`, with the members
`Context.cpp` uses; a new frame is empty and not initialised. -/
structure Frame where
  initialised : Bool := false
  uboState : Map UboStack := []
  uboNames : StrMap Nat := []
  mUboMembers : StrMap UboBindingInfo := []
  mUniformImages : StrMap Texture := []
  bindingOffsets : List Nat := []
deriving DecidableEq, Repr

/-- The `PipelineLayoutState` record behind `mPipelineLayoutState`, with the
members `Context.cpp` uses; a new one is empty. -/
structure PipelineLayoutState where
  setLayoutKeys : List Nat := []
  dirtySetIndices : List Nat := []
  vkDescriptorSets : List Handle := []
  bindingState : List BindingTable := []
  descriptorSetCache : Map Handle := []
  bindingStateCache : Map BindingTable := []
deriving DecidableEq, Repr

/-! ## Pipeline state -/

/-- Modelled from the spec: the `GraphicsPipelineState` of `vk/Pipeline.h`,
which is not among the sources, with the members the context sets: the dirty
flag, the shader, the render pass and the polygon mode of the rasterization
state.  A new state is dirty and has no shader. -/
structure GraphicsPipelineState where
  mDirty : Bool := true
  mShader : Option Shader := none
  mRenderPass : Handle := 0
  mPolygonMode : Nat := 0
deriving DecidableEq, Repr

namespace GraphicsPipelineState

/-- Modelled from the spec: `GraphicsPipelineState::reset()`, declared in the
missing `vk/Pipeline.h`, returns to the default state, which is dirty. -/
def reset (_s : GraphicsPipelineState) : GraphicsPipelineState := {}

/-- Modelled from the spec: `GraphicsPipelineState::setShader`, declared in the
missing `vk/Pipeline.h`: the dirty flag is raised when the shader changes. -/
def setShader (s : GraphicsPipelineState) (shader : Option Shader) : GraphicsPipelineState :=
  if s.mShader.map Shader.id = shader.map Shader.id then s
  else { s with mShader := shader, mDirty := true }

/-- Modelled from the spec: `GraphicsPipelineState::setRenderPass`, declared in
the missing `vk/Pipeline.h`: the dirty flag is raised when the pass changes. -/
def setRenderPass (s : GraphicsPipelineState) (renderPass : Handle) : GraphicsPipelineState :=
  if s.mRenderPass = renderPass then s
  else { s with mRenderPass := renderPass, mDirty := true }

/-- Modelled from the spec: `setPolyMode`, declared in the missing
`vk/Pipeline.h`: the dirty flag is raised when the mode changes. -/
def setPolyMode (s : GraphicsPipelineState) (mode : Nat) : GraphicsPipelineState :=
  if s.mPolygonMode = mode then s
  else { s with mPolygonMode := mode, mDirty := true }

end GraphicsPipelineState

/-! ## The world outside -/

/-- Everything the context cannot compute itself.  `calculateHash` belongs
to the missing `vk/Pipeline.h`; the other fields are answers of the Vulkan
driver, which may depend on when the call is made (the length of the trace at
that moment). -/
structure Driver where
  /-- The `GraphicsPipelineState::calculateHash()` of the missing header. -/
  calculateHash : GraphicsPipelineState → Nat
  /-- Status (`true` is `VK_SUCCESS`) and pipeline written by `vkCreateGraphicsPipelines`. -/
  vkCreateGraphicsPipelines : Nat → GraphicsPipelineState → Bool × Handle
  /-- Status and descriptor set written by `vkAllocateDescriptorSets` for a pool and a layout. -/
  vkAllocateDescriptorSets : Nat → Handle → Handle → Bool × Handle
  /-- The pool written by `vkCreateDescriptorPool`. -/
  vkCreateDescriptorPool : Nat → Handle
  /-- The cache returned by `of::vk::createPipelineCache`. -/
  createPipelineCache : Nat → Handle
  /-- Alignment the device asks of the allocator, and where its buffer is mapped. -/
  allocatorAlignment : Nat
  allocatorMapped : Handle

/-- One entry of the `VkWriteDescriptorSet` array built by `updateDescriptorSets`. -/
structure DescriptorWrite where
  dstSet : Handle
  dstBinding : Nat
  count : Nat
  type : DescriptorType
  /-- For a buffer descriptor: offset and range into the shared buffer. -/
  bufferInfo : Option (Nat × Nat) := none
  /-- For an image descriptor: sampler and image view. -/
  imageInfo : Option (Handle × Handle) := none
deriving DecidableEq, Repr

/-- The calls that leave the context, in the order they are made. -/
inductive Event
  | createPipeline (pipelineHash : Nat) (success : Bool) (pipeline : Handle)
  | cmdBindPipeline (pipeline : Handle)
  | allocateDescriptorSets (pool : Handle) (layoutKey : Nat) (success : Bool) (set : Handle)
  | updateDescriptorSets (writes : List DescriptorWrite)
  | cmdBindDescriptorSets (sets : List Handle) (dynamicOffsets : List Nat)
  | allocate (numBytes frame : Nat) (success : Bool) (offset : Nat)
  | memcpy (dst : Handle) (src : List Nat) (numBytes : Nat)
  | createVkDescriptorSetLayouts
  | createDescriptorPool (pool : Handle)
  | resetDescriptorPool (pool : Handle)
  | destroyDescriptorPool (pool : Handle)
  | destroyPipeline (pipeline : Handle)
  | destroyPipelineCache (cache : Handle)
  | cmdBindVertexBuffers (offsets : List Nat)
  | cmdBindIndexBuffer (offset : Nat)
  | cmdDraw (vertexCount : Nat)
  | cmdDrawIndexed (indexCount : Nat)
  | logError (msg : String)
  | logWarning (msg : String)
  | logNotice (msg : String)
deriving DecidableEq, Repr

/-! ## The context -/

/-- The `Context::Settings` record. -/
structure Settings where
  device : Handle := 1
  numVirtualFrames : Nat
  defaultRenderPass : Handle := 1
deriving DecidableEq, Repr

/-- The members of `of::vk::Context`, and the trace of its outside calls. -/
structure Context where
  mSettings : Settings
  mShaderManager : ShaderManager
  mAlloc : Allocator
  mPipelineCache : Handle := 0
  mDescriptorPool : List Handle := []
  mShaders : List Shader := []
  mCurrentFrameState : Frame := {}
  mFrameIndex : Nat := 0
  mVkPipelines : Map Handle := []
  mCurrentVkPipeline : Handle := 0
  mCurrentGraphicsPipelineState : GraphicsPipelineState := {}
  mPipelineLayoutState : PipelineLayoutState := {}
  trace : List Event := []

/-- Append one event to the trace. -/
def Context.emit (c : Context) (e : Event) : Context :=
  { c with trace := c.trace ++ [e] }

/-! ## Pipeline.cpp -/

/-- The `GraphicsPipelineState::createPipeline` of `Pipeline.cpp`: one call of
`vkCreateGraphicsPipelines`, an error line when the driver refuses, and the
pipeline the driver wrote (`nullptr` when it wrote none) returned either way.
The events are tagged with the hash of the state being compiled. -/
def GraphicsPipelineState.createPipeline (d : Driver) (time : Nat)
    (s : GraphicsPipelineState) : Handle × List Event :=
  let r := d.vkCreateGraphicsPipelines time s
  (r.2,
    [Event.createPipeline (d.calculateHash s) r.1 r.2]
      ++ (if r.1 then [] else [Event.logError "Vulkan error in Pipeline.cpp"])
      ++ [Event.logNotice "here endpipeline"])

/-- The warning that `initialiseFrameState` logs for a bare member name that
is already taken. -/
def ambiguityWarning (memberName : String) : Event :=
  Event.logWarning
    ("Shader analysis: UBO Member name is ambiguous: " ++ memberName ++ "\n"
      ++ "More than one UBO Block reference a variable with name: " ++ memberName)

namespace Context

/-! ## Context.cpp: life cycle -/

/-- The `Context::setup` method: builds the allocator for `numVirtualFrames`
frames and creates the pipeline cache. -/
def setup (d : Driver) (c : Context) : Context :=
  let frames := c.mSettings.numVirtualFrames % 2 ^ 32
  { c with
    mAlloc :=
      { frames := frames
        size := (2 <<< 24) * frames
        alignment := d.allocatorAlignment
        mapped := d.allocatorMapped
        cursor := List.replicate frames 0 }
    mPipelineCache := d.createPipelineCache c.trace.length }

/-- The `Context::reset` method: destroys the descriptor pools, the pipelines
and the pipeline cache, and empties the pipeline map. -/
def reset (c : Context) : Context :=
  { c with
    mDescriptorPool := []
    mCurrentFrameState := { c.mCurrentFrameState with initialised := false }
    mAlloc := c.mAlloc.reset
    mVkPipelines := []
    mPipelineCache := 0
    trace := c.trace
      ++ c.mDescriptorPool.map Event.destroyDescriptorPool
      ++ (c.mVkPipelines.filter (fun p => p.2 ≠ 0)).map (fun p => Event.destroyPipeline p.2)
      ++ (if c.mPipelineCache ≠ 0 then [Event.destroyPipelineCache c.mPipelineCache] else []) }

/-- The `Context::addShader` method: refused with an error line once the
context is initialised. -/
def addShader (shader : Shader) (c : Context) : Context :=
  if c.mCurrentFrameState.initialised then
    c.emit (Event.logError
      ("Cannot add shader after Context has been initialised. "
        ++ "Add shader before you begin context for the first time."))
  else
    { c with mShaders := c.mShaders ++ [shader] }

/-- One turn of the inner loop of `initialiseFrameState`: registers a member
of block `blockName` (stored under `uniformKey`) under its qualified and its
bare name; a bare name that is already taken is left as it is and reported. -/
def registerMember (uniformKey : Nat) (blockName : String)
    (acc : Frame × List Event) (member : String × (Nat × Nat)) : Frame × List Event :=
  let m : UboBindingInfo :=
    { offset := member.2.1 % 2 ^ 32, range := member.2.2 % 2 ^ 32, buffer := uniformKey }
  let qualified := acc.1.mUboMembers.assign (blockName ++ "." ++ member.1) m
  let insertionResult := StrMap.insert qualified member.1 m
  ({ acc.1 with mUboMembers := insertionResult.1 },
    if insertionResult.2 then acc.2
    else acc.2 ++ [ambiguityWarning member.1])

/-- One turn of the outer loop of `initialiseFrameState`: a dynamic uniform
buffer gets a zeroed block and its members, an image sampler gets a fresh
texture, anything else is skipped. -/
def registerDescriptor (acc : Frame × List Event) (b : Nat × DescriptorInfo) :
    Frame × List Event :=
  let uniformKey := b.1
  let descriptorInfo := b.2
  match descriptorInfo.type with
  | DescriptorType.uniformBufferDynamic =>
    let uboState : UboStack :=
      { name := descriptorInfo.name
        struct_size := descriptorInfo.storageSize
        state := { data := List.replicate descriptorInfo.storageSize 0 } }
    let frame : Frame :=
      { acc.1 with
        uboState := acc.1.uboState.assign uniformKey uboState
        uboNames := acc.1.uboNames.assign descriptorInfo.name uniformKey }
    descriptorInfo.memberRanges.foldl (registerMember uniformKey descriptorInfo.name) (frame, acc.2)
  | DescriptorType.combinedImageSampler =>
    ({ acc.1 with mUniformImages := acc.1.mUniformImages.assign descriptorInfo.name ⟨0, 0⟩ }, acc.2)
  | DescriptorType.other => acc

/-- The frame that `initialiseFrameState` builds from the descriptors, with
the warnings it logs on the way. -/
def buildFrame (infos : List (Nat × DescriptorInfo)) : Frame × List Event :=
  infos.foldl registerDescriptor ({}, [])

/-- The `Context::initialiseFrameState` method: the frame state is replaced by
one built from all descriptors the shader manager knows. -/
def initialiseFrameState (c : Context) : Context :=
  let r := buildFrame c.mShaderManager.descriptorInfos
  { c with mCurrentFrameState := r.1, trace := c.trace ++ r.2 }

/-- The `Context::setupDescriptorPool` method: existing pools are reset, and
when there is none one pool per virtual frame is created. -/
def setupDescriptorPool (d : Driver) (c : Context) : Context :=
  if c.mDescriptorPool ≠ [] then
    { c with
      trace := c.trace ++ (c.mDescriptorPool.map fun p =>
        [Event.logNotice "DescriptorPool re-initialised. Resetting.", Event.resetDescriptorPool p]).flatten }
  else
    let pools := (List.range c.mSettings.numVirtualFrames).map
      fun i => d.vkCreateDescriptorPool (c.trace.length + i)
    { c with mDescriptorPool := pools, trace := c.trace ++ pools.map Event.createDescriptorPool }

/-- The `Context::begin` method. -/
def begin (d : Driver) (frame_ : Nat) (c : Context) : Context :=
  let c1 := { c with mFrameIndex := frame_, mAlloc := c.mAlloc.free frame_ }
  let c2 :=
    if c1.mCurrentFrameState.initialised = false then
      let c3 := initialiseFrameState (setupDescriptorPool d (c1.emit Event.createVkDescriptorSetLayouts))
      { c3 with mCurrentFrameState := { c3.mCurrentFrameState with initialised := true } }
    else c1
  let c4 :=
    { c2 with
      mCurrentFrameState :=
        { c2.mCurrentFrameState with
          uboState := c2.mCurrentFrameState.uboState.map
            fun (p : Nat × UboStack) => (p.1, p.2.reset) } }
  let c5 := c4.emit (Event.resetDescriptorPool (c4.mDescriptorPool.getD frame_ 0))
  { c5 with
    mCurrentGraphicsPipelineState :=
      (c5.mCurrentGraphicsPipelineState.reset.setShader c5.mShaders.head?).setRenderPass
        c5.mSettings.defaultRenderPass
    mPipelineLayoutState := {} }

/-- The `Context::end` method does nothing. -/
def «end» (c : Context) : Context := c

/-- The `Context::setShader` method. -/
def setShader (shader : Shader) (c : Context) : Context :=
  { c with mCurrentGraphicsPipelineState := c.mCurrentGraphicsPipelineState.setShader (some shader) }

/-- The `Context::setRenderPass` method. -/
def setRenderPass (renderpass_ : Handle) (c : Context) : Context :=
  { c with mCurrentGraphicsPipelineState := c.mCurrentGraphicsPipelineState.setRenderPass renderpass_ }

/-- Modelled from the spec: `Context::setPolyMode`, defined in the missing
header, forwards to the pipeline state. -/
def setPolyMode (mode : Nat) (c : Context) : Context :=
  { c with mCurrentGraphicsPipelineState := c.mCurrentGraphicsPipelineState.setPolyMode mode }

/-- Apply `f` to the block that the pointer `key` refers to. -/
def withUbo (key : Nat) (f : UboStack → UboStack) (c : Context) : Context :=
  match c.mCurrentFrameState.uboState.find key with
  | none => c
  | some u =>
    { c with
      mCurrentFrameState :=
        { c.mCurrentFrameState with uboState := c.mCurrentFrameState.uboState.assign key (f u) } }

/-- The `Context::pushBuffer` method. -/
def pushBuffer (ubo_ : String) (c : Context) : Context :=
  match c.mCurrentFrameState.uboNames.find ubo_ with
  | some key => withUbo key UboStack.push c
  | none => c

/-- The `Context::popBuffer` method. -/
def popBuffer (ubo_ : String) (c : Context) : Context :=
  match c.mCurrentFrameState.uboNames.find ubo_ with
  | some key => withUbo key UboStack.pop c
  | none => c

/-- Modelled from the spec: `Context::setUniform`, a template of the missing
header: the bytes of the value are written into the range of the member inside
its block and the block is marked dirty. -/
def setUniform (name : String) (bytes : List Nat) (c : Context) : Context :=
  match c.mCurrentFrameState.mUboMembers.find name with
  | none => c
  | some m =>
    withUbo m.buffer (fun u =>
      let src := bytes.take m.range
      { u with
        state :=
          { u.state with
            data := u.state.data.take m.offset ++ src ++ u.state.data.drop (m.offset + src.length)
            stackId := -1 } }) c

/-- The `Context::debugSetTexture` method. -/
def debugSetTexture (name : String) (tex : Texture) (c : Context) : Context :=
  { c with
    mCurrentFrameState :=
      { c.mCurrentFrameState with
        mUniformImages := c.mCurrentFrameState.mUniformImages.assign name tex } }

/-! ## Context.cpp: drawing -/

/-- One call `mAlloc->allocate(numBytes, pData, offset, mFrameIndex)`. -/
def allocate (c : Context) (numBytes : Nat) (pData : Handle) (offset : Nat) :
    Context × AllocResult :=
  let r := c.mAlloc.allocate numBytes pData offset c.mFrameIndex
  ({ c with mAlloc := r.alloc, trace := c.trace ++ [Event.allocate numBytes c.mFrameIndex r.success r.offset] }, r)

/-- The pattern `if ( mAlloc->allocate( numBytes, pData, offset, mFrameIndex ) )
memcpy( pData, src, numBytes )` of `storeMesh`; returns the context, `pData`,
`offset` and the status. -/
def allocateAndCopy (c : Context) (numBytes : Nat) (pData : Handle) (offset : Nat)
    (src : List Nat) : Context × Handle × Nat × Bool :=
  let r := c.allocate numBytes pData offset
  if r.2.success then
    (r.1.emit (Event.memcpy r.2.pData src numBytes), r.2.pData, r.2.offset, true)
  else
    (r.1, r.2.pData, r.2.offset, false)

/-- The `Context::storeMesh` method: context afterwards, `vertexOffsets`,
`indexOffsets` and the returned flag. -/
def storeMesh (mesh_ : Mesh) (vertexOffsets indexOffsets : List Nat) (c : Context) :
    Context × List Nat × List Nat × Bool :=
  let numVertices := mesh_.numVertices % 2 ^ 32
  let numColors := mesh_.numColors % 2 ^ 32
  let numNormals := mesh_.numNormals % 2 ^ 32
  let numTexCooords := mesh_.numTexCoords % 2 ^ 32
  let numIndices := mesh_.numIndices % 2 ^ 32
  let vertexOffsets := resize vertexOffsets 4 0
  let r0 := c.allocateAndCopy (numVertices * 12 % 2 ^ 32) 0 (vertexOffsets.getD 0 0) mesh_.vertices
  let vertexOffsets := vertexOffsets.set 0 r0.2.2.1
  let r1 := r0.1.allocateAndCopy (numColors * 16 % 2 ^ 32) r0.2.1 (vertexOffsets.getD 1 0) mesh_.colors
  let vertexOffsets := vertexOffsets.set 1 r1.2.2.1
  let r2 := r1.1.allocateAndCopy (numNormals * 12 % 2 ^ 32) r1.2.1 (vertexOffsets.getD 2 0) mesh_.normals
  let vertexOffsets := vertexOffsets.set 2 r2.2.2.1
  let r3 := r2.1.allocateAndCopy (numTexCooords * 8 % 2 ^ 32) r2.2.1 (vertexOffsets.getD 3 0) mesh_.texCoords
  let vertexOffsets := vertexOffsets.set 3 r3.2.2.1
  let r4 := r3.1.allocate (numIndices * 4 % 2 ^ 32) r3.2.1 0
  if r4.2.success then
    (r4.1.emit (Event.memcpy r4.2.pData mesh_.indices (numIndices * 4 % 2 ^ 32)),
      vertexOffsets, indexOffsets ++ [r4.2.offset], false)
  else
    (r4.1, vertexOffsets, indexOffsets, false)

/-- One turn of the inner loop of `updateDescriptorSets`: the write for one
binding of set `j`, and the binding entered into `bindingState[j]`. -/
def writeBinding (j : Nat) (acc : Context × List DescriptorWrite) (b : Nat × DescriptorInfo) :
    Context × List DescriptorWrite :=
  let c := acc.1
  let bindingNumber := b.1
  let descriptorInfo := b.2
  let dstSet := c.mPipelineLayoutState.vkDescriptorSets.getD j 0
  let writes :=
    match descriptorInfo.type with
    | DescriptorType.uniformBufferDynamic =>
      acc.2 ++ [{ dstSet := dstSet, dstBinding := bindingNumber, count := descriptorInfo.count
                  type := descriptorInfo.type, bufferInfo := some (0, descriptorInfo.storageSize) }]
    | DescriptorType.combinedImageSampler =>
      let texture := (c.mCurrentFrameState.mUniformImages.find descriptorInfo.name).getD ⟨0, 0⟩
      acc.2 ++ [{ dstSet := dstSet, dstBinding := bindingNumber, count := descriptorInfo.count
                  type := descriptorInfo.type, imageInfo := some (texture.sampler, texture.imageView) }]
    | DescriptorType.other => acc.2
  let table := (Map.insert (c.mPipelineLayoutState.bindingState.getD j []) bindingNumber descriptorInfo.hash).1
  ({ c with
      mPipelineLayoutState :=
        { c.mPipelineLayoutState with
          bindingState := c.mPipelineLayoutState.bindingState.set j table } },
    writes)

/-- One turn of the outer loop of `updateDescriptorSets`: the binding table of
set `j` is cleared and rebuilt from the bindings of its layout. -/
def writeSet (acc : Context × List DescriptorWrite) (j : Nat) : Context × List DescriptorWrite :=
  let c := acc.1
  let key := c.mPipelineLayoutState.setLayoutKeys.getD j 0
  let bindings := c.mShaderManager.bindings key
  let c1 : Context :=
    { c with
      mPipelineLayoutState :=
        { c.mPipelineLayoutState with
          bindingState := c.mPipelineLayoutState.bindingState.set j [] } }
  bindings.foldl (writeBinding j) (c1, acc.2)

/-- The `Context::updateDescriptorSets` method: all writes of the given sets
go to the driver in one call. -/
def updateDescriptorSets (setIndices : List Nat) (c : Context) : Context :=
  let r := setIndices.foldl writeSet (c, [])
  r.1.emit (Event.updateDescriptorSets r.2)

/-- One turn of the first loop of `updateDescriptorSetState`, for the dirty set
index `i`; the second component is `allocatedSetIndices`. -/
def resolveSet (d : Driver) (acc : Context × List Nat) (i : Nat) : Context × List Nat :=
  let c := acc.1
  let pls := c.mPipelineLayoutState
  let descriptorSetLayoutHash := pls.setLayoutKeys.getD i 0
  match pls.descriptorSetCache.find descriptorSetLayoutHash with
  | some previouslyAllocatedDescriptorSet =>
    ({ c with
        mPipelineLayoutState :=
          { pls with
            vkDescriptorSets := pls.vkDescriptorSets.set i previouslyAllocatedDescriptorSet
            bindingState := pls.bindingState.set i (pls.bindingStateCache.findD descriptorSetLayoutHash [])
            bindingStateCache :=
              if pls.bindingStateCache.contains descriptorSetLayoutHash then pls.bindingStateCache
              else pls.bindingStateCache.assign descriptorSetLayoutHash [] } },
      acc.2)
  | none =>
    let layout := c.mShaderManager.vkDescriptorSetLayout descriptorSetLayoutHash
    let pool := c.mDescriptorPool.getD c.mFrameIndex 0
    let r := d.vkAllocateDescriptorSets c.trace.length pool layout
    let sets := pls.vkDescriptorSets.set i r.2
    ({ c with
        mPipelineLayoutState :=
          { pls with
            vkDescriptorSets := sets
            descriptorSetCache := pls.descriptorSetCache.assign descriptorSetLayoutHash (sets.getD i 0) }
        trace := c.trace
          ++ [Event.allocateDescriptorSets pool descriptorSetLayoutHash r.1 r.2]
          ++ (if r.1 then [] else [Event.logWarning "Failed to allocate descriptors"]) },
      acc.2 ++ [i])

/-- One turn of the second loop of `updateDescriptorSetState`: the table just
built for set `i` is stored in the cache under the layout key of the set. -/
def cacheBindingState (c : Context) (i : Nat) : Context :=
  let pls := c.mPipelineLayoutState
  { c with
    mPipelineLayoutState :=
      { pls with
        bindingStateCache :=
          pls.bindingStateCache.assign (pls.setLayoutKeys.getD i 0) (pls.bindingState.getD i []) } }

/-- The `Context::updateDescriptorSetState` method. -/
def updateDescriptorSetState (d : Driver) (c : Context) : Context :=
  if c.mPipelineLayoutState.dirtySetIndices = [] then c
  else
    let r := c.mPipelineLayoutState.dirtySetIndices.foldl (resolveSet d) (c, [])
    let c1 :=
      if r.2 ≠ [] then (r.2.foldl cacheBindingState (updateDescriptorSets r.2 r.1)) else r.1
    { c1 with mPipelineLayoutState := { c1.mPipelineLayoutState with dirtySetIndices := [] } }

/-- One turn of the inner loop of `flushUniformBufferState`, for a binding
whose uniform hash is `uniformHash`; the second component is `currentOffsets`. -/
def flushBinding (acc : Context × List Nat) (binding : Nat × Nat) : Context × List Nat :=
  let c := acc.1
  let uniformHash := binding.2
  match c.mCurrentFrameState.uboState.find uniformHash with
  | none => acc
  | some uniformBuffer =>
    if uniformBuffer.state.stackId = -1 then
      let numBytes := uniformBuffer.struct_size
      let r := c.allocate numBytes 0 0
      let pDst := r.2.pData
      let newOffset := r.2.offset
      let c1 := if r.2.success then r.1 else r.1.emit (Event.logError "out of buffer space.")
      let c2 := c1.emit (Event.memcpy pDst uniformBuffer.state.data numBytes)
      let saved : UboStack :=
        { uniformBuffer with
          lastSavedStackId := uniformBuffer.lastSavedStackId + 1
          state :=
            { uniformBuffer.state with
              memoryOffset := newOffset
              stackId := uniformBuffer.lastSavedStackId + 1 } }
      ({ c2 with
          mCurrentFrameState :=
            { c2.mCurrentFrameState with
              uboState := c2.mCurrentFrameState.uboState.assign uniformHash saved } },
        acc.2 ++ [newOffset % 2 ^ 32])
    else
      (c, acc.2 ++ [uniformBuffer.state.memoryOffset % 2 ^ 32])

/-- The outer loop of `flushUniformBufferState`, over one binding table. -/
def flushTable (acc : Context × List Nat) (bindingTable : BindingTable) : Context × List Nat :=
  bindingTable.foldl flushBinding acc

/-- The `Context::flushUniformBufferState` method. -/
def flushUniformBufferState (d : Driver) (c : Context) : Context :=
  let c1 := updateDescriptorSetState d c
  let r := c1.mPipelineLayoutState.bindingState.foldl flushTable (c1, [])
  { r.1 with mCurrentFrameState := { r.1.mCurrentFrameState with bindingOffsets := r.2 } }

/-- The `Context::bindDescriptorSets` method. -/
def bindDescriptorSets (c : Context) : Context :=
  c.emit (Event.cmdBindDescriptorSets c.mPipelineLayoutState.vkDescriptorSets
    c.mCurrentFrameState.bindingOffsets)

/-- One turn of the loop of `bindPipeline` over the set indices; the flag is
`foundIncompatible`. -/
def invalidateSet (layouts : List Nat) (acc : PipelineLayoutState × Bool) (i : Nat) :
    PipelineLayoutState × Bool :=
  if acc.1.setLayoutKeys.getD i 0 ≠ layouts.getD i 0 ∨ acc.2 = true then
    ({ acc.1 with
        setLayoutKeys := acc.1.setLayoutKeys.set i (layouts.getD i 0)
        vkDescriptorSets := acc.1.vkDescriptorSets.set i 0
        dirtySetIndices := acc.1.dirtySetIndices ++ [i] },
      true)
  else acc

/-- The part of `bindPipeline` that brings the layout state in line with the
layouts of the new shader. -/
def rebindLayouts (layouts : List Nat) (pls : PipelineLayoutState) : PipelineLayoutState :=
  let resized : PipelineLayoutState :=
    { pls with
      setLayoutKeys := resize pls.setLayoutKeys layouts.length 0
      vkDescriptorSets := resize pls.vkDescriptorSets layouts.length 0
      bindingState := resize pls.bindingState layouts.length [] }
  ((List.range layouts.length).foldl (invalidateSet layouts) (resized, false)).1

/-- The `Context::bindPipeline` method. -/
def bindPipeline (d : Driver) (c : Context) : Context :=
  if c.mCurrentGraphicsPipelineState.mDirty = false then c
  else
    let layouts := match c.mCurrentGraphicsPipelineState.mShader with
      | some shader => shader.setLayoutKeys
      | none => []
    let pipelineHash := d.calculateHash c.mCurrentGraphicsPipelineState
    let c1 : Context :=
      match c.mVkPipelines.find pipelineHash with
      | none =>
        let c0 := c.emit (Event.logNotice "Creating pipeline")
        let r := c0.mCurrentGraphicsPipelineState.createPipeline d c0.trace.length
        { c0 with mVkPipelines := c0.mVkPipelines.assign pipelineHash r.1, trace := c0.trace ++ r.2 }
      | some _ => c
    let c2 := { c1 with mCurrentVkPipeline := c1.mVkPipelines.findD pipelineHash 0 }
    let c3 := { c2 with mPipelineLayoutState := rebindLayouts layouts c2.mPipelineLayoutState }
    let c4 := c3.emit (Event.cmdBindPipeline c3.mCurrentVkPipeline)
    { c4 with mCurrentGraphicsPipelineState := { c4.mCurrentGraphicsPipelineState with mDirty := false } }

/-- The `Context::draw` method. -/
def draw (d : Driver) (mesh_ : Mesh) (c : Context) : Context :=
  let c1 := bindDescriptorSets (flushUniformBufferState d (bindPipeline d c))
  let r := storeMesh mesh_ [] [] c1
  let vertexOffsets := r.2.1
  let indexOffsets := r.2.2.1
  let c2 := r.1.emit (Event.cmdBindVertexBuffers vertexOffsets)
  match indexOffsets with
  | [] => c2.emit (Event.cmdDraw (mesh_.numVertices % 2 ^ 32))
  | indexOffset :: _ =>
    (c2.emit (Event.cmdBindIndexBuffer indexOffset)).emit (Event.cmdDrawIndexed (mesh_.numIndices % 2 ^ 32))

end Context

/-! ## Sequences of calls -/

/-- A call of a method of the context. -/
inductive Op
  | setup
  | reset
  | addShader (shader : Shader)
  | begin (frame : Nat)
  | endFrame
  | setShader (shader : Shader)
  | setRenderPass (renderPass : Handle)
  | setPolyMode (mode : Nat)
  | pushBuffer (ubo : String)
  | popBuffer (ubo : String)
  | setUniform (name : String) (bytes : List Nat)
  | debugSetTexture (name : String) (tex : Texture)
  | bindPipeline
  | updateDescriptorSetState
  | flushUniformBufferState
  | bindDescriptorSets
  | storeMesh (mesh : Mesh)
  | draw (mesh : Mesh)
deriving DecidableEq, Repr

/-- The effect of one call. -/
def step (d : Driver) (c : Context) : Op → Context
  | Op.setup => c.setup d
  | Op.reset => c.reset
  | Op.addShader shader => c.addShader shader
  | Op.begin frame => c.begin d frame
  | Op.endFrame => c.end
  | Op.setShader shader => c.setShader shader
  | Op.setRenderPass renderPass => c.setRenderPass renderPass
  | Op.setPolyMode mode => c.setPolyMode mode
  | Op.pushBuffer ubo => c.pushBuffer ubo
  | Op.popBuffer ubo => c.popBuffer ubo
  | Op.setUniform name bytes => c.setUniform name bytes
  | Op.debugSetTexture name tex => c.debugSetTexture name tex
  | Op.bindPipeline => c.bindPipeline d
  | Op.updateDescriptorSetState => c.updateDescriptorSetState d
  | Op.flushUniformBufferState => c.flushUniformBufferState d
  | Op.bindDescriptorSets => c.bindDescriptorSets
  | Op.storeMesh mesh => (c.storeMesh mesh [] []).1
  | Op.draw mesh => c.draw d mesh

/-- The effect of a sequence of calls. -/
def run (d : Driver) (c : Context) (ops : List Op) : Context :=
  ops.foldl (step d) c

/-! ## Observations on traces -/

/-- Whether an event is a call of `createPipeline` for the state hash `h`. -/
def Event.isCreatePipeline (h : Nat) : Event → Bool
  | Event.createPipeline h' _ _ => h' = h
  | _ => false

/-- How often `createPipeline` was invoked for the state hash `h`. -/
def createCount (h : Nat) (t : List Event) : Nat := t.countP (Event.isCreatePipeline h)

/-- Whether an event is a call of `vkAllocateDescriptorSets` for the layout `key`. -/
def Event.isAllocateSet (key : Nat) : Event → Bool
  | Event.allocateDescriptorSets _ key' _ _ => key' = key
  | _ => false

/-- How often a descriptor set was allocated for the layout `key`. -/
def allocateSetCount (key : Nat) (t : List Event) : Nat := t.countP (Event.isAllocateSet key)

/-- Whether an event is one of the two costly driver calls the caches exist
to avoid: compiling a pipeline or allocating a descriptor set. -/
def Event.isDriverCall : Event → Bool
  | Event.createPipeline _ _ _ => true
  | Event.allocateDescriptorSets _ _ _ _ => true
  | _ => false

/-- What the cache claims look at: the pipeline map, the descriptor-set cache
and the number of events of the trace that satisfy `p`. -/
def cacheObs (p : Event → Bool) (c : Context) : Map Handle × Map Handle × Nat :=
  (c.mVkPipelines, c.mPipelineLayoutState.descriptorSetCache, c.trace.countP p)

/-- What the pipeline cache claims look at: the pipeline map and the number of
compilations for the state hash `h`. -/
def pipelineObs (h : Nat) (c : Context) : Map Handle × Nat :=
  (c.mVkPipelines, createCount h c.trace)

/-! ## A sample session -/

/-- A driver that never fails and hands out handles numbered by the time of the call. -/
def okDriver : Driver where
  calculateHash s := (s.mShader.map Shader.id).getD 0 * 100 + s.mRenderPass * 10 + s.mPolygonMode
  vkCreateGraphicsPipelines t _ := (true, 1000 + t)
  vkAllocateDescriptorSets t _ _ := (true, 2000 + t)
  vkCreateDescriptorPool t := 3000 + t
  createPipelineCache _ := 5
  allocatorAlignment := 256
  allocatorMapped := 4096

/-- A uniform block with two members. -/
def matricesInfo : DescriptorInfo :=
  { hash := 11, name := "DefaultMatrices", type := DescriptorType.uniformBufferDynamic, count := 1
    storageSize := 8, memberRanges := [("modelMatrix", (0, 4)), ("viewMatrix", (4, 4))] }

/-- A uniform block with one member. -/
def styleInfo : DescriptorInfo :=
  { hash := 12, name := "Style", type := DescriptorType.uniformBufferDynamic, count := 1
    storageSize := 4, memberRanges := [("globalColor", (0, 4))] }

/-- An image sampler. -/
def samplerInfo : DescriptorInfo :=
  { hash := 13, name := "tex", type := DescriptorType.combinedImageSampler, count := 1
    storageSize := 0, memberRanges := [] }

/-- Reflection results: layout `101` holds the two blocks, layout `102` the sampler. -/
def sampleManager : ShaderManager where
  descriptorInfos := [(11, matricesInfo), (12, styleInfo), (13, samplerInfo)]
  bindings k :=
    if k = 101 then [(0, matricesInfo), (1, styleInfo)]
    else if k = 102 then [(0, samplerInfo)] else []
  vkDescriptorSetLayout k := 7000 + k
  numDescriptorSets := 2
  poolSizes := [(DescriptorType.uniformBufferDynamic, 2), (DescriptorType.combinedImageSampler, 1)]

/-- A shader with one descriptor set. -/
def shaderA : Shader := { id := 1, setLayoutKeys := [101] }

/-- A shader with two descriptor sets, the second one holding the sampler. -/
def shaderB : Shader := { id := 2, setLayoutKeys := [101, 102] }

/-- A context as constructed, before `setup`. -/
def freshContext : Context :=
  { mSettings := { numVirtualFrames := 2 }
    mShaderManager := sampleManager
    mAlloc := { frames := 0, size := 0, alignment := 1, mapped := 0, cursor := [] } }

/-- A triangle with positions, normals and indices. -/
def triangle : Mesh :=
  { numVertices := 3, numColors := 0, numNormals := 3, numTexCoords := 0, numIndices := 3 }

/-- A frame that draws with shader A, then B, then A again. -/
def sessionOps : List Op :=
  [Op.setup, Op.addShader shaderA, Op.addShader shaderB, Op.begin 0,
    Op.setUniform "modelMatrix" [1, 2, 3, 4], Op.draw triangle,
    Op.setShader shaderB, Op.draw triangle, Op.setShader shaderA, Op.draw triangle]

/-- The sample session up to the second draw: shader B has just been set. -/
def beforeSecondBind : Context := run okDriver freshContext (sessionOps.take 7)

/-- The pipeline of shader B is bound and the polygon mode is changed: the
state is dirty again while the layouts are the ones already bound. -/
def rebindSameLayouts : Context :=
  Context.setPolyMode 1 (Context.bindPipeline okDriver beforeSecondBind)

/-- Whether a call is `begin`, which opens a new frame. -/
def Op.isBegin : Op → Bool
  | Op.begin _ => true
  | _ => false

/-- What the descriptor-set cache claims look at: the cache and the number of
allocations for the layout `key`. -/
def setCacheObs (key : Nat) (c : Context) : Map Handle × Nat :=
  (c.mPipelineLayoutState.descriptorSetCache, allocateSetCount key c.trace)

/-- How a cache and the count of the driver calls that fill it may move for
the key `k`: an entry stays as it is and costs no call; a missing entry costs
at most one call, after which it is present. -/
def CacheStep (k : Nat) (a b : Map Handle × Nat) : Prop :=
  (∀ s, a.1.find k = some s → b.1.find k = some s ∧ b.2 = a.2)
    ∧ (b.2 = a.2 ∨ (b.1.contains k = true ∧ a.1.find k = none ∧ b.2 = a.2 + 1))

/-- The sample session right after `begin`. -/
def afterBegin : Context := run okDriver freshContext (sessionOps.take 4)

/-- The calls of the sample session that follow `begin`: three draws in one frame. -/
def frameOps : List Op := sessionOps.drop 4

/-- A shader whose two descriptor sets share the layout `101`. -/
def shaderTwin : Shader := { id := 3, setLayoutKeys := [101, 101] }

/-- A frame is begun with the twin shader and its pipeline is bound: both set
indices are dirty. -/
def twinBound : Context :=
  run okDriver freshContext [Op.setup, Op.addShader shaderTwin, Op.begin 0, Op.bindPipeline]

/-- A mesh whose positions fill the slot of a frame to its last byte. -/
def bigMesh : Mesh :=
  { numVertices := 2796160, numColors := 0, numNormals := 0, numTexCoords := 0, numIndices := 0 }

/-- A frame in which the big mesh was drawn and a uniform was written after
it: the block of the uniform is dirty and the slot has no room left. -/
def exhausted : Context :=
  run okDriver freshContext
    [Op.setup, Op.addShader shaderA, Op.begin 0, Op.draw bigMesh,
      Op.setUniform "modelMatrix" [1, 2, 3, 4]]

/-- A texture other than the one the frame state starts with. -/
def newTexture : Texture := ⟨77, 78⟩

/-- A frame that draws with the sampler layout `102`, changes the texture,
draws with shader A and then with the sampler layout again. -/
def textureOps : List Op :=
  [Op.setup, Op.addShader shaderB, Op.addShader shaderA, Op.begin 0, Op.draw triangle,
    Op.debugSetTexture "tex" newTexture, Op.setShader shaderA, Op.draw triangle,
    Op.setShader shaderB, Op.draw triangle]

/-- Whether an event writes the image `(sampler, view)` into some descriptor set. -/
def Event.writesImage (image : Handle × Handle) : Event → Bool
  | Event.updateDescriptorSets writes => writes.any fun w => w.imageInfo = some image
  | _ => false

/-- A driver that refuses to create any pipeline. -/
def failDriver : Driver := { okDriver with vkCreateGraphicsPipelines := fun _ _ => (false, 0) }

/-- A frame is begun with shader A; no pipeline is bound yet. -/
def beforeFirstBind : Context :=
  run failDriver freshContext [Op.setup, Op.addShader shaderA, Op.begin 0]

/-- Shader B is set and then shader A again, which leaves the state dirty
with the hash it had; then the pipeline is bound again. -/
def retryOps : List Op := [Op.setShader shaderB, Op.setShader shaderA, Op.bindPipeline]

/-- A block as `flushUniformBufferState` leaves it after an upload to
`newOffset`: the counter is advanced by one and becomes the id of the state. -/
def UboStack.uploaded (u : UboStack) (newOffset : Nat) : UboStack :=
  { u with
    lastSavedStackId := u.lastSavedStackId + 1
    state := { u.state with memoryOffset := newOffset, stackId := u.lastSavedStackId + 1 } }

/-- The bindings of all binding tables, in the order the flush visits them. -/
def Context.boundBindings (c : Context) : List (Nat × Nat) :=
  c.mPipelineLayoutState.bindingState.flatten

/-- What the flush looks at besides the caches: the frame state, the
allocator and the index of the frame. -/
def flushObs (c : Context) : Frame × Allocator × Nat :=
  (c.mCurrentFrameState, c.mAlloc, c.mFrameIndex)

/-- The counters of all blocks are at least `-1`, the value they start with. -/
def CountersStarted (c : Context) : Prop :=
  ∀ k u, c.mCurrentFrameState.uboState.find k = some u → -1 ≤ u.lastSavedStackId

/-- Every offset the allocator can hand out and every offset a block holds
fits the 32 bits of a dynamic offset. -/
def OffsetsFit (c : Context) : Prop :=
  c.mAlloc.size < 2 ^ 32
    ∧ ∀ k u, c.mCurrentFrameState.uboState.find k = some u → u.state.memoryOffset < 2 ^ 32

/-- The bindings the flush visits before it first meets the uniform hash `h`. -/
def Context.bindingsBefore (c : Context) (h : Nat) : List (Nat × Nat) :=
  c.boundBindings.takeWhile (fun b => decide (b.2 ≠ h))

/-- The context at the moment the flush first meets the uniform hash `h`:
the descriptor sets are resolved and the bindings before `h` are flushed. -/
def Context.flushedUpTo (d : Driver) (c : Context) (h : Nat) : Context :=
  (((c.updateDescriptorSetState d).bindingsBefore h).foldl Context.flushBinding
    (c.updateDescriptorSetState d, [])).1

/-- A frame is begun with shader B, whose second set holds a sampler, and the
pipeline is bound; the blocks are dirty. -/
def samplerBound : Context :=
  run okDriver freshContext
    [Op.setup, Op.addShader shaderB, Op.begin 0, Op.setUniform "modelMatrix" [1, 2, 3, 4],
      Op.bindPipeline]

/-- The block `Style` as the frame state holds it after `begin`: zeroed and dirty. -/
def styleBlock : UboStack :=
  { name := "Style", struct_size := 4, state := { data := [0, 0, 0, 0] } }

/-- A uniform block with a member `color`. -/
def lightInfo : DescriptorInfo :=
  { hash := 21, name := "Light", type := DescriptorType.uniformBufferDynamic, count := 1
    storageSize := 16, memberRanges := [("color", (0, 4)), ("position", (4, 12))] }

/-- Another uniform block with a member `color`, at another offset. -/
def materialInfo : DescriptorInfo :=
  { hash := 22, name := "Material", type := DescriptorType.uniformBufferDynamic, count := 1
    storageSize := 32, memberRanges := [("color", (16, 8))] }

/-- A context whose shaders declare the two blocks, `Light` first. -/
def clashContext : Context :=
  { freshContext with
    mShaderManager :=
      { sampleManager with descriptorInfos := [(21, lightInfo), (22, materialInfo)] } }

/-- A mesh that has positions only: no colours, normals, texture coordinates
or indices. -/
def positionsOnly : Mesh :=
  { numVertices := 3, numColors := 0, numNormals := 0, numTexCoords := 0, numIndices := 0 }

/-- Whether an event binds exactly `n` vertex buffers. -/
def Event.bindsVertexBuffers (n : Nat) : Event → Bool
  | Event.cmdBindVertexBuffers offsets => offsets.length = n
  | _ => false

/-- The sample session after its first draw: the pipeline of shader A is in the map. -/
def afterFirstDraw : Context := run okDriver freshContext (sessionOps.take 6)

/-- Whether an event belongs to the one-time setup that the first `begin`
performs: building the descriptor-set layouts and creating a descriptor pool. -/
def Event.isSetupCall : Event → Bool
  | Event.createVkDescriptorSetLayouts => true
  | Event.createDescriptorPool _ => true
  | _ => false

/-- How many events of the one-time setup a trace holds. -/
def setupCount (t : List Event) : Nat := t.countP Event.isSetupCall

/-- What the one-time setup decides: the `initialised` flag, which uniform
hashes have a block, the member map, the block names, the descriptor pools,
and the number of setup events so far. -/
def setupObs (c : Context) :
    Bool × (Nat → Bool) × StrMap UboBindingInfo × StrMap Nat × List Handle × Nat :=
  (c.mCurrentFrameState.initialised, c.mCurrentFrameState.uboState.contains,
    c.mCurrentFrameState.mUboMembers, c.mCurrentFrameState.uboNames, c.mDescriptorPool,
    setupCount c.trace)

/-- Whether a call is `reset`. -/
def Op.isReset : Op → Bool
  | Op.reset => true
  | _ => false

/-- The block `Style` as the first draw of the sample session leaves it:
uploaded at offset `256` under the id `0`. -/
def styleUploaded : UboStack := styleBlock.uploaded 256

/-- Whether the calls `es` are guarded copies of the `ranges` (byte count and
source of each), in order: for every range one allocation for the frame, and
a copy of the range, to the pointer that belongs to the granted offset,
exactly when the allocation was granted; nothing else. -/
def guardedCopies (mapped frame : Nat) : List (Nat × List Nat) → List Event → Bool
  | [], [] => true
  | (n, src) :: ranges, Event.allocate n1 f true off :: Event.memcpy p src1 n2 :: es =>
    n1 == n && f == frame && p == mapped + off && src1 == src && n2 == n
      && guardedCopies mapped frame ranges es
  | (n, _) :: ranges, Event.allocate n1 f false _ :: es =>
    n1 == n && f == frame && guardedCopies mapped frame ranges es
  | _, _ => false

/-- Remembers the status and the offset of an allocation. -/
def noteAllocation (acc : Option (Bool × Nat)) : Event → Option (Bool × Nat)
  | Event.allocate _ _ success offset => some (success, offset)
  | _ => acc

/-- The status and the offset of the allocation seen last, if any. -/
def lastAllocation (es : List Event) : Option (Bool × Nat) :=
  es.foldl noteAllocation none

/-- The five ranges of a mesh that `storeMesh` stores: byte count and source. -/
def meshRanges (mesh_ : Mesh) : List (Nat × List Nat) :=
  [(mesh_.numVertices % 2 ^ 32 * 12 % 2 ^ 32, mesh_.vertices),
    (mesh_.numColors % 2 ^ 32 * 16 % 2 ^ 32, mesh_.colors),
    (mesh_.numNormals % 2 ^ 32 * 12 % 2 ^ 32, mesh_.normals),
    (mesh_.numTexCoords % 2 ^ 32 * 8 % 2 ^ 32, mesh_.texCoords),
    (mesh_.numIndices % 2 ^ 32 * 4 % 2 ^ 32, mesh_.indices)]

/-- Every layout key of the cache of binding tables is a key of the cache of
descriptor sets. -/
def CachesAligned (pls : PipelineLayoutState) : Prop :=
  ∀ k, pls.bindingStateCache.contains k = true → pls.descriptorSetCache.contains k = true

/-- Every entry of the two caches of `a` is an entry of the caches of `b`:
none is removed and none is changed. -/
def CachesGrow (a b : PipelineLayoutState) : Prop :=
  (∀ k s, a.descriptorSetCache.find k = some s → b.descriptorSetCache.find k = some s)
    ∧ (∀ k t, a.bindingStateCache.find k = some t → b.bindingStateCache.find k = some t)

/-- The sample session at the end of its frame. -/
def frameDone : Context := run okDriver freshContext sessionOps

/-- What the first loop of `updateDescriptorSetState` keeps, with `a` the
layout state before the loop: the layout keys stay, the caches only grow and
stay aligned, and every freshly allocated set index belongs to a layout key
that was not cached before the loop and is cached now. -/
def ResolveInv (a : PipelineLayoutState) (acc : Context × List Nat) : Prop :=
  acc.1.mPipelineLayoutState.setLayoutKeys = a.setLayoutKeys
    ∧ CachesGrow a acc.1.mPipelineLayoutState
    ∧ CachesAligned acc.1.mPipelineLayoutState
    ∧ ∀ j ∈ acc.2, a.descriptorSetCache.find (a.setLayoutKeys.getD j 0) = none
        ∧ acc.1.mPipelineLayoutState.descriptorSetCache.contains (a.setLayoutKeys.getD j 0) = true

/-- The layout keys and the two caches of a layout state. -/
def keysAndCaches (c : Context) : List Nat × Map Handle × Map BindingTable :=
  (c.mPipelineLayoutState.setLayoutKeys, c.mPipelineLayoutState.descriptorSetCache,
    c.mPipelineLayoutState.bindingStateCache)

/-- What the push and pop claims look at: the names of the blocks and the
stack of saved states of every block. -/
def stacksObs (c : Context) : StrMap Nat × (Nat → Option (List UboState)) :=
  (c.mCurrentFrameState.uboNames,
    fun k => (c.mCurrentFrameState.uboState.find k).map UboStack.stateStack)

/-- Calls that neither push nor pop a block nor begin a frame. -/
def Op.isPlain : Op → Bool
  | Op.begin _ => false
  | Op.pushBuffer _ => false
  | Op.popBuffer _ => false
  | _ => true

/-- The sequences of calls in which the pushes and pops of the block `name`
come in nested pairs: plain calls (writes and draws among them), pushes and
pops of other blocks, and pairs `pushBuffer name ... popBuffer name` around
such sequences. -/
inductive Scoped (name : String) : List Op → Prop
  | done : Scoped name []
  | plain (op : Op) (rest : List Op) :
    op.isPlain = true → Scoped name rest → Scoped name (op :: rest)
  | pushOther (other : String) (rest : List Op) :
    other ≠ name → Scoped name rest → Scoped name (Op.pushBuffer other :: rest)
  | popOther (other : String) (rest : List Op) :
    other ≠ name → Scoped name rest → Scoped name (Op.popBuffer other :: rest)
  | nest (inner rest : List Op) :
    Scoped name inner → Scoped name rest →
      Scoped name (Op.pushBuffer name :: (inner ++ Op.popBuffer name :: rest))

/-- A write and a draw, as between `pushMatrix` and `popMatrix` of the test
application. -/
def moveAndDraw : List Op :=
  [Op.setUniform "modelMatrix" [9, 9, 9, 9], Op.draw triangle]

/-- A write, then a nested pair around a second write and a draw, then a draw. -/
def nestedOps : List Op :=
  [Op.setUniform "modelMatrix" [5, 5, 5, 5], Op.pushBuffer "DefaultMatrices",
    Op.setUniform "modelMatrix" [9, 9, 9, 9], Op.draw triangle, Op.popBuffer "DefaultMatrices",
    Op.draw triangle]

/-- The block `DefaultMatrices` as `begin` leaves it: zeroed and dirty. -/
def matricesBlock : UboStack :=
  { name := "DefaultMatrices", struct_size := 8, state := { data := List.replicate 8 0 } }

/-- A shader whose second descriptor set has the layout key `0`. -/
def shaderZero : Shader := { id := 4, setLayoutKeys := [101, 0] }

/-- Shader A was drawn with, which bound the layouts `[101]`; then the shader
with the layouts `[101, 0]` is set. -/
def beforeZeroBind : Context :=
  run okDriver freshContext
    [Op.setup, Op.addShader shaderA, Op.addShader shaderZero, Op.begin 0, Op.draw triangle,
      Op.setShader shaderZero]

/-- A driver whose descriptor pools are exhausted: every allocation of a
descriptor set fails and hands back the null handle. -/
def poolFullDriver : Driver := { okDriver with vkAllocateDescriptorSets := fun _ _ _ => (false, 0) }

/-- A frame is begun with shader A and its pipeline is bound, with the driver
whose pools are exhausted: the set index `0` is dirty. -/
def poolFullBound : Context :=
  run poolFullDriver freshContext
    [Op.setup, Op.addShader shaderA, Op.addShader shaderB, Op.begin 0, Op.bindPipeline]

/-- Reflection results in which the layout `103` holds the block
`DefaultMatrices` of the layout `101` once more. -/
def sharingManager : ShaderManager :=
  { sampleManager with
    bindings := fun k => if k = 103 then [(0, matricesInfo)] else sampleManager.bindings k }

/-- A shader whose two descriptor sets both reference the block `DefaultMatrices`. -/
def shaderShare : Shader := { id := 5, setLayoutKeys := [101, 103] }

/-- A frame is begun with the sharing shader and its pipeline is bound. -/
def sharedBound : Context :=
  run okDriver { freshContext with mShaderManager := sharingManager }
    [Op.setup, Op.addShader shaderShare, Op.begin 0, Op.bindPipeline]

/-- Whether a call, if it is a `begin`, names a frame below `n`. -/
def Op.frameBelow (n : Nat) : Op → Bool
  | Op.begin frame => decide (frame < n)
  | _ => true

/-! ## Lemmas on the containers -/

theorem Map.find_assign {V : Type} (m : Map V) (k k' : Nat) (v : V) :
    (m.assign k v).find k' = if k = k' then some v else m.find k' := by
  induction m with
  | nil => simp [Map.assign, Map.find]
  | cons p rest ih =>
    obtain ⟨k0, v0⟩ := p
    simp only [Map.assign]
    by_cases h1 : k < k0
    · simp only [h1, if_true, Map.find]
    · simp only [h1, if_false]
      by_cases h2 : k = k0
      · subst h2
        simp only [if_true, Map.find]
        split <;> rfl
      · simp only [h2, if_false, Map.find, ih]
        by_cases h3 : k0 = k'
        · subst h3
          simp [h2]
        · simp [h3]

theorem Map.find_assign_self {V : Type} (m : Map V) (k : Nat) (v : V) :
    (m.assign k v).find k = some v := by
  simp [Map.find_assign]

theorem Map.find_assign_ne {V : Type} (m : Map V) (k k' : Nat) (v : V) (h : k ≠ k') :
    (m.assign k v).find k' = m.find k' := by
  simp [Map.find_assign, h]

theorem StrMap.find_assign_str {V : Type} (m : StrMap V) (k k' : String) (v : V) :
    (m.assign k v).find k' = if k = k' then some v else m.find k' := by
  induction m with
  | nil => simp [StrMap.assign, StrMap.find]
  | cons p rest ih =>
    obtain ⟨k0, v0⟩ := p
    simp only [StrMap.assign]
    by_cases h2 : k0 = k
    · subst h2
      simp only [if_true, StrMap.find]
      by_cases h3 : k0 = k' <;> simp [h3]
    · simp only [h2, if_false, StrMap.find, ih]
      by_cases h3 : k0 = k'
      · subst h3
        simp [Ne.symm h2]
      · simp [h3]

/-- A fold keeps whatever every turn of it keeps. -/
theorem foldl_keeps {α β γ : Type} (obs : β → γ) (f : β → α → β)
    (hf : ∀ b a, obs (f b a) = obs b) (l : List α) (b : β) :
    obs (l.foldl f b) = obs b := by
  induction l generalizing b with
  | nil => rfl
  | cons a l ih => simp [List.foldl, ih, hf]

/-! ## Operations that touch neither cache -/

theorem countP_quiet (p : Event → Bool)
    (hp : ∀ e, p e = true → e.isDriverCall = true) (t es : List Event) (hes : ∀ e ∈ es, e.isDriverCall = false) :
    (t ++ es).countP p = t.countP p := by
  have h0 : es.countP p = 0 := by
    rw [List.countP_eq_zero]
    intro e he hpe
    have h1 := hp e hpe
    rw [hes e he] at h1
    exact Bool.false_ne_true h1
  rw [List.countP_append, h0, Nat.add_zero]

theorem cacheObs_emit (p : Event → Bool)
    (hp : ∀ e, p e = true → e.isDriverCall = true) (c : Context) (e : Event) (he : e.isDriverCall = false) :
    cacheObs p (c.emit e) = cacheObs p c := by
  simp only [cacheObs, Context.emit]
  rw [countP_quiet p hp]
  intro e' he'
  simp only [List.mem_singleton] at he'
  rw [he', he]

theorem cacheObs_addShader (p : Event → Bool)
    (hp : ∀ e, p e = true → e.isDriverCall = true) (s : Shader) (c : Context) :
    cacheObs p (c.addShader s) = cacheObs p c := by
  unfold Context.addShader
  split
  · exact cacheObs_emit p hp c _ rfl
  · rfl

theorem countP_registerMember (p : Event → Bool)
    (hp : ∀ e, p e = true → e.isDriverCall = true) (k : Nat) (n : String) (acc : Frame × List Event)
    (m : String × (Nat × Nat)) :
    (Context.registerMember k n acc m).2.countP p = acc.2.countP p := by
  unfold Context.registerMember
  simp only
  split
  · rfl
  · apply countP_quiet p hp
    intro e he
    simp only [List.mem_singleton] at he
    rw [he]; rfl

theorem countP_registerDescriptor (p : Event → Bool)
    (hp : ∀ e, p e = true → e.isDriverCall = true) (acc : Frame × List Event) (b : Nat × DescriptorInfo) :
    (Context.registerDescriptor acc b).2.countP p = acc.2.countP p := by
  unfold Context.registerDescriptor
  simp only
  split
  · rw [foldl_keeps (fun a : Frame × List Event => a.2.countP p) _
      (fun a m => countP_registerMember p hp _ _ a m)]
  · rfl
  · rfl

theorem isDriverCall_buildFrame (p : Event → Bool)
    (hp : ∀ e, p e = true → e.isDriverCall = true) (infos : List (Nat × DescriptorInfo)) :
    (Context.buildFrame infos).2.countP p = 0 := by
  unfold Context.buildFrame
  rw [foldl_keeps (fun a : Frame × List Event => a.2.countP p) _
      (fun a m => countP_registerDescriptor p hp a m)]
  rfl

theorem cacheObs_initialiseFrameState (p : Event → Bool)
    (hp : ∀ e, p e = true → e.isDriverCall = true) (c : Context) :
    cacheObs p c.initialiseFrameState = cacheObs p c := by
  simp only [cacheObs, Context.initialiseFrameState, List.countP_append,
    isDriverCall_buildFrame p hp, Nat.add_zero]

theorem cacheObs_setupDescriptorPool (p : Event → Bool)
    (hp : ∀ e, p e = true → e.isDriverCall = true) (d : Driver) (c : Context) :
    cacheObs p (c.setupDescriptorPool d) = cacheObs p c := by
  unfold Context.setupDescriptorPool
  split
  · simp only [cacheObs]
    rw [countP_quiet p hp]
    intro e he
    simp only [List.mem_flatten, List.mem_map] at he
    obtain ⟨l, ⟨q, _, hq⟩, hl⟩ := he
    subst hq
    simp only [List.mem_cons, List.mem_singleton, List.not_mem_nil, or_false] at hl
    rcases hl with hl | hl <;> (rw [hl]; rfl)
  · simp only [cacheObs]
    rw [countP_quiet p hp]
    intro e he
    simp only [List.mem_map] at he
    obtain ⟨q, ⟨_, _, _⟩, hq⟩ := he
    subst hq
    rfl

theorem cacheObs_withUbo (p : Event → Bool)
    (_hp : ∀ e, p e = true → e.isDriverCall = true) (key : Nat) (f : UboStack → UboStack) (c : Context) :
    cacheObs p (c.withUbo key f) = cacheObs p c := by
  unfold Context.withUbo
  split <;> rfl

theorem cacheObs_pushBuffer (p : Event → Bool)
    (hp : ∀ e, p e = true → e.isDriverCall = true) (n : String) (c : Context) :
    cacheObs p (c.pushBuffer n) = cacheObs p c := by
  unfold Context.pushBuffer
  split
  · exact cacheObs_withUbo p hp _ _ c
  · rfl

theorem cacheObs_popBuffer (p : Event → Bool)
    (hp : ∀ e, p e = true → e.isDriverCall = true) (n : String) (c : Context) :
    cacheObs p (c.popBuffer n) = cacheObs p c := by
  unfold Context.popBuffer
  split
  · exact cacheObs_withUbo p hp _ _ c
  · rfl

theorem cacheObs_setUniform (p : Event → Bool)
    (hp : ∀ e, p e = true → e.isDriverCall = true) (n : String) (bytes : List Nat) (c : Context) :
    cacheObs p (c.setUniform n bytes) = cacheObs p c := by
  unfold Context.setUniform
  split
  · rfl
  · exact cacheObs_withUbo p hp _ _ c

theorem cacheObs_allocate (p : Event → Bool)
    (hp : ∀ e, p e = true → e.isDriverCall = true) (c : Context) (n q o : Nat) :
    cacheObs p (c.allocate n q o).1 = cacheObs p c := by
  simp only [cacheObs, Context.allocate]
  rw [countP_quiet p hp]
  intro e he
  simp only [List.mem_singleton] at he
  rw [he]; rfl

theorem cacheObs_allocateAndCopy (p : Event → Bool)
    (hp : ∀ e, p e = true → e.isDriverCall = true) (c : Context) (n q o : Nat) (src : List Nat) :
    cacheObs p (c.allocateAndCopy n q o src).1 = cacheObs p c := by
  unfold Context.allocateAndCopy
  simp only
  split
  · rw [cacheObs_emit p hp _ _ (by rfl), cacheObs_allocate p hp]
  · rw [cacheObs_allocate p hp]

theorem cacheObs_storeMesh (p : Event → Bool)
    (hp : ∀ e, p e = true → e.isDriverCall = true) (mesh : Mesh) (vo io : List Nat) (c : Context) :
    cacheObs p (c.storeMesh mesh vo io).1 = cacheObs p c := by
  unfold Context.storeMesh
  simp only
  split
  · rw [cacheObs_emit p hp _ _ (by rfl), cacheObs_allocate p hp, cacheObs_allocateAndCopy p hp,
      cacheObs_allocateAndCopy p hp, cacheObs_allocateAndCopy p hp, cacheObs_allocateAndCopy p hp]
  · rw [cacheObs_allocate p hp, cacheObs_allocateAndCopy p hp,
      cacheObs_allocateAndCopy p hp, cacheObs_allocateAndCopy p hp, cacheObs_allocateAndCopy p hp]

theorem cacheObs_writeBinding (p : Event → Bool)
    (_hp : ∀ e, p e = true → e.isDriverCall = true) (j : Nat) (acc : Context × List DescriptorWrite)
    (b : Nat × DescriptorInfo) :
    cacheObs p (Context.writeBinding j acc b).1 = cacheObs p acc.1 := rfl

theorem cacheObs_writeSet (p : Event → Bool)
    (hp : ∀ e, p e = true → e.isDriverCall = true) (acc : Context × List DescriptorWrite) (j : Nat) :
    cacheObs p (Context.writeSet acc j).1 = cacheObs p acc.1 := by
  unfold Context.writeSet
  simp only
  rw [foldl_keeps (fun a : Context × List DescriptorWrite => cacheObs p a.1) _
      (fun a b => cacheObs_writeBinding p hp j a b)]
  rfl

theorem cacheObs_updateDescriptorSets (p : Event → Bool)
    (hp : ∀ e, p e = true → e.isDriverCall = true) (l : List Nat) (c : Context) :
    cacheObs p (c.updateDescriptorSets l) = cacheObs p c := by
  unfold Context.updateDescriptorSets
  simp only
  rw [cacheObs_emit p hp _ _ (by rfl),
    foldl_keeps (fun a : Context × List DescriptorWrite => cacheObs p a.1) _
      (fun a b => cacheObs_writeSet p hp a b)]

theorem cacheObs_cacheBindingState (p : Event → Bool)
    (_hp : ∀ e, p e = true → e.isDriverCall = true) (c : Context) (i : Nat) :
    cacheObs p (c.cacheBindingState i) = cacheObs p c := rfl

theorem cacheObs_flushBinding (p : Event → Bool)
    (hp : ∀ e, p e = true → e.isDriverCall = true) (acc : Context × List Nat) (b : Nat × Nat) :
    cacheObs p (Context.flushBinding acc b).1 = cacheObs p acc.1 := by
  unfold Context.flushBinding
  simp only
  split
  · rfl
  · split
    · have h1 : ∀ c : Context, ∀ m, cacheObs p { c with mCurrentFrameState := m } = cacheObs p c :=
        fun _ _ => rfl
      rw [h1, cacheObs_emit p hp _ _ (by rfl)]
      split
      · rw [cacheObs_allocate p hp]
      · rw [cacheObs_emit p hp _ _ (by rfl), cacheObs_allocate p hp]
    · rfl

theorem cacheObs_flushTable (p : Event → Bool)
    (hp : ∀ e, p e = true → e.isDriverCall = true) (acc : Context × List Nat) (t : BindingTable) :
    cacheObs p (Context.flushTable acc t).1 = cacheObs p acc.1 := by
  unfold Context.flushTable
  rw [foldl_keeps (fun a : Context × List Nat => cacheObs p a.1) _
      (fun a b => cacheObs_flushBinding p hp a b)]

theorem cacheObs_flushLoop (p : Event → Bool)
    (hp : ∀ e, p e = true → e.isDriverCall = true) (c : Context) (l : List BindingTable) :
    cacheObs p (l.foldl Context.flushTable (c, [])).1 = cacheObs p c := by
  rw [foldl_keeps (fun a : Context × List Nat => cacheObs p a.1) _
      (fun a b => cacheObs_flushTable p hp a b)]

theorem cacheObs_bindDescriptorSets (p : Event → Bool)
    (hp : ∀ e, p e = true → e.isDriverCall = true) (c : Context) :
    cacheObs p c.bindDescriptorSets = cacheObs p c :=
  cacheObs_emit p hp c _ rfl


/-! ## The pipeline map along a run -/

theorem isCreatePipeline_driverCall (h : Nat) (e : Event) (he : e.isCreatePipeline h = true) :
    e.isDriverCall = true := by
  cases e <;> simp_all [Event.isCreatePipeline, Event.isDriverCall]

theorem isAllocateSet_driverCall (k : Nat) (e : Event) (he : e.isAllocateSet k = true) :
    e.isDriverCall = true := by
  cases e <;> simp_all [Event.isAllocateSet, Event.isDriverCall]

theorem pipelineObs_of_cacheObs (h : Nat) (c c' : Context)
    (hc : cacheObs (Event.isCreatePipeline h) c' = cacheObs (Event.isCreatePipeline h) c) :
    pipelineObs h c' = pipelineObs h c := by
  simp only [cacheObs, Prod.mk.injEq] at hc
  simp only [pipelineObs, createCount, hc.1, hc.2.2]

theorem pipelineObs_resolveSet (d : Driver) (h : Nat) (acc : Context × List Nat) (i : Nat) :
    pipelineObs h (Context.resolveSet d acc i).1 = pipelineObs h acc.1 := by
  unfold Context.resolveSet
  simp only
  split
  · rfl
  · simp only [pipelineObs, createCount, List.countP_append, Prod.mk.injEq, true_and]
    split <;> simp [List.countP_cons, Event.isCreatePipeline]

theorem pipelineObs_updateDescriptorSetState (d : Driver) (h : Nat) (c : Context) :
    pipelineObs h (c.updateDescriptorSetState d) = pipelineObs h c := by
  have hq := isCreatePipeline_driverCall h
  have hres : pipelineObs h (c.mPipelineLayoutState.dirtySetIndices.foldl (Context.resolveSet d) (c, [])).1
      = pipelineObs h c :=
    foldl_keeps (fun a : Context × List Nat => pipelineObs h a.1) _
      (fun a b => pipelineObs_resolveSet d h a b) _ _
  have hdrop : ∀ x : Context, ∀ m, pipelineObs h { x with mPipelineLayoutState := m } = pipelineObs h x :=
    fun _ _ => rfl
  unfold Context.updateDescriptorSetState
  split
  · rfl
  · simp only
    rw [hdrop]
    split
    · rw [← hres]
      apply pipelineObs_of_cacheObs
      rw [foldl_keeps (fun a : Context => cacheObs (Event.isCreatePipeline h) a) _
        (fun a b => cacheObs_cacheBindingState _ hq a b), cacheObs_updateDescriptorSets _ hq]
    · exact hres

theorem pipelineObs_flushUniformBufferState (d : Driver) (h : Nat) (c : Context) :
    pipelineObs h (c.flushUniformBufferState d) = pipelineObs h c := by
  have hq := isCreatePipeline_driverCall h
  have hdrop : ∀ x : Context, ∀ m, pipelineObs h { x with mCurrentFrameState := m } = pipelineObs h x :=
    fun _ _ => rfl
  unfold Context.flushUniformBufferState
  simp only
  rw [hdrop, ← pipelineObs_updateDescriptorSetState d h c]
  exact pipelineObs_of_cacheObs h _ _ (cacheObs_flushLoop _ hq _ _)

theorem pipelineObs_begin (d : Driver) (h : Nat) (f : Nat) (c : Context) :
    pipelineObs h (c.begin d f) = pipelineObs h c := by
  have hq := isCreatePipeline_driverCall h
  have hcount : ∀ x : Context, pipelineObs h x = (x.mVkPipelines, x.trace.countP (Event.isCreatePipeline h)) :=
    fun _ => rfl
  have hstep : ∀ x y : Context, cacheObs (Event.isCreatePipeline h) x = cacheObs (Event.isCreatePipeline h) y →
      (x.mVkPipelines, x.trace.countP (Event.isCreatePipeline h))
        = (y.mVkPipelines, y.trace.countP (Event.isCreatePipeline h)) := by
    intro x y hxy
    simp only [cacheObs, Prod.mk.injEq] at hxy
    rw [hxy.1, hxy.2.2]
  unfold Context.begin
  simp only [hcount, Context.emit, List.countP_append, List.countP_cons, List.countP_nil,
    Event.isCreatePipeline, Bool.false_eq_true, if_false, Nat.add_zero]
  split
  · have h1 := cacheObs_initialiseFrameState _ hq
      (Context.setupDescriptorPool d
        (Context.emit { c with mFrameIndex := f, mAlloc := c.mAlloc.free f } Event.createVkDescriptorSetLayouts))
    rw [cacheObs_setupDescriptorPool _ hq, cacheObs_emit _ hq _ _ (by rfl)] at h1
    exact hstep _ _ h1
  · rfl

theorem bindPipeline_clean (d : Driver) (c : Context)
    (hd : c.mCurrentGraphicsPipelineState.mDirty = false) : c.bindPipeline d = c := by
  simp [Context.bindPipeline, hd]

theorem bindPipeline_hit (d : Driver) (c : Context) (p : Handle)
    (hd : c.mCurrentGraphicsPipelineState.mDirty = true)
    (hf : c.mVkPipelines.find (d.calculateHash c.mCurrentGraphicsPipelineState) = some p) :
    (c.bindPipeline d).mVkPipelines = c.mVkPipelines
      ∧ (c.bindPipeline d).mCurrentVkPipeline = p
      ∧ (c.bindPipeline d).trace = c.trace ++ [Event.cmdBindPipeline p] := by
  simp [Context.bindPipeline, hd, hf, Context.emit, Map.findD]

theorem bindPipeline_miss (d : Driver) (c : Context)
    (hd : c.mCurrentGraphicsPipelineState.mDirty = true)
    (hf : c.mVkPipelines.find (d.calculateHash c.mCurrentGraphicsPipelineState) = none) :
    (c.bindPipeline d).mVkPipelines
        = c.mVkPipelines.assign (d.calculateHash c.mCurrentGraphicsPipelineState)
            (d.vkCreateGraphicsPipelines (c.trace.length + 1) c.mCurrentGraphicsPipelineState).2
      ∧ (c.bindPipeline d).mCurrentVkPipeline
        = (d.vkCreateGraphicsPipelines (c.trace.length + 1) c.mCurrentGraphicsPipelineState).2
      ∧ (c.bindPipeline d).trace
        = c.trace ++ [Event.logNotice "Creating pipeline"]
            ++ (c.mCurrentGraphicsPipelineState.createPipeline d (c.trace.length + 1)).2
            ++ [Event.cmdBindPipeline
                (d.vkCreateGraphicsPipelines (c.trace.length + 1) c.mCurrentGraphicsPipelineState).2] := by
  simp [Context.bindPipeline, hd, hf, Context.emit, Map.findD, Map.find_assign,
    GraphicsPipelineState.createPipeline]

theorem createCount_createPipeline (d : Driver) (t h : Nat) (s : GraphicsPipelineState) :
    createCount h (s.createPipeline d t).2 = if d.calculateHash s = h then 1 else 0 := by
  unfold GraphicsPipelineState.createPipeline createCount
  simp only [List.countP_append, List.countP_cons, List.countP_nil, Event.isCreatePipeline]
  split <;> split <;> simp_all [Event.isCreatePipeline]

/-- The pipeline map and the compilation count across one `bindPipeline`. -/
theorem bindPipeline_pipelines (d : Driver) (c : Context) (h : Nat) :
    (∀ p, c.mVkPipelines.find h = some p →
        (c.bindPipeline d).mVkPipelines.find h = some p
          ∧ createCount h (c.bindPipeline d).trace = createCount h c.trace)
      ∧ (createCount h (c.bindPipeline d).trace = createCount h c.trace
          ∨ ((c.bindPipeline d).mVkPipelines.contains h = true
              ∧ c.mVkPipelines.find h = none
              ∧ c.mCurrentGraphicsPipelineState.mDirty = true
              ∧ d.calculateHash c.mCurrentGraphicsPipelineState = h
              ∧ createCount h (c.bindPipeline d).trace = createCount h c.trace + 1)) := by
  cases hd : c.mCurrentGraphicsPipelineState.mDirty with
  | false =>
    rw [bindPipeline_clean d c hd]
    exact ⟨fun p hp => ⟨hp, rfl⟩, Or.inl rfl⟩
  | true =>
    cases hf : c.mVkPipelines.find (d.calculateHash c.mCurrentGraphicsPipelineState) with
    | some q =>
      obtain ⟨h1, _, h3⟩ := bindPipeline_hit d c q hd hf
      have hcount : createCount h (c.bindPipeline d).trace = createCount h c.trace := by
        rw [h3]
        simp [createCount, List.countP_append, List.countP_cons, Event.isCreatePipeline]
      rw [h1]
      exact ⟨fun p hp => ⟨hp, hcount⟩, Or.inl hcount⟩
    | none =>
      obtain ⟨h1, _, h3⟩ := bindPipeline_miss d c hd hf
      have hcount : createCount h (c.bindPipeline d).trace
          = createCount h c.trace
            + (if d.calculateHash c.mCurrentGraphicsPipelineState = h then 1 else 0) := by
        rw [h3]
        have h4 := createCount_createPipeline d (c.trace.length + 1) h c.mCurrentGraphicsPipelineState
        simp only [createCount] at h4 ⊢
        simp only [List.countP_append, h4, List.countP_cons, List.countP_nil,
          Event.isCreatePipeline, Bool.false_eq_true, if_false, Nat.add_zero, Nat.zero_add]
      rw [h1, hcount]
      by_cases hh : d.calculateHash c.mCurrentGraphicsPipelineState = h
      · subst hh
        refine ⟨fun p hp => ?_, Or.inr ⟨?_, hf, rfl, rfl, by simp⟩⟩
        · rw [hf] at hp
          exact absurd hp (by simp)
        · simp [Map.contains, Map.find_assign]
      · rw [if_neg hh, Nat.add_zero]
        refine ⟨fun p hp => ⟨?_, rfl⟩, Or.inl rfl⟩
        rw [Map.find_assign_ne _ _ _ _ hh]
        exact hp

theorem pipelineObs_draw (d : Driver) (h : Nat) (mesh : Mesh) (c : Context) :
    pipelineObs h (c.draw d mesh) = pipelineObs h (c.bindPipeline d) := by
  have hq := isCreatePipeline_driverCall h
  have h1 : ∀ x : Context, pipelineObs h (x.storeMesh mesh [] []).1 = pipelineObs h x :=
    fun x => pipelineObs_of_cacheObs h _ _ (cacheObs_storeMesh _ hq _ _ _ _)
  have h2 : ∀ x : Context, ∀ e, e.isDriverCall = false → pipelineObs h (x.emit e) = pipelineObs h x :=
    fun x e he => pipelineObs_of_cacheObs h _ _ (cacheObs_emit _ hq _ _ he)
  have h3 : pipelineObs h (Context.bindDescriptorSets (Context.flushUniformBufferState d (c.bindPipeline d)))
      = pipelineObs h (c.bindPipeline d) := by
    rw [pipelineObs_of_cacheObs h _ _ (cacheObs_bindDescriptorSets _ hq _),
      pipelineObs_flushUniformBufferState]
  unfold Context.draw
  simp only
  split
  · rw [h2 _ _ (by rfl), h2 _ _ (by rfl), h1, h3]
  · rw [h2 _ _ (by rfl), h2 _ _ (by rfl), h2 _ _ (by rfl), h1, h3]

/-- The pipeline map and the compilation count across one call other than `reset`. -/
theorem step_pipelines (d : Driver) (c : Context) (op : Op) (h : Nat) (hop : op ≠ Op.reset) :
    (∀ p, c.mVkPipelines.find h = some p →
        (step d c op).mVkPipelines.find h = some p
          ∧ createCount h (step d c op).trace = createCount h c.trace)
      ∧ (createCount h (step d c op).trace = createCount h c.trace
          ∨ ((step d c op).mVkPipelines.contains h = true
              ∧ c.mVkPipelines.find h = none
              ∧ createCount h (step d c op).trace = createCount h c.trace + 1)) := by
  have hq := isCreatePipeline_driverCall h
  have quiet : ∀ c' : Context, pipelineObs h c' = pipelineObs h c →
      (∀ p, c.mVkPipelines.find h = some p →
        c'.mVkPipelines.find h = some p ∧ createCount h c'.trace = createCount h c.trace)
      ∧ (createCount h c'.trace = createCount h c.trace
          ∨ (c'.mVkPipelines.contains h = true
              ∧ c.mVkPipelines.find h = none
              ∧ createCount h c'.trace = createCount h c.trace + 1)) := by
    intro c' hc
    simp only [pipelineObs, Prod.mk.injEq] at hc
    rw [hc.1, hc.2]
    exact ⟨fun p hp => ⟨hp, rfl⟩, Or.inl rfl⟩
  have loud : ∀ c' : Context, pipelineObs h c' = pipelineObs h (c.bindPipeline d) →
      (∀ p, c.mVkPipelines.find h = some p →
        c'.mVkPipelines.find h = some p ∧ createCount h c'.trace = createCount h c.trace)
      ∧ (createCount h c'.trace = createCount h c.trace
          ∨ (c'.mVkPipelines.contains h = true
              ∧ c.mVkPipelines.find h = none
              ∧ createCount h c'.trace = createCount h c.trace + 1)) := by
    intro c' hc
    simp only [pipelineObs, Prod.mk.injEq] at hc
    rw [hc.1, hc.2]
    obtain ⟨ha, hb⟩ := bindPipeline_pipelines d c h
    refine ⟨ha, ?_⟩
    rcases hb with hb | ⟨hb1, hb2, _, _, hb5⟩
    · exact Or.inl hb
    · exact Or.inr ⟨hb1, hb2, hb5⟩
  cases op with
  | reset => exact absurd rfl hop
  | setup => exact quiet _ rfl
  | addShader s => exact quiet _ (pipelineObs_of_cacheObs h _ _ (cacheObs_addShader _ hq s c))
  | begin f => exact quiet _ (pipelineObs_begin d h f c)
  | endFrame => exact quiet _ rfl
  | setShader s => exact quiet _ rfl
  | setRenderPass r => exact quiet _ rfl
  | setPolyMode m => exact quiet _ rfl
  | pushBuffer n => exact quiet _ (pipelineObs_of_cacheObs h _ _ (cacheObs_pushBuffer _ hq n c))
  | popBuffer n => exact quiet _ (pipelineObs_of_cacheObs h _ _ (cacheObs_popBuffer _ hq n c))
  | setUniform n b => exact quiet _ (pipelineObs_of_cacheObs h _ _ (cacheObs_setUniform _ hq n b c))
  | debugSetTexture n t => exact quiet _ rfl
  | bindPipeline => exact loud _ rfl
  | updateDescriptorSetState => exact quiet _ (pipelineObs_updateDescriptorSetState d h c)
  | flushUniformBufferState => exact quiet _ (pipelineObs_flushUniformBufferState d h c)
  | bindDescriptorSets => exact quiet _ (pipelineObs_of_cacheObs h _ _ (cacheObs_bindDescriptorSets _ hq c))
  | storeMesh m => exact quiet _ (pipelineObs_of_cacheObs h _ _ (cacheObs_storeMesh _ hq m [] [] c))
  | draw m => exact loud _ (pipelineObs_draw d h m c)

/-- Along a run without `reset`, a hash once in the pipeline map keeps its
handle and is never compiled again; a hash not in the map is compiled at most
once. -/
theorem run_pipelines (d : Driver) (ops : List Op) (c : Context) (h : Nat)
    (hreset : Op.reset ∉ ops) :
    (∀ p, c.mVkPipelines.find h = some p →
        (run d c ops).mVkPipelines.find h = some p
          ∧ createCount h (run d c ops).trace = createCount h c.trace)
      ∧ (createCount h (run d c ops).trace = createCount h c.trace
          ∨ ((run d c ops).mVkPipelines.contains h = true
              ∧ c.mVkPipelines.find h = none
              ∧ createCount h (run d c ops).trace = createCount h c.trace + 1)) := by
  induction ops generalizing c with
  | nil => exact ⟨fun p hp => ⟨hp, rfl⟩, Or.inl rfl⟩
  | cons op ops ih =>
    have hop : op ≠ Op.reset := fun e => hreset (e ▸ List.mem_cons_self _ _)
    have hrest : Op.reset ∉ ops := fun e => hreset (List.mem_cons_of_mem _ e)
    obtain ⟨s1, s2⟩ := step_pipelines d c op h hop
    obtain ⟨r1, r2⟩ := ih (step d c op) hrest
    have hrun : run d c (op :: ops) = run d (step d c op) ops := rfl
    rw [hrun]
    refine ⟨fun p hp => ?_, ?_⟩
    · obtain ⟨a1, a2⟩ := s1 p hp
      obtain ⟨b1, b2⟩ := r1 p a1
      exact ⟨b1, b2.trans a2⟩
    · rcases s2 with s2 | ⟨s2a, s2b, s2c⟩
      · rcases r2 with r2 | ⟨r2a, r2b, r2c⟩
        · exact Or.inl (r2.trans s2)
        · refine Or.inr ⟨r2a, ?_, by rw [r2c, s2]⟩
          cases hc : c.mVkPipelines.find h with
          | none => rfl
          | some p =>
            have := (s1 p hc).1
            rw [r2b] at this
            exact absurd this (by simp)
      · obtain ⟨p, hp⟩ := Option.isSome_iff_exists.mp s2a
        obtain ⟨b1, b2⟩ := r1 p hp
        refine Or.inr ⟨?_, s2b, by rw [b2, s2c]⟩
        simp [Map.contains, b1]

/-! ## C1: a pipeline state is compiled at most once -/

/-- C1: along every sequence of context operations without `reset`,
`createPipeline` is invoked at most once for a state hash `h`, and not at all
when `h` is already a key of `mVkPipelines`.  One `bindPipeline` compiles for
`h` only when the state is dirty, hashes to `h` and `h` is absent from the
map; a dirty `bindPipeline` whose hash is present binds the stored handle,
compiles nothing and leaves the map unchanged. -/
theorem C1_pipeline_compiled_at_most_once (d : Driver) (c : Context) (ops : List Op) (h : Nat)
    (hreset : Op.reset ∉ ops) :
    createCount h (run d c ops).trace ≤ createCount h c.trace + 1
      ∧ (c.mVkPipelines.contains h = true →
          createCount h (run d c ops).trace = createCount h c.trace)
      ∧ (createCount h (c.bindPipeline d).trace ≠ createCount h c.trace →
          c.mCurrentGraphicsPipelineState.mDirty = true
            ∧ d.calculateHash c.mCurrentGraphicsPipelineState = h
            ∧ c.mVkPipelines.find h = none)
      ∧ (c.mCurrentGraphicsPipelineState.mDirty = true →
          c.mVkPipelines.contains (d.calculateHash c.mCurrentGraphicsPipelineState) = true →
          (c.bindPipeline d).mVkPipelines = c.mVkPipelines
            ∧ (c.bindPipeline d).mCurrentVkPipeline
              = c.mVkPipelines.findD (d.calculateHash c.mCurrentGraphicsPipelineState) 0
            ∧ (c.bindPipeline d).trace
              = c.trace ++ [Event.cmdBindPipeline
                  (c.mVkPipelines.findD (d.calculateHash c.mCurrentGraphicsPipelineState) 0)]) := by
  obtain ⟨r1, r2⟩ := run_pipelines d ops c h hreset
  refine ⟨?_, ?_, ?_, ?_⟩
  · rcases r2 with r2 | ⟨_, _, r2⟩ <;> omega
  · intro hc
    obtain ⟨p, hp⟩ := Option.isSome_iff_exists.mp hc
    exact (r1 p hp).2
  · intro hne
    rcases (bindPipeline_pipelines d c h).2 with hb | ⟨_, hb2, hb3, hb4, _⟩
    · exact absurd hb hne
    · exact ⟨hb3, hb4, hb2⟩
  · intro hd hc
    obtain ⟨p, hp⟩ := Option.isSome_iff_exists.mp hc
    have hD : c.mVkPipelines.findD (d.calculateHash c.mCurrentGraphicsPipelineState) 0 = p := by
      simp [Map.findD, hp]
    rw [hD]
    exact bindPipeline_hit d c p hd hp

set_option maxRecDepth 100000 in
/-- C1, on the sample session: no `reset` occurs, and the state of shader A,
bound for two of the three draws, is compiled exactly once. -/
theorem C1_pipeline_compiled_at_most_once_witness :
    Op.reset ∉ sessionOps
      ∧ createCount 110 (run okDriver freshContext sessionOps).trace
          ≤ createCount 110 freshContext.trace + 1
      ∧ createCount 110 (run okDriver freshContext sessionOps).trace = 1 :=
  ⟨by decide,
    (C1_pipeline_compiled_at_most_once okDriver freshContext sessionOps 110 (by decide)).1,
    by decide⟩

/-! ## The loop of `bindPipeline` over the set indices -/

theorem length_resize {α : Type} (l : List α) (n : Nat) (v : α) : (resize l n v).length = n := by
  simp only [resize, List.length_append, List.length_take, List.length_replicate]
  omega

theorem getElem?_resize {α : Type} (l : List α) (n i : Nat) (v : α) :
    (resize l n v)[i]? = if i < n then some (l.getD i v) else none := by
  simp only [resize, List.getElem?_append, List.length_take, List.getElem?_take,
    List.getElem?_replicate, List.getD_eq_getElem?_getD]
  by_cases h1 : i < n
  · by_cases h2 : i < l.length
    · have h3 : i < n ⊓ l.length := by omega
      simp [h1, h2, h3]
    · have h3 : ¬ i < n ⊓ l.length := by omega
      have h4 : i - n ⊓ l.length < n - l.length := by omega
      have h5 : l[i]? = none := List.getElem?_eq_none (by omega)
      simp [h1, h3, h4, h5]
  · have h3 : ¬ i < n ⊓ l.length := by omega
    have h4 : ¬ i - n ⊓ l.length < n - l.length := by omega
    simp [h1, h3, h4]

/-- While the keys agree with the layouts nothing is touched. -/
theorem invalidate_agreeing (layouts : List Nat) (pls : PipelineLayoutState) (m : Nat)
    (hagree : ∀ j, j < m → pls.setLayoutKeys.getD j 0 = layouts.getD j 0) :
    (List.range m).foldl (Context.invalidateSet layouts) (pls, false) = (pls, false) := by
  induction m with
  | zero => rfl
  | succ m ih =>
    rw [List.range_succ, List.foldl_append, ih (fun j hj => hagree j (by omega))]
    have hm := hagree m (by omega)
    simp only [List.foldl_cons, List.foldl_nil, Context.invalidateSet, hm, ne_eq,
      not_true_eq_false, Bool.false_eq_true, or_self, if_false]

/-- From the first disagreement on every index is invalidated. -/
theorem invalidate_from (layouts : List Nat) (pls : PipelineLayoutState) (k : Nat)
    (hagree : ∀ j, j < k → pls.setLayoutKeys.getD j 0 = layouts.getD j 0)
    (hk : pls.setLayoutKeys.getD k 0 ≠ layouts.getD k 0) (t : Nat) :
    ((List.range (k + 1 + t)).foldl (Context.invalidateSet layouts) (pls, false)).2 = true
      ∧ ((List.range (k + 1 + t)).foldl (Context.invalidateSet layouts) (pls, false)).1.dirtySetIndices
          = pls.dirtySetIndices ++ List.range' k (1 + t)
      ∧ (∀ i, ((List.range (k + 1 + t)).foldl (Context.invalidateSet layouts)
            (pls, false)).1.setLayoutKeys[i]?
          = if k ≤ i ∧ i < k + 1 + t ∧ i < pls.setLayoutKeys.length then some (layouts.getD i 0)
            else pls.setLayoutKeys[i]?)
      ∧ (∀ i, ((List.range (k + 1 + t)).foldl (Context.invalidateSet layouts)
            (pls, false)).1.vkDescriptorSets[i]?
          = if k ≤ i ∧ i < k + 1 + t ∧ i < pls.vkDescriptorSets.length then some 0
            else pls.vkDescriptorSets[i]?)
      ∧ ((List.range (k + 1 + t)).foldl (Context.invalidateSet layouts) (pls, false)).1.bindingState
          = pls.bindingState
      ∧ ((List.range (k + 1 + t)).foldl (Context.invalidateSet layouts)
            (pls, false)).1.descriptorSetCache = pls.descriptorSetCache
      ∧ ((List.range (k + 1 + t)).foldl (Context.invalidateSet layouts)
            (pls, false)).1.bindingStateCache = pls.bindingStateCache
      ∧ ((List.range (k + 1 + t)).foldl (Context.invalidateSet layouts)
            (pls, false)).1.setLayoutKeys.length = pls.setLayoutKeys.length
      ∧ ((List.range (k + 1 + t)).foldl (Context.invalidateSet layouts)
            (pls, false)).1.vkDescriptorSets.length = pls.vkDescriptorSets.length := by
  induction t with
  | zero =>
    rw [Nat.add_zero, List.range_succ, List.foldl_append, invalidate_agreeing layouts pls k hagree]
    simp only [List.foldl_cons, List.foldl_nil, Context.invalidateSet, hk, ne_eq, not_false_eq_true,
      true_or, if_true, List.length_set, and_true, true_and]
    refine ⟨by simp, fun i => ?_, fun i => ?_⟩
    · rw [List.getElem?_set]
      by_cases h1 : k = i
      · subst h1
        by_cases h2 : k < pls.setLayoutKeys.length
        · simp [h2]
        · simp [h2, List.getElem?_eq_none (Nat.le_of_not_lt h2)]
      · have h2 : ¬ (k ≤ i ∧ i < k + 1 ∧ i < pls.setLayoutKeys.length) := by omega
        simp [h1, h2]
    · rw [List.getElem?_set]
      by_cases h1 : k = i
      · subst h1
        by_cases h2 : k < pls.vkDescriptorSets.length
        · simp [h2]
        · simp [h2, List.getElem?_eq_none (Nat.le_of_not_lt h2)]
      · have h2 : ¬ (k ≤ i ∧ i < k + 1 ∧ i < pls.vkDescriptorSets.length) := by omega
        simp [h1, h2]
  | succ t ih =>
    obtain ⟨h1, h2, h3, h4, h5, h6, h7, h8, h9⟩ := ih
    have hr : k + 1 + (t + 1) = (k + 1 + t) + 1 := by omega
    rw [hr, List.range_succ, List.foldl_append]
    generalize (List.range (k + 1 + t)).foldl (Context.invalidateSet layouts) (pls, false) = r at *
    obtain ⟨q, b⟩ := r
    simp only at h1 h2 h3 h4 h5 h6 h7 h8 h9
    subst h1
    simp only [List.foldl_cons, List.foldl_nil, Context.invalidateSet, or_true, if_true,
      List.length_set, h5, h6, h7, h8, h9, and_true, true_and]
    refine ⟨?_, fun i => ?_, fun i => ?_⟩
    · rw [h2, List.append_assoc]
      congr 1
      have := @List.range'_concat 1 k (1 + t)
      simp only [Nat.one_mul] at this
      rw [show 1 + (t + 1) = (1 + t) + 1 by omega, this]
      congr 2
      omega
    · rw [List.getElem?_set, h3, h8]
      by_cases e : k + 1 + t = i
      · subst e
        by_cases h2 : k + 1 + t < pls.setLayoutKeys.length
        · have : k ≤ k + 1 + t ∧ k + 1 + t < k + 1 + t + 1 ∧ k + 1 + t < pls.setLayoutKeys.length := by
            omega
          simp [h2, this]
        · have : ¬ (k ≤ k + 1 + t ∧ k + 1 + t < k + 1 + t + 1 ∧ k + 1 + t < pls.setLayoutKeys.length) := by
            omega
          simp [h2, this, List.getElem?_eq_none (Nat.le_of_not_lt h2)]
      · simp only [e, if_false]
        by_cases h2 : k ≤ i ∧ i < k + 1 + t ∧ i < pls.setLayoutKeys.length
        · have : k ≤ i ∧ i < k + 1 + t + 1 ∧ i < pls.setLayoutKeys.length := by omega
          simp [h2, this]
        · have : ¬ (k ≤ i ∧ i < k + 1 + t + 1 ∧ i < pls.setLayoutKeys.length) := by omega
          simp [h2, this]
    · rw [List.getElem?_set, h4, h9]
      by_cases e : k + 1 + t = i
      · subst e
        by_cases h2 : k + 1 + t < pls.vkDescriptorSets.length
        · have : k ≤ k + 1 + t ∧ k + 1 + t < k + 1 + t + 1 ∧ k + 1 + t < pls.vkDescriptorSets.length := by
            omega
          simp [h2, this]
        · have : ¬ (k ≤ k + 1 + t ∧ k + 1 + t < k + 1 + t + 1 ∧ k + 1 + t < pls.vkDescriptorSets.length) := by
            omega
          simp [h2, this, List.getElem?_eq_none (Nat.le_of_not_lt h2)]
      · simp only [e, if_false]
        by_cases h2 : k ≤ i ∧ i < k + 1 + t ∧ i < pls.vkDescriptorSets.length
        · have : k ≤ i ∧ i < k + 1 + t + 1 ∧ i < pls.vkDescriptorSets.length := by omega
          simp [h2, this]
        · have : ¬ (k ≤ i ∧ i < k + 1 + t + 1 ∧ i < pls.vkDescriptorSets.length) := by omega
          simp [h2, this]

theorem bindPipeline_layoutState (d : Driver) (c : Context) (sh : Shader)
    (hd : c.mCurrentGraphicsPipelineState.mDirty = true)
    (hs : c.mCurrentGraphicsPipelineState.mShader = some sh) :
    (c.bindPipeline d).mPipelineLayoutState
      = Context.rebindLayouts sh.setLayoutKeys c.mPipelineLayoutState := by
  unfold Context.bindPipeline
  simp only [hd, hs, Bool.true_eq_false, if_false, Context.emit]
  split <;> rfl

/-! ## C2: the first changed layout and everything after it is invalidated -/

/-- C2: when `bindPipeline` runs on a dirty state whose shader has the layout
keys `L` (length `n`), with `P` the previous `setLayoutKeys` and `S` the
previous `vkDescriptorSets`, both resized to `n`: if `k` is the least index
with `P[k] ≠ L[k]`, the indices appended to `dirtySetIndices` are exactly
`k, k+1, ..., n-1` in ascending order, every position from `k` on holds a null
descriptor set, and every position below `k` keeps its key and its handle; if
`P` and `L` agree everywhere nothing is appended and keys and handles stay. -/
theorem C2_first_mismatch_invalidates (d : Driver) (c : Context) (sh : Shader) (k : Nat)
    (hd : c.mCurrentGraphicsPipelineState.mDirty = true)
    (hs : c.mCurrentGraphicsPipelineState.mShader = some sh) :
    (k < sh.setLayoutKeys.length →
      (resize c.mPipelineLayoutState.setLayoutKeys sh.setLayoutKeys.length 0).getD k 0
        ≠ sh.setLayoutKeys.getD k 0 →
      (∀ j, j < k →
        (resize c.mPipelineLayoutState.setLayoutKeys sh.setLayoutKeys.length 0).getD j 0
          = sh.setLayoutKeys.getD j 0) →
      (c.bindPipeline d).mPipelineLayoutState.dirtySetIndices
          = c.mPipelineLayoutState.dirtySetIndices ++ List.range' k (sh.setLayoutKeys.length - k)
        ∧ (∀ i, k ≤ i → i < sh.setLayoutKeys.length →
            (c.bindPipeline d).mPipelineLayoutState.vkDescriptorSets[i]? = some 0)
        ∧ (∀ i, i < k →
            (c.bindPipeline d).mPipelineLayoutState.setLayoutKeys[i]?
                = (resize c.mPipelineLayoutState.setLayoutKeys sh.setLayoutKeys.length 0)[i]?
              ∧ (c.bindPipeline d).mPipelineLayoutState.vkDescriptorSets[i]?
                = (resize c.mPipelineLayoutState.vkDescriptorSets sh.setLayoutKeys.length 0)[i]?))
      ∧ ((∀ j, j < sh.setLayoutKeys.length →
          (resize c.mPipelineLayoutState.setLayoutKeys sh.setLayoutKeys.length 0).getD j 0
            = sh.setLayoutKeys.getD j 0) →
        (c.bindPipeline d).mPipelineLayoutState.dirtySetIndices
            = c.mPipelineLayoutState.dirtySetIndices
          ∧ (c.bindPipeline d).mPipelineLayoutState.setLayoutKeys
            = resize c.mPipelineLayoutState.setLayoutKeys sh.setLayoutKeys.length 0
          ∧ (c.bindPipeline d).mPipelineLayoutState.vkDescriptorSets
            = resize c.mPipelineLayoutState.vkDescriptorSets sh.setLayoutKeys.length 0) := by
  rw [bindPipeline_layoutState d c sh hd hs]
  unfold Context.rebindLayouts
  simp only
  refine ⟨fun hk hne hmin => ?_, fun hall => ?_⟩
  · obtain ⟨t, ht⟩ : ∃ t, sh.setLayoutKeys.length = k + 1 + t := ⟨sh.setLayoutKeys.length - (k + 1), by omega⟩
    obtain ⟨_, h2, h3, h4, _, _, _, _, _⟩ := invalidate_from sh.setLayoutKeys
      { c.mPipelineLayoutState with
        setLayoutKeys := resize c.mPipelineLayoutState.setLayoutKeys sh.setLayoutKeys.length 0
        vkDescriptorSets := resize c.mPipelineLayoutState.vkDescriptorSets sh.setLayoutKeys.length 0
        bindingState := resize c.mPipelineLayoutState.bindingState sh.setLayoutKeys.length [] }
      k hmin hne t
    simp only [length_resize] at h3 h4
    rw [← ht] at h2 h3 h4
    refine ⟨?_, fun i hki hin => ?_, fun i hik => ⟨?_, ?_⟩⟩
    · rw [h2]
      congr 2
      omega
    · rw [h4, if_pos ⟨hki, hin, hin⟩]
    · rw [h3, if_neg (by omega)]
    · rw [h4, if_neg (by omega)]
  · rw [invalidate_agreeing sh.setLayoutKeys _ sh.setLayoutKeys.length hall]
    exact ⟨rfl, rfl, rfl⟩

set_option maxRecDepth 100000 in
/-- C2, on the sample session: binding shader B (layouts `[101, 102]`) over
the layouts `[101]` of shader A marks exactly set `1`; binding it again after
a change of polygon mode marks nothing. -/
theorem C2_first_mismatch_invalidates_witness :
    (Context.bindPipeline okDriver beforeSecondBind).mPipelineLayoutState.dirtySetIndices
        = beforeSecondBind.mPipelineLayoutState.dirtySetIndices
          ++ List.range' 1 (shaderB.setLayoutKeys.length - 1)
      ∧ (Context.bindPipeline okDriver beforeSecondBind).mPipelineLayoutState.dirtySetIndices = [1]
      ∧ (Context.bindPipeline okDriver rebindSameLayouts).mPipelineLayoutState.dirtySetIndices
        = rebindSameLayouts.mPipelineLayoutState.dirtySetIndices :=
  ⟨((C2_first_mismatch_invalidates okDriver beforeSecondBind shaderB 1 (by decide) (by decide)).1
      (by decide) (by decide) (by decide)).1,
    by decide,
    ((C2_first_mismatch_invalidates okDriver rebindSameLayouts shaderB 0 (by decide) (by decide)).2
      (by decide)).1⟩

/-! ## The descriptor-set cache along a run -/

theorem CacheStep.refl (k : Nat) (a : Map Handle × Nat) : CacheStep k a a :=
  ⟨fun _ hs => ⟨hs, rfl⟩, Or.inl rfl⟩

theorem CacheStep.of_eq (k : Nat) (a b : Map Handle × Nat) (h : b = a) : CacheStep k a b :=
  h ▸ CacheStep.refl k a

theorem CacheStep.trans (k : Nat) (a b c : Map Handle × Nat)
    (hab : CacheStep k a b) (hbc : CacheStep k b c) : CacheStep k a c := by
  obtain ⟨s1, s2⟩ := hab
  obtain ⟨r1, r2⟩ := hbc
  refine ⟨fun p hp => ?_, ?_⟩
  · obtain ⟨a1, a2⟩ := s1 p hp
    obtain ⟨b1, b2⟩ := r1 p a1
    exact ⟨b1, b2.trans a2⟩
  · rcases s2 with s2 | ⟨s2a, s2b, s2c⟩
    · rcases r2 with r2 | ⟨r2a, r2b, r2c⟩
      · exact Or.inl (r2.trans s2)
      · refine Or.inr ⟨r2a, ?_, by rw [r2c, s2]⟩
        cases hc : a.1.find k with
        | none => rfl
        | some p =>
          have := (s1 p hc).1
          rw [r2b] at this
          exact absurd this (by simp)
    · obtain ⟨p, hp⟩ := Option.isSome_iff_exists.mp s2a
      obtain ⟨b1, b2⟩ := r1 p hp
      refine Or.inr ⟨?_, s2b, by rw [b2, s2c]⟩
      simp [Map.contains, b1]

theorem CacheStep.foldl {α β : Type} (k : Nat) (obs : β → Map Handle × Nat) (f : β → α → β)
    (hf : ∀ b a, CacheStep k (obs b) (obs (f b a))) (l : List α) (b : β) :
    CacheStep k (obs b) (obs (l.foldl f b)) := by
  induction l generalizing b with
  | nil => exact CacheStep.refl k _
  | cons a l ih => exact CacheStep.trans k _ _ _ (hf b a) (ih (f b a))

theorem setCacheObs_of_cacheObs (k : Nat) (c c' : Context)
    (hc : cacheObs (Event.isAllocateSet k) c' = cacheObs (Event.isAllocateSet k) c) :
    setCacheObs k c' = setCacheObs k c := by
  simp only [cacheObs, Prod.mk.injEq] at hc
  simp only [setCacheObs, allocateSetCount, hc.2.1, hc.2.2]

/-- One resolution on a cache hit: the cached handle is assigned, nothing is
allocated, nothing is logged. -/
theorem resolveSet_hit (d : Driver) (acc : Context × List Nat) (i : Nat) (s : Handle)
    (hs : acc.1.mPipelineLayoutState.descriptorSetCache.find
      (acc.1.mPipelineLayoutState.setLayoutKeys.getD i 0) = some s) :
    (Context.resolveSet d acc i).1.mPipelineLayoutState.vkDescriptorSets
        = acc.1.mPipelineLayoutState.vkDescriptorSets.set i s
      ∧ (Context.resolveSet d acc i).1.mPipelineLayoutState.descriptorSetCache
        = acc.1.mPipelineLayoutState.descriptorSetCache
      ∧ (Context.resolveSet d acc i).1.trace = acc.1.trace
      ∧ (Context.resolveSet d acc i).2 = acc.2 := by
  refine ⟨?_, ?_, ?_, ?_⟩ <;> simp only [Context.resolveSet, hs]

/-- One resolution on a cache miss: one allocation, whose result is stored
under the layout key. -/
theorem resolveSet_miss (d : Driver) (acc : Context × List Nat) (i : Nat)
    (hs : acc.1.mPipelineLayoutState.descriptorSetCache.find
      (acc.1.mPipelineLayoutState.setLayoutKeys.getD i 0) = none) :
    (Context.resolveSet d acc i).1.mPipelineLayoutState.vkDescriptorSets
        = acc.1.mPipelineLayoutState.vkDescriptorSets.set i
            (d.vkAllocateDescriptorSets acc.1.trace.length
              (acc.1.mDescriptorPool.getD acc.1.mFrameIndex 0)
              (acc.1.mShaderManager.vkDescriptorSetLayout
                (acc.1.mPipelineLayoutState.setLayoutKeys.getD i 0))).2
      ∧ (Context.resolveSet d acc i).1.mPipelineLayoutState.descriptorSetCache
        = acc.1.mPipelineLayoutState.descriptorSetCache.assign
            (acc.1.mPipelineLayoutState.setLayoutKeys.getD i 0)
            ((Context.resolveSet d acc i).1.mPipelineLayoutState.vkDescriptorSets.getD i 0)
      ∧ (∀ k, allocateSetCount k (Context.resolveSet d acc i).1.trace
          = allocateSetCount k acc.1.trace
            + if acc.1.mPipelineLayoutState.setLayoutKeys.getD i 0 = k then 1 else 0)
      ∧ (Context.resolveSet d acc i).2 = acc.2 ++ [i] := by
  refine ⟨?_, ?_, fun k => ?_, ?_⟩
  · simp only [Context.resolveSet, hs]
  · simp only [Context.resolveSet, hs]
  · simp only [Context.resolveSet, hs, allocateSetCount, List.countP_append, List.countP_cons,
      List.countP_nil, Event.isAllocateSet, decide_eq_true_eq, Nat.zero_add]
    split <;> simp [List.countP_cons, Event.isAllocateSet]
  · simp only [Context.resolveSet, hs]

theorem resolveSet_step (d : Driver) (k : Nat) (acc : Context × List Nat) (i : Nat) :
    CacheStep k (setCacheObs k acc.1) (setCacheObs k (Context.resolveSet d acc i).1) := by
  cases hs : acc.1.mPipelineLayoutState.descriptorSetCache.find
      (acc.1.mPipelineLayoutState.setLayoutKeys.getD i 0) with
  | some s =>
    obtain ⟨_, h2, h3, _⟩ := resolveSet_hit d acc i s hs
    apply CacheStep.of_eq
    simp only [setCacheObs, h2, h3]
  | none =>
    obtain ⟨_, h2, h3, _⟩ := resolveSet_miss d acc i hs
    have hcount := h3 k
    generalize (Context.resolveSet d acc i).1.mPipelineLayoutState.vkDescriptorSets.getD i 0 = v at h2
    unfold CacheStep setCacheObs
    rw [h2, hcount]
    by_cases hk : acc.1.mPipelineLayoutState.setLayoutKeys.getD i 0 = k
    · rw [hk] at hs
      rw [hk, if_pos rfl]
      refine ⟨fun s hp => ?_, Or.inr ⟨?_, hs, rfl⟩⟩
      · exact absurd (hs ▸ hp) (by simp)
      · simp [Map.contains, Map.find_assign]
    · rw [if_neg hk, Nat.add_zero]
      refine ⟨fun s hp => ⟨?_, rfl⟩, Or.inl rfl⟩
      rw [Map.find_assign_ne _ _ _ _ hk]
      exact hp

theorem updateDescriptorSetState_step (d : Driver) (k : Nat) (c : Context) :
    CacheStep k (setCacheObs k c) (setCacheObs k (c.updateDescriptorSetState d)) := by
  have hq := isAllocateSet_driverCall k
  have hres := CacheStep.foldl k (fun a : Context × List Nat => setCacheObs k a.1)
    (Context.resolveSet d) (fun a b => resolveSet_step d k a b)
    c.mPipelineLayoutState.dirtySetIndices (c, [])
  have hdrop : ∀ x : Context, CacheStep k (setCacheObs k c) (setCacheObs k x) →
      CacheStep k (setCacheObs k c)
        (setCacheObs k
          { x with mPipelineLayoutState := { x.mPipelineLayoutState with dirtySetIndices := [] } }) :=
    fun _ hx => hx
  unfold Context.updateDescriptorSetState
  split
  · exact CacheStep.refl k _
  · refine hdrop _ ?_
    split
    · refine CacheStep.trans k _ _ _ hres (CacheStep.of_eq k _ _ ?_)
      apply setCacheObs_of_cacheObs
      rw [foldl_keeps (cacheObs (Event.isAllocateSet k)) _
        (fun a b => cacheObs_cacheBindingState _ hq a b), cacheObs_updateDescriptorSets _ hq]
    · exact hres

theorem flushUniformBufferState_step (d : Driver) (k : Nat) (c : Context) :
    CacheStep k (setCacheObs k c) (setCacheObs k (c.flushUniformBufferState d)) := by
  have hq := isAllocateSet_driverCall k
  have hdrop : ∀ x : Context, ∀ m, setCacheObs k { x with mCurrentFrameState := m } = setCacheObs k x :=
    fun _ _ => rfl
  unfold Context.flushUniformBufferState
  simp only
  rw [hdrop]
  refine CacheStep.trans k _ _ _ (updateDescriptorSetState_step d k c) (CacheStep.of_eq k _ _ ?_)
  exact setCacheObs_of_cacheObs k _ _ (cacheObs_flushLoop _ hq _ _)

theorem rebindLayouts_cache (layouts : List Nat) (pls : PipelineLayoutState) :
    (Context.rebindLayouts layouts pls).descriptorSetCache = pls.descriptorSetCache := by
  unfold Context.rebindLayouts
  simp only
  rw [foldl_keeps (fun a : PipelineLayoutState × Bool => a.1.descriptorSetCache)
    (Context.invalidateSet layouts)]
  intro b a
  unfold Context.invalidateSet
  split <;> rfl

theorem allocateSetCount_createPipeline (d : Driver) (t k : Nat) (s : GraphicsPipelineState) :
    allocateSetCount k (s.createPipeline d t).2 = 0 := by
  unfold GraphicsPipelineState.createPipeline allocateSetCount
  rw [List.countP_eq_zero]
  intro e he
  simp only [List.mem_append, List.mem_singleton] at he
  rcases he with (he | he) | he
  · subst he
    simp [Event.isAllocateSet]
  · split at he
    · simp at he
    · simp only [List.mem_singleton] at he
      subst he
      simp [Event.isAllocateSet]
  · subst he
    simp [Event.isAllocateSet]

theorem bindPipeline_cache (d : Driver) (c : Context) :
    (c.bindPipeline d).mPipelineLayoutState.descriptorSetCache
      = c.mPipelineLayoutState.descriptorSetCache := by
  unfold Context.bindPipeline
  split
  · rfl
  · simp only [Context.emit, rebindLayouts_cache]
    split <;> rfl

theorem setCacheObs_bindPipeline (d : Driver) (k : Nat) (c : Context) :
    setCacheObs k (c.bindPipeline d) = setCacheObs k c := by
  unfold setCacheObs
  rw [bindPipeline_cache]
  congr 1
  cases hd : c.mCurrentGraphicsPipelineState.mDirty with
  | false => rw [bindPipeline_clean d c hd]
  | true =>
    cases hf : c.mVkPipelines.find (d.calculateHash c.mCurrentGraphicsPipelineState) with
    | some q =>
      rw [(bindPipeline_hit d c q hd hf).2.2]
      simp [allocateSetCount, List.countP_append, List.countP_cons, Event.isAllocateSet]
    | none =>
      rw [(bindPipeline_miss d c hd hf).2.2]
      have h4 := allocateSetCount_createPipeline d (c.trace.length + 1) k c.mCurrentGraphicsPipelineState
      simp only [allocateSetCount] at h4 ⊢
      simp only [List.countP_append, h4, List.countP_cons, List.countP_nil,
        Event.isAllocateSet, Bool.false_eq_true, if_false, Nat.add_zero]

theorem setCacheObs_reset (k : Nat) (c : Context) :
    setCacheObs k c.reset = setCacheObs k c := by
  simp only [setCacheObs, Context.reset, allocateSetCount, Prod.mk.injEq, true_and,
    List.countP_append]
  have h1 : List.countP (Event.isAllocateSet k) (c.mDescriptorPool.map Event.destroyDescriptorPool) = 0 := by
    rw [List.countP_eq_zero]
    intro e he
    simp only [List.mem_map] at he
    obtain ⟨_, _, rfl⟩ := he
    simp [Event.isAllocateSet]
  have h2 : List.countP (Event.isAllocateSet k)
      ((c.mVkPipelines.filter (fun p => p.2 ≠ 0)).map (fun p => Event.destroyPipeline p.2)) = 0 := by
    rw [List.countP_eq_zero]
    intro e he
    simp only [List.mem_map] at he
    obtain ⟨_, _, rfl⟩ := he
    simp [Event.isAllocateSet]
  rw [h1, h2]
  split <;> simp [List.countP_cons, Event.isAllocateSet]

theorem draw_step (d : Driver) (k : Nat) (mesh : Mesh) (c : Context) :
    CacheStep k (setCacheObs k c) (setCacheObs k (c.draw d mesh)) := by
  have hq := isAllocateSet_driverCall k
  have h1 : ∀ x : Context, setCacheObs k (x.storeMesh mesh [] []).1 = setCacheObs k x :=
    fun x => setCacheObs_of_cacheObs k _ _ (cacheObs_storeMesh _ hq _ _ _ _)
  have h2 : ∀ x : Context, ∀ e, e.isDriverCall = false → setCacheObs k (x.emit e) = setCacheObs k x :=
    fun x e he => setCacheObs_of_cacheObs k _ _ (cacheObs_emit _ hq _ _ he)
  have h3 : CacheStep k (setCacheObs k c)
      (setCacheObs k (Context.bindDescriptorSets (Context.flushUniformBufferState d (c.bindPipeline d)))) := by
    rw [setCacheObs_of_cacheObs k _ _ (cacheObs_bindDescriptorSets _ hq _),
      ← setCacheObs_bindPipeline d k c]
    exact flushUniformBufferState_step d k _
  unfold Context.draw
  simp only
  split
  · rw [h2 _ _ (by rfl), h2 _ _ (by rfl), h1]
    exact h3
  · rw [h2 _ _ (by rfl), h2 _ _ (by rfl), h2 _ _ (by rfl), h1]
    exact h3

/-- The descriptor-set cache and the allocation count across one call other
than `begin`. -/
theorem step_setCache (d : Driver) (c : Context) (op : Op) (k : Nat) (hop : op.isBegin = false) :
    CacheStep k (setCacheObs k c) (setCacheObs k (step d c op)) := by
  have hq := isAllocateSet_driverCall k
  cases op with
  | begin f => exact absurd hop (by simp [Op.isBegin])
  | reset => exact CacheStep.of_eq k _ _ (setCacheObs_reset k c)
  | setup => exact CacheStep.refl k _
  | addShader s => exact CacheStep.of_eq k _ _ (setCacheObs_of_cacheObs k _ _ (cacheObs_addShader _ hq s c))
  | endFrame => exact CacheStep.refl k _
  | setShader s => exact CacheStep.refl k _
  | setRenderPass r => exact CacheStep.refl k _
  | setPolyMode m => exact CacheStep.refl k _
  | pushBuffer n => exact CacheStep.of_eq k _ _ (setCacheObs_of_cacheObs k _ _ (cacheObs_pushBuffer _ hq n c))
  | popBuffer n => exact CacheStep.of_eq k _ _ (setCacheObs_of_cacheObs k _ _ (cacheObs_popBuffer _ hq n c))
  | setUniform n b =>
    exact CacheStep.of_eq k _ _ (setCacheObs_of_cacheObs k _ _ (cacheObs_setUniform _ hq n b c))
  | debugSetTexture n t => exact CacheStep.refl k _
  | bindPipeline => exact CacheStep.of_eq k _ _ (setCacheObs_bindPipeline d k c)
  | updateDescriptorSetState => exact updateDescriptorSetState_step d k c
  | flushUniformBufferState => exact flushUniformBufferState_step d k c
  | bindDescriptorSets =>
    exact CacheStep.of_eq k _ _ (setCacheObs_of_cacheObs k _ _ (cacheObs_bindDescriptorSets _ hq c))
  | storeMesh m =>
    exact CacheStep.of_eq k _ _ (setCacheObs_of_cacheObs k _ _ (cacheObs_storeMesh _ hq m [] [] c))
  | draw m => exact draw_step d k m c

theorem run_setCache (d : Driver) (ops : List Op) (c : Context) (k : Nat)
    (hframe : ∀ op ∈ ops, op.isBegin = false) :
    CacheStep k (setCacheObs k c) (setCacheObs k (run d c ops)) := by
  induction ops generalizing c with
  | nil => exact CacheStep.refl k _
  | cons op ops ih =>
    exact CacheStep.trans k _ _ _ (step_setCache d c op k (hframe op (List.mem_cons_self _ _)))
      (ih (step d c op) (fun o ho => hframe o (List.mem_cons_of_mem _ ho)))

/-! ## C3: one descriptor-set allocation per layout and frame -/

/-- C3: along every sequence of calls that contains no `begin` (one frame), at
most one descriptor set is allocated for a layout key, and a key that is in
`descriptorSetCache` keeps its handle and costs no allocation.  A resolution
of a dirty set index whose key is in the cache assigns the cached handle,
leaves the cache alone and calls nothing; and whatever a resolution assigns to
the set index is the handle the cache holds for the key afterwards, so all
resolutions of a key in one frame yield the same handle. -/
theorem C3_one_allocation_per_layout_per_frame (d : Driver) (c : Context) (ops : List Op)
    (key : Nat) (acc : Context × List Nat) (i : Nat)
    (hframe : ∀ op ∈ ops, op.isBegin = false) :
    allocateSetCount key (run d c ops).trace ≤ allocateSetCount key c.trace + 1
      ∧ (∀ s, c.mPipelineLayoutState.descriptorSetCache.find key = some s →
          (run d c ops).mPipelineLayoutState.descriptorSetCache.find key = some s
            ∧ allocateSetCount key (run d c ops).trace = allocateSetCount key c.trace)
      ∧ (∀ s, acc.1.mPipelineLayoutState.setLayoutKeys.getD i 0 = key →
          acc.1.mPipelineLayoutState.descriptorSetCache.find key = some s →
          (Context.resolveSet d acc i).1.mPipelineLayoutState.vkDescriptorSets
              = acc.1.mPipelineLayoutState.vkDescriptorSets.set i s
            ∧ (Context.resolveSet d acc i).1.mPipelineLayoutState.descriptorSetCache
              = acc.1.mPipelineLayoutState.descriptorSetCache
            ∧ (Context.resolveSet d acc i).1.trace = acc.1.trace)
      ∧ (acc.1.mPipelineLayoutState.setLayoutKeys.getD i 0 = key →
          i < acc.1.mPipelineLayoutState.vkDescriptorSets.length →
          (Context.resolveSet d acc i).1.mPipelineLayoutState.vkDescriptorSets[i]?
            = (Context.resolveSet d acc i).1.mPipelineLayoutState.descriptorSetCache.find key) := by
  obtain ⟨r1, r2⟩ := run_setCache d ops c key hframe
  simp only [setCacheObs] at r1 r2
  refine ⟨?_, r1, fun s hk hs => ?_, fun hk hi => ?_⟩
  · rcases r2 with r2 | ⟨_, _, r2⟩ <;> omega
  · subst hk
    obtain ⟨h1, h2, h3, _⟩ := resolveSet_hit d acc i s hs
    exact ⟨h1, h2, h3⟩
  · subst hk
    cases hs : acc.1.mPipelineLayoutState.descriptorSetCache.find
        (acc.1.mPipelineLayoutState.setLayoutKeys.getD i 0) with
    | some s =>
      obtain ⟨h1, h2, _, _⟩ := resolveSet_hit d acc i s hs
      rw [h1, h2, hs, List.getElem?_set_self hi]
    | none =>
      obtain ⟨h1, h2, _, _⟩ := resolveSet_miss d acc i hs
      rw [h2, Map.find_assign_self, h1]
      simp [List.getD_eq_getElem?_getD, List.getElem?_set_self hi]

set_option maxRecDepth 100000 in
/-- C3, on the sample session: the three draws that follow `begin` use layout
`101` for set `0` each time and allocate one descriptor set for it. -/
theorem C3_one_allocation_per_layout_per_frame_witness :
    (∀ op ∈ frameOps, op.isBegin = false)
      ∧ allocateSetCount 101 (run okDriver afterBegin frameOps).trace
          ≤ allocateSetCount 101 afterBegin.trace + 1
      ∧ allocateSetCount 101 (run okDriver afterBegin frameOps).trace = 1 :=
  ⟨by decide,
    (C3_one_allocation_per_layout_per_frame okDriver afterBegin frameOps 101 (afterBegin, []) 0
      (by decide)).1,
    by decide⟩

/-! ## C4: a cache hit in the batch that allocates -/

set_option maxRecDepth 100000 in
/-- C4: with a shader whose sets `0` and `1` share the layout `101`, one call
of `updateDescriptorSetState` allocates for set `0`, serves set `1` from the
cache, and leaves `bindingState[1]` empty although the table recorded for the
layout is `[(0, 11), (1, 12)]`; the flush then yields two dynamic offsets for
two sets of two dynamic uniform buffers each. -/
theorem C4_same_batch_hit_gets_empty_table :
    twinBound.mPipelineLayoutState.dirtySetIndices = [0, 1]
      ∧ (twinBound.updateDescriptorSetState okDriver).mPipelineLayoutState.vkDescriptorSets
          = [2008, 2008]
      ∧ allocateSetCount 101 (twinBound.updateDescriptorSetState okDriver).trace = 1
      ∧ (twinBound.updateDescriptorSetState okDriver).mPipelineLayoutState.bindingStateCache.find 101
          = some [(0, 11), (1, 12)]
      ∧ (twinBound.updateDescriptorSetState okDriver).mPipelineLayoutState.bindingState
          = [[(0, 11), (1, 12)], []]
      ∧ (twinBound.flushUniformBufferState okDriver).mCurrentFrameState.bindingOffsets = [0, 256] := by
  decide

/-! ## C7: the copy after a failed allocation -/

set_option maxRecDepth 100000 in
/-- C7: when the slot of the frame is full, the flush of a dirty block gets a
failure from the allocator, logs it, and still copies the bytes of the block
through the pointer (left null) and records the block as uploaded at offset `0`. -/
theorem C7_copy_after_failed_allocation :
    (exhausted.flushUniformBufferState okDriver).trace.drop exhausted.trace.length
        = [Event.allocate 8 0 false 0, Event.logError "out of buffer space.",
            Event.memcpy 0 [1, 2, 3, 4, 0, 0, 0, 0] 8]
      ∧ ((exhausted.flushUniformBufferState okDriver).mCurrentFrameState.uboState.find 11).map
          (fun u => (u.state.stackId, u.state.memoryOffset)) = some (1, 0) := by
  decide

/-! ## C8: a sampler set served from the cache after its texture changed -/

set_option maxRecDepth 100000 in
/-- C8: the set of the sampler layout `102` is allocated and written once,
with the texture of that moment; after `debugSetTexture` the next resolution
of the layout returns the cached handle `2009`: no second allocation, and no
write of the new texture into any descriptor set. -/
theorem C8_sampler_set_reused_after_texture_change :
    allocateSetCount 102 (run okDriver freshContext (textureOps.take 5)).trace = 1
      ∧ (run okDriver freshContext (textureOps.take 8)).mPipelineLayoutState.vkDescriptorSets = [2008]
      ∧ (run okDriver freshContext textureOps).mCurrentFrameState.mUniformImages.find "tex"
          = some newTexture
      ∧ (run okDriver freshContext textureOps).mPipelineLayoutState.vkDescriptorSets = [2008, 2009]
      ∧ allocateSetCount 102 (run okDriver freshContext textureOps).trace = 1
      ∧ (run okDriver freshContext textureOps).trace.any (Event.writesImage (77, 78)) = false := by
  decide

/-! ## C9: a failed compilation is cached like any other -/

set_option maxRecDepth 100000 in
/-- C9, as stated, fails: the driver refuses the pipeline for the state hash
`110`, yet `mVkPipelines` holds an entry for `110` afterwards (the null
handle), and the next dirty `bindPipeline` with the same hash makes no call of
`createPipeline`. -/
theorem C9_failed_pipeline_counterexample :
    (beforeFirstBind.bindPipeline failDriver).trace.drop beforeFirstBind.trace.length
        = [Event.logNotice "Creating pipeline", Event.createPipeline 110 false 0,
            Event.logError "Vulkan error in Pipeline.cpp", Event.logNotice "here endpipeline",
            Event.cmdBindPipeline 0]
      ∧ (beforeFirstBind.bindPipeline failDriver).mVkPipelines.find 110 = some 0
      ∧ (run failDriver (beforeFirstBind.bindPipeline failDriver)
            (retryOps.take 2)).mCurrentGraphicsPipelineState.mDirty = true
      ∧ failDriver.calculateHash (run failDriver (beforeFirstBind.bindPipeline failDriver)
            (retryOps.take 2)).mCurrentGraphicsPipelineState = 110
      ∧ createCount 110 (run failDriver (beforeFirstBind.bindPipeline failDriver) retryOps).trace
          = createCount 110 (beforeFirstBind.bindPipeline failDriver).trace := by
  decide

/-- C9, amended: when the `createPipeline` call of a dirty `bindPipeline`
returns a null handle for the state hash `h`, the pipeline map holds the entry
`h ↦ nullptr` afterwards and the null handle is bound; along every later
sequence of calls without `reset` the entry stays, `createPipeline` is not
invoked for `h` again, and a dirty `bindPipeline` with hash `h` binds the
stored null handle. -/
theorem C9_failed_pipeline_is_cached (d : Driver) (c : Context) (ops : List Op)
    (hd : c.mCurrentGraphicsPipelineState.mDirty = true)
    (hmiss : c.mVkPipelines.find (d.calculateHash c.mCurrentGraphicsPipelineState) = none)
    (hfail : (c.mCurrentGraphicsPipelineState.createPipeline d (c.trace.length + 1)).1 = 0)
    (hreset : Op.reset ∉ ops) :
    (c.bindPipeline d).mVkPipelines.find (d.calculateHash c.mCurrentGraphicsPipelineState) = some 0
      ∧ (c.bindPipeline d).mCurrentVkPipeline = 0
      ∧ (run d (c.bindPipeline d) ops).mVkPipelines.find
          (d.calculateHash c.mCurrentGraphicsPipelineState) = some 0
      ∧ createCount (d.calculateHash c.mCurrentGraphicsPipelineState)
          (run d (c.bindPipeline d) ops).trace
        = createCount (d.calculateHash c.mCurrentGraphicsPipelineState) (c.bindPipeline d).trace
      ∧ ((run d (c.bindPipeline d) ops).mCurrentGraphicsPipelineState.mDirty = true →
          d.calculateHash (run d (c.bindPipeline d) ops).mCurrentGraphicsPipelineState
            = d.calculateHash c.mCurrentGraphicsPipelineState →
          ((run d (c.bindPipeline d) ops).bindPipeline d).trace
            = (run d (c.bindPipeline d) ops).trace ++ [Event.cmdBindPipeline 0]) := by
  obtain ⟨h1, h2, _⟩ := bindPipeline_miss d c hd hmiss
  have hfail2 : (d.vkCreateGraphicsPipelines (c.trace.length + 1) c.mCurrentGraphicsPipelineState).2 = 0 :=
    hfail
  rw [hfail2] at h1 h2
  have hentry : (c.bindPipeline d).mVkPipelines.find
      (d.calculateHash c.mCurrentGraphicsPipelineState) = some 0 := by
    rw [h1, Map.find_assign_self]
  obtain ⟨r1, _⟩ := run_pipelines d ops (c.bindPipeline d)
    (d.calculateHash c.mCurrentGraphicsPipelineState) hreset
  obtain ⟨r1a, r1b⟩ := r1 0 hentry
  refine ⟨hentry, h2, r1a, r1b, fun hd2 hh => ?_⟩
  exact (bindPipeline_hit d _ 0 hd2 (hh ▸ r1a)).2.2

set_option maxRecDepth 100000 in
/-- C9, amended, on a context whose driver refuses every pipeline: after the
failed first `bindPipeline` the state is made dirty again with the same hash
and bound again; the entry is still the null handle and `createPipeline` was
called once in all. -/
theorem C9_failed_pipeline_is_cached_witness :
    beforeFirstBind.mCurrentGraphicsPipelineState.mDirty = true
      ∧ Op.reset ∉ retryOps
      ∧ (run failDriver (beforeFirstBind.bindPipeline failDriver) retryOps).mVkPipelines.find
          (failDriver.calculateHash beforeFirstBind.mCurrentGraphicsPipelineState) = some 0
      ∧ createCount 110 (run failDriver (beforeFirstBind.bindPipeline failDriver) retryOps).trace = 1 :=
  ⟨by decide, by decide,
    (C9_failed_pipeline_is_cached failDriver beforeFirstBind retryOps (by decide) (by decide)
      (by decide) (by decide)).2.2.1,
    by decide⟩

/-! ## The flush of the uniform blocks -/

theorem flushObs_resolveSet (d : Driver) (acc : Context × List Nat) (i : Nat) :
    flushObs (Context.resolveSet d acc i).1 = flushObs acc.1 := by
  unfold Context.resolveSet
  simp only
  split <;> rfl

theorem flushObs_writeSet (acc : Context × List DescriptorWrite) (j : Nat) :
    flushObs (Context.writeSet acc j).1 = flushObs acc.1 := by
  unfold Context.writeSet
  simp only
  rw [foldl_keeps (fun a : Context × List DescriptorWrite => flushObs a.1) _
    (fun a b => (rfl : flushObs (Context.writeBinding j a b).1 = flushObs a.1))]
  rfl

theorem flushObs_updateDescriptorSetState (d : Driver) (c : Context) :
    flushObs (c.updateDescriptorSetState d) = flushObs c := by
  have hres : flushObs (c.mPipelineLayoutState.dirtySetIndices.foldl (Context.resolveSet d) (c, [])).1
      = flushObs c :=
    foldl_keeps (fun a : Context × List Nat => flushObs a.1) _
      (fun a b => flushObs_resolveSet d a b) _ _
  have hdrop : ∀ x : Context, ∀ m, flushObs { x with mPipelineLayoutState := m } = flushObs x :=
    fun _ _ => rfl
  unfold Context.updateDescriptorSetState
  split
  · rfl
  · simp only
    rw [hdrop]
    split
    · rw [foldl_keeps flushObs _ (fun a b => (rfl : flushObs (Context.cacheBindingState a b) = flushObs a))]
      unfold Context.updateDescriptorSets
      simp only
      rw [show ∀ x : Context, ∀ e, flushObs (x.emit e) = flushObs x from fun _ _ => rfl,
        foldl_keeps (fun a : Context × List DescriptorWrite => flushObs a.1) _
          (fun a b => flushObs_writeSet a b)]
      exact hres
    · exact hres

theorem flushBinding_layoutState (acc : Context × List Nat) (b : Nat × Nat) :
    (Context.flushBinding acc b).1.mPipelineLayoutState = acc.1.mPipelineLayoutState
      ∧ (Context.flushBinding acc b).1.mFrameIndex = acc.1.mFrameIndex := by
  unfold Context.flushBinding
  simp only
  split
  · exact ⟨rfl, rfl⟩
  · split
    · simp only [Context.emit, Context.allocate]
      split <;> exact ⟨rfl, rfl⟩
    · exact ⟨rfl, rfl⟩

theorem flushBinding_absent (acc : Context × List Nat) (b : Nat × Nat)
    (h : acc.1.mCurrentFrameState.uboState.find b.2 = none) :
    Context.flushBinding acc b = acc := by
  simp only [Context.flushBinding, h]

theorem flushBinding_clean (acc : Context × List Nat) (b : Nat × Nat) (u : UboStack)
    (h : acc.1.mCurrentFrameState.uboState.find b.2 = some u) (hc : u.state.stackId ≠ -1) :
    Context.flushBinding acc b = (acc.1, acc.2 ++ [u.state.memoryOffset % 2 ^ 32]) := by
  simp only [Context.flushBinding, h, hc, if_false]

theorem flushBinding_dirty (acc : Context × List Nat) (b : Nat × Nat) (u : UboStack)
    (h : acc.1.mCurrentFrameState.uboState.find b.2 = some u) (hd : u.state.stackId = -1) :
    (Context.flushBinding acc b).1.mCurrentFrameState.uboState
        = acc.1.mCurrentFrameState.uboState.assign b.2
            (u.uploaded (acc.1.mAlloc.allocate u.struct_size 0 0 acc.1.mFrameIndex).offset)
      ∧ (Context.flushBinding acc b).2
        = acc.2 ++ [(acc.1.mAlloc.allocate u.struct_size 0 0 acc.1.mFrameIndex).offset % 2 ^ 32]
      ∧ (Context.flushBinding acc b).1.mAlloc
        = (acc.1.mAlloc.allocate u.struct_size 0 0 acc.1.mFrameIndex).alloc
      ∧ (Context.flushBinding acc b).1.trace
        = acc.1.trace
          ++ [Event.allocate u.struct_size acc.1.mFrameIndex
                (acc.1.mAlloc.allocate u.struct_size 0 0 acc.1.mFrameIndex).success
                (acc.1.mAlloc.allocate u.struct_size 0 0 acc.1.mFrameIndex).offset]
          ++ (if (acc.1.mAlloc.allocate u.struct_size 0 0 acc.1.mFrameIndex).success then []
              else [Event.logError "out of buffer space."])
          ++ [Event.memcpy (acc.1.mAlloc.allocate u.struct_size 0 0 acc.1.mFrameIndex).pData
                u.state.data u.struct_size] := by
  simp only [Context.flushBinding, h, hd, if_true, Context.allocate, Context.emit, UboStack.uploaded]
  refine ⟨?_, trivial, ?_, ?_⟩
  · split <;> rfl
  · split <;> rfl
  · split <;> simp_all

/-- A binding with another hash leaves the block alone. -/
theorem flushBinding_other (acc : Context × List Nat) (b : Nat × Nat) (k : Nat) (hk : b.2 ≠ k) :
    (Context.flushBinding acc b).1.mCurrentFrameState.uboState.find k
      = acc.1.mCurrentFrameState.uboState.find k := by
  cases h : acc.1.mCurrentFrameState.uboState.find b.2 with
  | none => rw [flushBinding_absent acc b h]
  | some u =>
    by_cases hd : u.state.stackId = -1
    · rw [(flushBinding_dirty acc b u h hd).1, Map.find_assign_ne _ _ _ _ hk]
    · rw [flushBinding_clean acc b u h hd]

/-- A block that is not dirty is left alone by every binding. -/
theorem flushBinding_settled (acc : Context × List Nat) (b : Nat × Nat) (k : Nat) (u : UboStack)
    (hk : acc.1.mCurrentFrameState.uboState.find k = some u) (hs : u.state.stackId ≠ -1) :
    (Context.flushBinding acc b).1.mCurrentFrameState.uboState.find k = some u := by
  by_cases hb : b.2 = k
  · subst hb
    rw [flushBinding_clean acc b u hk hs]
    exact hk
  · rw [flushBinding_other acc b k hb]
    exact hk

/-- A hash that is no key of `uboState` stays none. -/
theorem flushBinding_missing (acc : Context × List Nat) (b : Nat × Nat) (k : Nat)
    (hk : acc.1.mCurrentFrameState.uboState.find k = none) :
    (Context.flushBinding acc b).1.mCurrentFrameState.uboState.find k = none := by
  by_cases hb : b.2 = k
  · subst hb
    rw [flushBinding_absent acc b hk]
    exact hk
  · rw [flushBinding_other acc b k hb]
    exact hk

theorem flush_other (l : List (Nat × Nat)) (acc : Context × List Nat) (k : Nat)
    (hl : ∀ x ∈ l, x.2 ≠ k) :
    (l.foldl Context.flushBinding acc).1.mCurrentFrameState.uboState.find k
      = acc.1.mCurrentFrameState.uboState.find k := by
  induction l generalizing acc with
  | nil => rfl
  | cons b l ih =>
    rw [List.foldl_cons, ih _ (fun x hx => hl x (List.mem_cons_of_mem _ hx)),
      flushBinding_other acc b k (hl b (List.mem_cons_self _ _))]

theorem flush_settled (l : List (Nat × Nat)) (acc : Context × List Nat) (k : Nat) (u : UboStack)
    (hk : acc.1.mCurrentFrameState.uboState.find k = some u) (hs : u.state.stackId ≠ -1) :
    (l.foldl Context.flushBinding acc).1.mCurrentFrameState.uboState.find k = some u := by
  induction l generalizing acc with
  | nil => exact hk
  | cons b l ih => exact ih _ (flushBinding_settled acc b k u hk hs)

theorem flush_missing (l : List (Nat × Nat)) (acc : Context × List Nat) (k : Nat)
    (hk : acc.1.mCurrentFrameState.uboState.find k = none) :
    (l.foldl Context.flushBinding acc).1.mCurrentFrameState.uboState.find k = none := by
  induction l generalizing acc with
  | nil => exact hk
  | cons b l ih => exact ih _ (flushBinding_missing acc b k hk)

theorem flush_layoutState (l : List (Nat × Nat)) (acc : Context × List Nat) :
    (l.foldl Context.flushBinding acc).1.mPipelineLayoutState = acc.1.mPipelineLayoutState
      ∧ (l.foldl Context.flushBinding acc).1.mFrameIndex = acc.1.mFrameIndex := by
  induction l generalizing acc with
  | nil => exact ⟨rfl, rfl⟩
  | cons b l ih =>
    rw [List.foldl_cons, (ih _).1, (ih _).2]
    exact flushBinding_layoutState acc b

theorem flushBinding_counters (acc : Context × List Nat) (b : Nat × Nat)
    (hacc : CountersStarted acc.1) : CountersStarted (Context.flushBinding acc b).1 := by
  intro k u hk
  cases h : acc.1.mCurrentFrameState.uboState.find b.2 with
  | none =>
    rw [flushBinding_absent acc b h] at hk
    exact hacc k u hk
  | some v =>
    by_cases hd : v.state.stackId = -1
    · rw [(flushBinding_dirty acc b v h hd).1, Map.find_assign] at hk
      by_cases hb : b.2 = k
      · rw [if_pos hb] at hk
        have hv := hacc b.2 v h
        cases hk
        simp only [UboStack.uploaded]
        omega
      · rw [if_neg hb] at hk
        exact hacc k u hk
    · rw [flushBinding_clean acc b v h hd] at hk
      exact hacc k u hk

/-- After its binding was visited a block is not dirty, and the offset just
appended is the offset the block holds. -/
theorem flushBinding_entry (acc : Context × List Nat) (b : Nat × Nat) (u : UboStack)
    (hacc : CountersStarted acc.1)
    (h : acc.1.mCurrentFrameState.uboState.find b.2 = some u) :
    ∃ v, (Context.flushBinding acc b).1.mCurrentFrameState.uboState.find b.2 = some v
      ∧ v.state.stackId ≠ -1
      ∧ (Context.flushBinding acc b).2 = acc.2 ++ [v.state.memoryOffset % 2 ^ 32] := by
  by_cases hd : u.state.stackId = -1
  · obtain ⟨h1, h2, _, _⟩ := flushBinding_dirty acc b u h hd
    refine ⟨_, by rw [h1, Map.find_assign_self], ?_, h2⟩
    have hu := hacc b.2 u h
    simp only [UboStack.uploaded]
    omega
  · rw [flushBinding_clean acc b u h hd]
    exact ⟨u, h, hd, rfl⟩

/-- The offsets a flush collects: one per binding whose hash is a key of
`uboState`, each the offset its block holds when the flush is over. -/
theorem flush_offsets (l : List (Nat × Nat)) (acc : Context × List Nat)
    (hacc : CountersStarted acc.1) :
    (l.foldl Context.flushBinding acc).2
      = acc.2 ++ l.filterMap (fun b =>
          ((l.foldl Context.flushBinding acc).1.mCurrentFrameState.uboState.find b.2).map
            (fun u => u.state.memoryOffset % 2 ^ 32)) := by
  induction l generalizing acc with
  | nil => simp
  | cons b l ih =>
    rw [List.foldl_cons, ih _ (flushBinding_counters acc b hacc), List.filterMap_cons]
    cases h : acc.1.mCurrentFrameState.uboState.find b.2 with
    | none =>
      have h1 : (l.foldl Context.flushBinding (Context.flushBinding acc b)).1.mCurrentFrameState.uboState.find b.2
          = none := flush_missing l _ b.2 (flushBinding_missing acc b b.2 h)
      rw [flushBinding_absent acc b h] at h1 ⊢
      simp only [h1, Option.map_none']
    | some u =>
      obtain ⟨v, hv1, hv2, hv3⟩ := flushBinding_entry acc b u hacc h
      have h1 := flush_settled l _ b.2 v hv1 hv2
      simp only [h1, Option.map_some', hv3, List.append_assoc, List.singleton_append]

theorem foldl_flushTable (tables : List BindingTable) (acc : Context × List Nat) :
    tables.foldl Context.flushTable acc = tables.flatten.foldl Context.flushBinding acc := by
  induction tables generalizing acc with
  | nil => rfl
  | cons t tables ih =>
    rw [List.foldl_cons, ih, List.flatten_cons, List.foldl_append]
    rfl

theorem allocate_size (a : Allocator) (n f : Nat) :
    (a.allocate n 0 0 f).alloc.size = a.size ∧ (a.allocate n 0 0 f).offset ≤ a.size := by
  unfold Allocator.allocate
  simp only
  split
  · rename_i h
    refine ⟨rfl, ?_⟩
    simp only
    have h1 : (f + 1) * a.slotSize ≤ a.frames * a.slotSize := Nat.mul_le_mul_right _ h.1
    have h2 : a.frames * a.slotSize ≤ a.size := by
      unfold Allocator.slotSize
      rw [Nat.mul_comm]
      exact Nat.div_mul_le_self a.size a.frames
    have h3 : (f + 1) * a.slotSize = f * a.slotSize + a.slotSize := by ring
    omega
  · exact ⟨rfl, Nat.zero_le _⟩

theorem flushBinding_fit (acc : Context × List Nat) (b : Nat × Nat)
    (hacc : OffsetsFit acc.1) : OffsetsFit (Context.flushBinding acc b).1 := by
  cases h : acc.1.mCurrentFrameState.uboState.find b.2 with
  | none =>
    rw [flushBinding_absent acc b h]
    exact hacc
  | some v =>
    by_cases hd : v.state.stackId = -1
    · obtain ⟨h1, _, h3, _⟩ := flushBinding_dirty acc b v h hd
      obtain ⟨a1, a2⟩ := allocate_size acc.1.mAlloc v.struct_size acc.1.mFrameIndex
      refine ⟨by rw [h3, a1]; exact hacc.1, fun k u hk => ?_⟩
      rw [h1, Map.find_assign] at hk
      by_cases hb : b.2 = k
      · rw [if_pos hb] at hk
        cases hk
        simp only [UboStack.uploaded]
        have := hacc.1
        omega
      · rw [if_neg hb] at hk
        exact hacc.2 k u hk
    · rw [flushBinding_clean acc b v h hd]
      exact hacc

theorem flush_fit (l : List (Nat × Nat)) (acc : Context × List Nat)
    (hacc : OffsetsFit acc.1) : OffsetsFit (l.foldl Context.flushBinding acc).1 := by
  induction l generalizing acc with
  | nil => exact hacc
  | cons b l ih => exact ih _ (flushBinding_fit acc b hacc)

theorem flushUniformBufferState_eq (d : Driver) (c : Context) :
    (c.flushUniformBufferState d).mCurrentFrameState.bindingOffsets
        = ((c.updateDescriptorSetState d).boundBindings.foldl Context.flushBinding
            (c.updateDescriptorSetState d, [])).2
      ∧ (c.flushUniformBufferState d).mCurrentFrameState.uboState
        = ((c.updateDescriptorSetState d).boundBindings.foldl Context.flushBinding
            (c.updateDescriptorSetState d, [])).1.mCurrentFrameState.uboState
      ∧ (c.flushUniformBufferState d).mPipelineLayoutState
        = (c.updateDescriptorSetState d).mPipelineLayoutState := by
  unfold Context.flushUniformBufferState Context.boundBindings
  simp only [foldl_flushTable]
  exact ⟨trivial, trivial, (flush_layoutState _ _).1⟩


theorem countersStarted_of_all (c : Context)
    (h : c.mCurrentFrameState.uboState.all (fun p => decide (-1 ≤ p.2.lastSavedStackId)) = true) :
    CountersStarted c := by
  intro k u hk
  generalize c.mCurrentFrameState.uboState = m at h hk
  induction m with
  | nil => simp [Map.find] at hk
  | cons p rest ih =>
    obtain ⟨k0, v0⟩ := p
    simp only [List.all_cons, Bool.and_eq_true, decide_eq_true_eq] at h
    simp only [Map.find] at hk
    split at hk
    · cases hk
      exact h.1
    · exact ih h.2 hk

theorem offsetsFit_of_all (c : Context) (hs : c.mAlloc.size < 2 ^ 32)
    (h : c.mCurrentFrameState.uboState.all (fun p => decide (p.2.state.memoryOffset < 2 ^ 32)) = true) :
    OffsetsFit c := by
  refine ⟨hs, fun k u hk => ?_⟩
  generalize c.mCurrentFrameState.uboState = m at h hk
  induction m with
  | nil => simp [Map.find] at hk
  | cons p rest ih =>
    obtain ⟨k0, v0⟩ := p
    simp only [List.all_cons, Bool.and_eq_true, decide_eq_true_eq] at h
    simp only [Map.find] at hk
    split at hk
    · cases hk
      exact h.1
    · exact ih h.2 hk

theorem split_first (l : List (Nat × Nat)) (h : Nat) (hmem : h ∈ l.map Prod.snd) :
    ∃ b post, l = l.takeWhile (fun x => decide (x.2 ≠ h)) ++ b :: post ∧ b.2 = h := by
  induction l with
  | nil => simp at hmem
  | cons a l ih =>
    by_cases ha : a.2 = h
    · refine ⟨a, l, ?_, ha⟩
      simp [List.takeWhile_cons, ha]
    · have hmem2 : h ∈ l.map Prod.snd := by
        simp only [List.map_cons, List.mem_cons] at hmem
        rcases hmem with hmem | hmem
        · exact absurd hmem.symm ha
        · exact hmem
      obtain ⟨b, post, hl, hb⟩ := ih hmem2
      refine ⟨b, post, ?_, hb⟩
      simp only [List.takeWhile_cons, ha, ne_eq, not_false_eq_true, decide_True, if_true,
        List.cons_append]
      rw [← hl]

theorem flushBinding_trace (acc : Context × List Nat) (b : Nat × Nat) :
    ∃ es, (Context.flushBinding acc b).1.trace = acc.1.trace ++ es := by
  cases h : acc.1.mCurrentFrameState.uboState.find b.2 with
  | none => exact ⟨[], by rw [flushBinding_absent acc b h, List.append_nil]⟩
  | some v =>
    by_cases hd : v.state.stackId = -1
    · obtain ⟨_, _, _, h4⟩ := flushBinding_dirty acc b v h hd
      exact ⟨_, by rw [h4, List.append_assoc, List.append_assoc]⟩
    · exact ⟨[], by rw [flushBinding_clean acc b v h hd, List.append_nil]⟩

theorem flush_trace (l : List (Nat × Nat)) (acc : Context × List Nat) :
    ∃ es, (l.foldl Context.flushBinding acc).1.trace = acc.1.trace ++ es := by
  induction l generalizing acc with
  | nil => exact ⟨[], by simp⟩
  | cons b l ih =>
    obtain ⟨es1, h1⟩ := flushBinding_trace acc b
    obtain ⟨es2, h2⟩ := ih (Context.flushBinding acc b)
    exact ⟨es1 ++ es2, by rw [List.foldl_cons, h2, h1, List.append_assoc]⟩

/-! ## C5: the dynamic offsets -/

/-- C5: after `flushUniformBufferState` (on a context whose block counters are
at least `-1`), `bindingOffsets` is the list with one entry for each binding
whose uniform hash is a key of `uboState`, taken over the binding tables of
`bindingState` in set order and within a table in table order; the entry is
the `memoryOffset` the block holds after the flush, as a 32-bit value;
bindings whose hash is no key contribute nothing; the previous list is
replaced.  When the allocator and the blocks hold only offsets below `2^32`
the entry is the `memoryOffset` itself. -/
theorem C5_binding_offsets (d : Driver) (c : Context) (hc : CountersStarted c) :
    (c.flushUniformBufferState d).mCurrentFrameState.bindingOffsets
        = (c.flushUniformBufferState d).boundBindings.filterMap (fun b =>
            ((c.flushUniformBufferState d).mCurrentFrameState.uboState.find b.2).map
              (fun u => u.state.memoryOffset % 2 ^ 32))
      ∧ (OffsetsFit c →
          (c.flushUniformBufferState d).mCurrentFrameState.bindingOffsets
            = (c.flushUniformBufferState d).boundBindings.filterMap (fun b =>
                ((c.flushUniformBufferState d).mCurrentFrameState.uboState.find b.2).map
                  (fun u => u.state.memoryOffset))) := by
  obtain ⟨h1, h2, h3⟩ := flushUniformBufferState_eq d c
  have hobs := flushObs_updateDescriptorSetState d c
  simp only [flushObs, Prod.mk.injEq] at hobs
  have hc1 : CountersStarted (c.updateDescriptorSetState d) := by
    intro k u hk
    rw [hobs.1] at hk
    exact hc k u hk
  have hmain : (c.flushUniformBufferState d).mCurrentFrameState.bindingOffsets
      = (c.flushUniformBufferState d).boundBindings.filterMap (fun b =>
          ((c.flushUniformBufferState d).mCurrentFrameState.uboState.find b.2).map
            (fun u => u.state.memoryOffset % 2 ^ 32)) := by
    rw [h1, h2]
    unfold Context.boundBindings
    rw [h3, flush_offsets _ _ hc1, List.nil_append]
  refine ⟨hmain, fun hfit => ?_⟩
  have hfit1 : OffsetsFit (c.updateDescriptorSetState d) := by
    refine ⟨by rw [hobs.2.1]; exact hfit.1, fun k u hk => ?_⟩
    rw [hobs.1] at hk
    exact hfit.2 k u hk
  have hfit2 := (flush_fit (c.updateDescriptorSetState d).boundBindings
    (c.updateDescriptorSetState d, []) hfit1).2
  rw [← h2] at hfit2
  rw [hmain]
  apply List.filterMap_congr
  intro b _
  cases hb : (c.flushUniformBufferState d).mCurrentFrameState.uboState.find b.2 with
  | none => rfl
  | some u =>
    simp only [Option.map_some', Option.some.injEq]
    exact Nat.mod_eq_of_lt (hfit2 b.2 u hb)

set_option maxRecDepth 100000 in
/-- C5, on a frame bound to shader B: the tables hold the two blocks and the
sampler; the flush yields the offsets of the two blocks and nothing for the
sampler. -/
theorem C5_binding_offsets_witness :
    CountersStarted samplerBound
      ∧ (samplerBound.flushUniformBufferState okDriver).mCurrentFrameState.bindingOffsets
          = (samplerBound.flushUniformBufferState okDriver).boundBindings.filterMap (fun b =>
              ((samplerBound.flushUniformBufferState okDriver).mCurrentFrameState.uboState.find
                b.2).map (fun u => u.state.memoryOffset % 2 ^ 32))
      ∧ (samplerBound.flushUniformBufferState okDriver).boundBindings = [(0, 11), (1, 12), (0, 13)]
      ∧ (samplerBound.flushUniformBufferState okDriver).mCurrentFrameState.bindingOffsets
          = [0, 256] :=
  ⟨countersStarted_of_all _ (by decide),
    (C5_binding_offsets okDriver samplerBound (countersStarted_of_all _ (by decide))).1,
    by decide, by decide⟩

/-! ## C6: the upload of a dirty block -/

/-- C6: let a block `u` be dirty (`stackId = -1`), stored under the uniform
hash `h`, referenced by a binding table once the descriptor sets are
resolved, with its counter at least `-1`.  Then `flushUniformBufferState`
asks the allocator for `struct_size` bytes in the current frame (in the state
the allocator has when the flush first meets `h`), copies the bytes of the
block to the pointer it got, and leaves the block with `memoryOffset` the
offset the allocator returned, `lastSavedStackId` advanced by exactly one and
`stackId` equal to it: a non-negative id above every earlier value of the
counter. -/
theorem C6_dirty_block_upload (d : Driver) (c : Context) (h : Nat) (u : UboStack)
    (hfind : c.mCurrentFrameState.uboState.find h = some u)
    (hdirty : u.state.stackId = -1)
    (href : h ∈ (c.updateDescriptorSetState d).boundBindings.map Prod.snd)
    (hid : -1 ≤ u.lastSavedStackId) :
    (c.flushUniformBufferState d).mCurrentFrameState.uboState.find h
        = some (u.uploaded
            ((c.flushedUpTo d h).mAlloc.allocate u.struct_size 0 0 c.mFrameIndex).offset)
      ∧ Event.allocate u.struct_size c.mFrameIndex
            ((c.flushedUpTo d h).mAlloc.allocate u.struct_size 0 0 c.mFrameIndex).success
            ((c.flushedUpTo d h).mAlloc.allocate u.struct_size 0 0 c.mFrameIndex).offset
          ∈ (c.flushUniformBufferState d).trace
      ∧ Event.memcpy
            ((c.flushedUpTo d h).mAlloc.allocate u.struct_size 0 0 c.mFrameIndex).pData
            u.state.data u.struct_size
          ∈ (c.flushUniformBufferState d).trace
      ∧ (∀ v, (c.flushUniformBufferState d).mCurrentFrameState.uboState.find h = some v →
          v.lastSavedStackId = u.lastSavedStackId + 1
            ∧ v.state.stackId = v.lastSavedStackId
            ∧ 0 ≤ v.state.stackId
            ∧ (∀ j, j ≤ u.lastSavedStackId → j < v.state.stackId)
            ∧ v.state.data = u.state.data) := by
  obtain ⟨_, h2, _⟩ := flushUniformBufferState_eq d c
  have hobs := flushObs_updateDescriptorSetState d c
  simp only [flushObs, Prod.mk.injEq] at hobs
  obtain ⟨b, post, hl, hb⟩ := split_first _ h href
  have hpre : ∀ x ∈ (c.updateDescriptorSetState d).bindingsBefore h, x.2 ≠ h := by
    intro x hx
    have := List.mem_takeWhile_imp hx
    simpa using this
  -- the block is untouched until the flush meets it
  have hmid : (c.flushedUpTo d h).mCurrentFrameState.uboState.find h = some u := by
    unfold Context.flushedUpTo
    rw [flush_other _ _ h hpre, hobs.1]
    exact hfind
  have hframe : (c.flushedUpTo d h).mFrameIndex = c.mFrameIndex := by
    unfold Context.flushedUpTo
    rw [(flush_layoutState _ _).2, hobs.2.2]
  -- the step that meets it
  have hsplit : (c.updateDescriptorSetState d).boundBindings.foldl Context.flushBinding
        (c.updateDescriptorSetState d, [])
      = post.foldl Context.flushBinding
          (Context.flushBinding
            (((c.updateDescriptorSetState d).bindingsBefore h).foldl Context.flushBinding
              (c.updateDescriptorSetState d, [])) b) := by
    conv_lhs => rw [hl]
    rw [List.foldl_append, List.foldl_cons]
    rfl
  have hmid' : (((c.updateDescriptorSetState d).bindingsBefore h).foldl Context.flushBinding
      (c.updateDescriptorSetState d, [])).1.mCurrentFrameState.uboState.find b.2 = some u := by
    rw [hb]
    exact hmid
  obtain ⟨s1, _, _, s4⟩ := flushBinding_dirty _ b u hmid' hdirty
  have hmidctx : (((c.updateDescriptorSetState d).bindingsBefore h).foldl Context.flushBinding
      (c.updateDescriptorSetState d, [])).1 = c.flushedUpTo d h := rfl
  rw [hmidctx, hframe] at s1 s4
  have hsettled : (u.uploaded
      ((c.flushedUpTo d h).mAlloc.allocate u.struct_size 0 0 c.mFrameIndex).offset).state.stackId ≠ -1 := by
    simp only [UboStack.uploaded]
    omega
  have hfinal : (c.flushUniformBufferState d).mCurrentFrameState.uboState.find h
      = some (u.uploaded
          ((c.flushedUpTo d h).mAlloc.allocate u.struct_size 0 0 c.mFrameIndex).offset) := by
    rw [h2, hsplit]
    apply flush_settled post _ h _ _ hsettled
    rw [s1, hb, Map.find_assign_self]
  have htrace : (c.flushUniformBufferState d).trace
      = (post.foldl Context.flushBinding
          (Context.flushBinding
            (((c.updateDescriptorSetState d).bindingsBefore h).foldl Context.flushBinding
              (c.updateDescriptorSetState d, [])) b)).1.trace := by
    rw [← hsplit]
    unfold Context.flushUniformBufferState Context.boundBindings
    simp only [foldl_flushTable]
  obtain ⟨es, hes⟩ := flush_trace post (Context.flushBinding
    (((c.updateDescriptorSetState d).bindingsBefore h).foldl Context.flushBinding
      (c.updateDescriptorSetState d, [])) b)
  rw [s4] at hes
  refine ⟨hfinal, ?_, ?_, fun v hv => ?_⟩
  · rw [htrace, hes]
    simp
  · rw [htrace, hes]
    simp
  · rw [hfinal] at hv
    cases hv
    simp only [UboStack.uploaded]
    refine ⟨trivial, trivial, by omega, fun j hj => by omega, trivial⟩

set_option maxRecDepth 100000 in
/-- C6, on a frame bound to shader B: the dirty block `Style` is uploaded
behind the block `DefaultMatrices`, at offset `256`, and gets the id `0`. -/
theorem C6_dirty_block_upload_witness :
    samplerBound.mCurrentFrameState.uboState.find 12 = some styleBlock
      ∧ (samplerBound.flushUniformBufferState okDriver).mCurrentFrameState.uboState.find 12
          = some (styleBlock.uploaded
              ((samplerBound.flushedUpTo okDriver 12).mAlloc.allocate styleBlock.struct_size 0 0
                samplerBound.mFrameIndex).offset)
      ∧ styleBlock.uploaded
            ((samplerBound.flushedUpTo okDriver 12).mAlloc.allocate styleBlock.struct_size 0 0
              samplerBound.mFrameIndex).offset
          = { name := "Style", struct_size := 4, lastSavedStackId := 0
              state := { stackId := 0, memoryOffset := 256, data := [0, 0, 0, 0] } } :=
  ⟨by decide,
    (C6_dirty_block_upload okDriver samplerBound 12 styleBlock (by decide) (by decide)
      (by decide) (by decide)).1,
    by decide⟩

/-! ## The member map built by `initialiseFrameState` -/

theorem registerMember_find (k : Nat) (n m : String) (acc : Frame × List Event)
    (mem : String × (Nat × Nat)) (hq : n ++ "." ++ mem.1 ≠ m) :
    (Context.registerMember k n acc mem).1.mUboMembers.find m
      = if mem.1 = m then
          (match acc.1.mUboMembers.find m with
            | some v => some v
            | none => some { offset := mem.2.1 % 2 ^ 32, range := mem.2.2 % 2 ^ 32, buffer := k })
        else acc.1.mUboMembers.find m := by
  unfold Context.registerMember StrMap.insert
  simp only
  by_cases hm : mem.1 = m
  · rw [if_pos hm]
    have h1 : (acc.1.mUboMembers.assign (n ++ "." ++ mem.1)
        { offset := mem.2.1 % 2 ^ 32, range := mem.2.2 % 2 ^ 32, buffer := k }).find mem.1
        = acc.1.mUboMembers.find m := by
      rw [StrMap.find_assign_str, if_neg (hm ▸ hq), hm]
    rw [h1]
    cases hf : acc.1.mUboMembers.find m with
    | some v =>
      simp only
      rw [StrMap.find_assign_str, if_neg hq, hf]
    | none =>
      simp only
      rw [StrMap.find_assign_str, if_pos hm]
  · rw [if_neg hm]
    split
    · simp only
      rw [StrMap.find_assign_str, if_neg hq]
    · simp only
      rw [StrMap.find_assign_str, if_neg hm, StrMap.find_assign_str, if_neg hq]

theorem registerMember_log (k : Nat) (n : String) (acc : Frame × List Event)
    (mem : String × (Nat × Nat)) :
    ∃ es, (Context.registerMember k n acc mem).2 = acc.2 ++ es := by
  unfold Context.registerMember
  simp only
  split
  · exact ⟨[], (List.append_nil _).symm⟩
  · exact ⟨_, rfl⟩

theorem registerMember_warns (k : Nat) (n : String) (acc : Frame × List Event)
    (mem : String × (Nat × Nat)) (v : UboBindingInfo) (hq : n ++ "." ++ mem.1 ≠ mem.1)
    (hv : acc.1.mUboMembers.find mem.1 = some v) :
    ambiguityWarning mem.1 ∈ (Context.registerMember k n acc mem).2 := by
  unfold Context.registerMember StrMap.insert
  simp only
  rw [StrMap.find_assign_str, if_neg hq, hv]
  simp [ambiguityWarning]

theorem registerMembers_log (k : Nat) (n : String) (members : List (String × (Nat × Nat)))
    (acc : Frame × List Event) :
    ∃ es, (members.foldl (Context.registerMember k n) acc).2 = acc.2 ++ es := by
  induction members generalizing acc with
  | nil => exact ⟨[], (List.append_nil _).symm⟩
  | cons mem members ih =>
    obtain ⟨es1, h1⟩ := registerMember_log k n acc mem
    obtain ⟨es2, h2⟩ := ih (Context.registerMember k n acc mem)
    exact ⟨es1 ++ es2, by rw [List.foldl_cons, h2, h1, List.append_assoc]⟩

/-- A bare name that is taken keeps its entry through the members of a block. -/
theorem registerMembers_taken (k : Nat) (n m : String) (members : List (String × (Nat × Nat)))
    (acc : Frame × List Event) (v : UboBindingInfo)
    (hq : ∀ mem ∈ members, n ++ "." ++ mem.1 ≠ m)
    (hv : acc.1.mUboMembers.find m = some v) :
    (members.foldl (Context.registerMember k n) acc).1.mUboMembers.find m = some v := by
  induction members generalizing acc with
  | nil => exact hv
  | cons mem members ih =>
    rw [List.foldl_cons]
    apply ih _ (fun x hx => hq x (List.mem_cons_of_mem _ hx))
    rw [registerMember_find k n m acc mem (hq mem (List.mem_cons_self _ _)), hv]
    split <;> rfl

/-- A bare name that is free is given to the first member of the block that bears it. -/
theorem registerMembers_free (k : Nat) (n m : String) (members : List (String × (Nat × Nat)))
    (acc : Frame × List Event)
    (hq : ∀ mem ∈ members, n ++ "." ++ mem.1 ≠ m)
    (hv : acc.1.mUboMembers.find m = none) :
    (members.foldl (Context.registerMember k n) acc).1.mUboMembers.find m
      = (StrMap.find members m).map
          (fun r => { offset := r.1 % 2 ^ 32, range := r.2 % 2 ^ 32, buffer := k }) := by
  induction members generalizing acc with
  | nil => simpa [StrMap.find] using hv
  | cons mem members ih =>
    rw [List.foldl_cons]
    have hstep := registerMember_find k n m acc mem (hq mem (List.mem_cons_self _ _))
    have hq2 : ∀ x ∈ members, n ++ "." ++ x.1 ≠ m := fun x hx => hq x (List.mem_cons_of_mem _ hx)
    by_cases hm : mem.1 = m
    · rw [if_pos hm, hv] at hstep
      rw [registerMembers_taken k n m members _ _ hq2 hstep]
      simp [StrMap.find, hm]
    · rw [if_neg hm, hv] at hstep
      rw [ih _ hq2 hstep]
      simp [StrMap.find, hm]

/-- A taken bare name that a block declares again is reported. -/
theorem registerMembers_warns (k : Nat) (n m : String) (members : List (String × (Nat × Nat)))
    (acc : Frame × List Event) (v : UboBindingInfo) (r : Nat × Nat)
    (hq : ∀ mem ∈ members, n ++ "." ++ mem.1 ≠ m)
    (hv : acc.1.mUboMembers.find m = some v)
    (hm : StrMap.find members m = some r) :
    ambiguityWarning m ∈ (members.foldl (Context.registerMember k n) acc).2 := by
  induction members generalizing acc with
  | nil => simp [StrMap.find] at hm
  | cons mem members ih =>
    rw [List.foldl_cons]
    have hq2 : ∀ x ∈ members, n ++ "." ++ x.1 ≠ m := fun x hx => hq x (List.mem_cons_of_mem _ hx)
    by_cases hmem : mem.1 = m
    · subst hmem
      obtain ⟨es, hes⟩ := registerMembers_log k n members (Context.registerMember k n acc mem)
      rw [hes]
      exact List.mem_append_left _
        (registerMember_warns k n acc mem v (hq mem (List.mem_cons_self _ _)) hv)
    · apply ih _ hq2
      · rw [registerMember_find k n m acc mem (hq mem (List.mem_cons_self _ _)), if_neg hmem]
        exact hv
      · simpa [StrMap.find, hmem] using hm

theorem registerDescriptor_log (acc : Frame × List Event) (b : Nat × DescriptorInfo) :
    ∃ es, (Context.registerDescriptor acc b).2 = acc.2 ++ es := by
  unfold Context.registerDescriptor
  simp only
  split
  · exact registerMembers_log _ _ _ _
  · exact ⟨[], (List.append_nil _).symm⟩
  · exact ⟨[], (List.append_nil _).symm⟩

theorem registerDescriptor_taken (m : String) (acc : Frame × List Event) (b : Nat × DescriptorInfo)
    (v : UboBindingInfo)
    (hq : ∀ mem ∈ b.2.memberRanges, b.2.name ++ "." ++ mem.1 ≠ m)
    (hv : acc.1.mUboMembers.find m = some v) :
    (Context.registerDescriptor acc b).1.mUboMembers.find m = some v := by
  unfold Context.registerDescriptor
  simp only
  split
  · exact registerMembers_taken _ _ m _ _ v hq hv
  · exact hv
  · exact hv

theorem registerDescriptor_free (m : String) (acc : Frame × List Event) (b : Nat × DescriptorInfo)
    (hq : ∀ mem ∈ b.2.memberRanges, b.2.name ++ "." ++ mem.1 ≠ m)
    (hv : acc.1.mUboMembers.find m = none) :
    (Context.registerDescriptor acc b).1.mUboMembers.find m
      = if b.2.type = DescriptorType.uniformBufferDynamic then
          (StrMap.find b.2.memberRanges m).map
            (fun r => { offset := r.1 % 2 ^ 32, range := r.2 % 2 ^ 32, buffer := b.1 })
        else none := by
  unfold Context.registerDescriptor
  simp only
  split
  · rename_i ht
    rw [if_pos ht]
    exact registerMembers_free _ _ m _ _ hq hv
  · rename_i ht
    rw [if_neg (by rw [ht]; decide)]
    exact hv
  · rename_i ht
    rw [if_neg (by rw [ht]; decide)]
    exact hv

theorem registerDescriptor_warns (m : String) (acc : Frame × List Event) (b : Nat × DescriptorInfo)
    (v : UboBindingInfo) (r : Nat × Nat)
    (hq : ∀ mem ∈ b.2.memberRanges, b.2.name ++ "." ++ mem.1 ≠ m)
    (hv : acc.1.mUboMembers.find m = some v)
    (ht : b.2.type = DescriptorType.uniformBufferDynamic)
    (hm : StrMap.find b.2.memberRanges m = some r) :
    ambiguityWarning m ∈ (Context.registerDescriptor acc b).2 := by
  unfold Context.registerDescriptor
  simp only [ht]
  exact registerMembers_warns _ _ m _ _ v r hq hv hm

theorem registerDescriptors_log (infos : List (Nat × DescriptorInfo)) (acc : Frame × List Event) :
    ∃ es, (infos.foldl Context.registerDescriptor acc).2 = acc.2 ++ es := by
  induction infos generalizing acc with
  | nil => exact ⟨[], (List.append_nil _).symm⟩
  | cons b infos ih =>
    obtain ⟨es1, h1⟩ := registerDescriptor_log acc b
    obtain ⟨es2, h2⟩ := ih (Context.registerDescriptor acc b)
    exact ⟨es1 ++ es2, by rw [List.foldl_cons, h2, h1, List.append_assoc]⟩

theorem registerDescriptors_taken (m : String) (infos : List (Nat × DescriptorInfo))
    (acc : Frame × List Event) (v : UboBindingInfo)
    (hq : ∀ b ∈ infos, ∀ mem ∈ b.2.memberRanges, b.2.name ++ "." ++ mem.1 ≠ m)
    (hv : acc.1.mUboMembers.find m = some v) :
    (infos.foldl Context.registerDescriptor acc).1.mUboMembers.find m = some v := by
  induction infos generalizing acc with
  | nil => exact hv
  | cons b infos ih =>
    exact ih _ (fun x hx => hq x (List.mem_cons_of_mem _ hx))
      (registerDescriptor_taken m acc b v (hq b (List.mem_cons_self _ _)) hv)

theorem registerDescriptors_free (m : String) (infos : List (Nat × DescriptorInfo))
    (acc : Frame × List Event)
    (hq : ∀ b ∈ infos, ∀ mem ∈ b.2.memberRanges, b.2.name ++ "." ++ mem.1 ≠ m)
    (hnone : ∀ b ∈ infos, b.2.type = DescriptorType.uniformBufferDynamic →
      StrMap.find b.2.memberRanges m = none)
    (hv : acc.1.mUboMembers.find m = none) :
    (infos.foldl Context.registerDescriptor acc).1.mUboMembers.find m = none := by
  induction infos generalizing acc with
  | nil => exact hv
  | cons b infos ih =>
    apply ih _ (fun x hx => hq x (List.mem_cons_of_mem _ hx))
      (fun x hx => hnone x (List.mem_cons_of_mem _ hx))
    rw [registerDescriptor_free m acc b (hq b (List.mem_cons_self _ _)) hv]
    split
    · rename_i ht
      rw [hnone b (List.mem_cons_self _ _) ht]
      rfl
    · rfl

theorem registerDescriptors_warns (m : String) (infos : List (Nat × DescriptorInfo))
    (acc : Frame × List Event) (v : UboBindingInfo) (b : Nat × DescriptorInfo) (r : Nat × Nat)
    (hq : ∀ x ∈ infos, ∀ mem ∈ x.2.memberRanges, x.2.name ++ "." ++ mem.1 ≠ m)
    (hv : acc.1.mUboMembers.find m = some v)
    (hb : b ∈ infos) (ht : b.2.type = DescriptorType.uniformBufferDynamic)
    (hm : StrMap.find b.2.memberRanges m = some r) :
    ambiguityWarning m ∈ (infos.foldl Context.registerDescriptor acc).2 := by
  induction infos generalizing acc with
  | nil => simp at hb
  | cons x infos ih =>
    rw [List.foldl_cons]
    have hqx := hq x (List.mem_cons_self _ _)
    rcases List.mem_cons.mp hb with hbx | hbx
    · subst hbx
      obtain ⟨es, hes⟩ := registerDescriptors_log infos (Context.registerDescriptor acc b)
      rw [hes]
      exact List.mem_append_left _ (registerDescriptor_warns m acc b v r hqx hv ht hm)
    · exact ih _ (fun y hy => hq y (List.mem_cons_of_mem _ hy))
        (registerDescriptor_taken m acc x v hqx hv) hbx

/-! ## C10: a bare member name declared by two blocks -/

set_option maxRecDepth 100000 in
/-- C10, as stated, fails: the blocks `Light` (key `21`, processed first) and
`Material` (key `22`, processed last) both declare `color`; after
`initialiseFrameState` the bare name `color` refers to `Light`, with the offset
and range it has there, and the clash is reported once. -/
theorem C10_last_writer_counterexample :
    clashContext.initialiseFrameState.mCurrentFrameState.uboNames
        = [("Light", 21), ("Material", 22)]
      ∧ clashContext.initialiseFrameState.mCurrentFrameState.mUboMembers.find "Material.color"
        = some { offset := 16, range := 8, buffer := 22 }
      ∧ clashContext.initialiseFrameState.mCurrentFrameState.mUboMembers.find "color"
        = some { offset := 0, range := 4, buffer := 21 }
      ∧ clashContext.initialiseFrameState.trace = [ambiguityWarning "color"] := by
  decide

/-- C10, amended: when several uniform blocks declare a member with the same
bare name `m` (and `m` is not itself the qualified name `Block.member` of some
member), after `initialiseFrameState` the bare-name entry of `mUboMembers`
refers to the block that was processed first, with the offset and range `m`
has in that block (first writer wins, `insert` does not overwrite), and for
every later block that declares `m` the clash is reported as a warning. -/
theorem C10_first_writer_wins (c : Context) (pre post : List (Nat × DescriptorInfo)) (k : Nat)
    (info : DescriptorInfo) (m : String) (r : Nat × Nat)
    (hinfos : c.mShaderManager.descriptorInfos = pre ++ (k, info) :: post)
    (ht : info.type = DescriptorType.uniformBufferDynamic)
    (hm : StrMap.find info.memberRanges m = some r)
    (hpre : ∀ b ∈ pre, b.2.type = DescriptorType.uniformBufferDynamic →
      StrMap.find b.2.memberRanges m = none)
    (hq : ∀ b ∈ c.mShaderManager.descriptorInfos, ∀ mem ∈ b.2.memberRanges,
      b.2.name ++ "." ++ mem.1 ≠ m) :
    c.initialiseFrameState.mCurrentFrameState.mUboMembers.find m
        = some { offset := r.1 % 2 ^ 32, range := r.2 % 2 ^ 32, buffer := k }
      ∧ (∀ b ∈ post, b.2.type = DescriptorType.uniformBufferDynamic →
          (StrMap.find b.2.memberRanges m).isSome = true →
          ambiguityWarning m ∈ c.initialiseFrameState.trace) := by
  rw [hinfos] at hq
  have hq1 : ∀ b ∈ pre, ∀ mem ∈ b.2.memberRanges, b.2.name ++ "." ++ mem.1 ≠ m :=
    fun b hb => hq b (List.mem_append_left _ hb)
  have hq2 : ∀ mem ∈ info.memberRanges, info.name ++ "." ++ mem.1 ≠ m :=
    hq (k, info) (List.mem_append_right _ (List.mem_cons_self _ _))
  have hq3 : ∀ b ∈ post, ∀ mem ∈ b.2.memberRanges, b.2.name ++ "." ++ mem.1 ≠ m :=
    fun b hb => hq b (List.mem_append_right _ (List.mem_cons_of_mem _ hb))
  have h1 : (pre.foldl Context.registerDescriptor ({}, [])).1.mUboMembers.find m = none :=
    registerDescriptors_free m pre _ hq1 hpre rfl
  have h2 : (Context.registerDescriptor (pre.foldl Context.registerDescriptor ({}, [])) (k, info)).1.mUboMembers.find m
      = some { offset := r.1 % 2 ^ 32, range := r.2 % 2 ^ 32, buffer := k } := by
    rw [registerDescriptor_free m _ (k, info) hq2 h1, if_pos ht, hm]
    rfl
  have hbuild : Context.buildFrame (pre ++ (k, info) :: post)
      = post.foldl Context.registerDescriptor
          (Context.registerDescriptor (pre.foldl Context.registerDescriptor ({}, [])) (k, info)) := by
    unfold Context.buildFrame
    rw [List.foldl_append, List.foldl_cons]
  unfold Context.initialiseFrameState
  simp only [hinfos, hbuild]
  refine ⟨registerDescriptors_taken m post _ _ hq3 h2, fun b hb hbt hbm => ?_⟩
  obtain ⟨r2, hr2⟩ := Option.isSome_iff_exists.mp hbm
  exact List.mem_append_right _ (registerDescriptors_warns m post _ _ b r2 hq3 h2 hb hbt hr2)

set_option maxRecDepth 100000 in
/-- C10, amended, on the two blocks `Light` and `Material`: `color` refers to
`Light`, and the clash with `Material` is in the log. -/
theorem C10_first_writer_wins_witness :
    clashContext.mShaderManager.descriptorInfos = [] ++ (21, lightInfo) :: [(22, materialInfo)]
      ∧ StrMap.find lightInfo.memberRanges "color" = some (0, 4)
      ∧ clashContext.initialiseFrameState.mCurrentFrameState.mUboMembers.find "color"
          = some { offset := (0, 4).1 % 2 ^ 32, range := (0, 4).2 % 2 ^ 32, buffer := 21 }
      ∧ ambiguityWarning "color" ∈ clashContext.initialiseFrameState.trace :=
  ⟨by decide, by decide,
    (C10_first_writer_wins clashContext [] [(22, materialInfo)] 21 lightInfo "color" (0, 4)
      (by decide) (by decide) (by decide) (by decide) (by decide)).1,
    (C10_first_writer_wins clashContext [] [(22, materialInfo)] 21 lightInfo "color" (0, 4)
      (by decide) (by decide) (by decide) (by decide) (by decide)).2
      (22, materialInfo) (by decide) (by decide) (by decide)⟩

/-! ## C11: the vertex buffers bound by `draw` -/

theorem storeMesh_offsets_length (mesh : Mesh) (vo io : List Nat) (c : Context) :
    (c.storeMesh mesh vo io).2.1.length = 4 := by
  unfold Context.storeMesh
  simp only
  split <;> simp [length_resize]

set_option maxRecDepth 100000 in
/-- C11: `storeMesh` always hands back four vertex offsets, whatever the
element counts of the mesh are, and `draw` binds one vertex buffer for each of
them: for a mesh with positions only, the draw binds four vertex buffers, three
of them for attributes whose count is zero. -/
theorem C11_draw_binds_four_buffers (d : Driver) (c : Context) (mesh : Mesh) :
    (c.storeMesh mesh [] []).2.1.length = 4
      ∧ Event.cmdBindVertexBuffers
            ((Context.bindDescriptorSets
              (Context.flushUniformBufferState d (c.bindPipeline d))).storeMesh mesh [] []).2.1
          ∈ (c.draw d mesh).trace
      ∧ Event.cmdBindVertexBuffers [512, 768, 768, 768]
          ∈ (run okDriver afterBegin [Op.draw positionsOnly]).trace
      ∧ (run okDriver afterBegin [Op.draw positionsOnly]).trace.any
          (fun e => e.bindsVertexBuffers 1) = false := by
  refine ⟨storeMesh_offsets_length mesh [] [] c, ?_, by decide, by decide⟩
  unfold Context.draw
  simp only
  split <;> simp [Context.emit]

/-! ## C16: the pipeline map only grows -/

/-- C16: along every sequence of calls without `reset` (`begin`, `end`,
`draw`, `bindPipeline`, the state setters and all others) an entry of
`mVkPipelines` is neither removed nor given another handle; `reset` empties
the map. -/
theorem C16_pipeline_map_only_grows (d : Driver) (c : Context) (ops : List Op) (h : Nat)
    (p : Handle) (hreset : Op.reset ∉ ops) (hp : c.mVkPipelines.find h = some p) :
    (run d c ops).mVkPipelines.find h = some p
      ∧ (step d c Op.reset).mVkPipelines = [] :=
  ⟨((run_pipelines d ops c h hreset).1 p hp).1, rfl⟩

set_option maxRecDepth 100000 in
/-- C16, on the sample session: the pipeline compiled in the first draw is
still in the map, with its handle, after the two draws that follow. -/
theorem C16_pipeline_map_only_grows_witness :
    Op.reset ∉ sessionOps.drop 6
      ∧ afterFirstDraw.mVkPipelines.find 110 = some 1005
      ∧ (run okDriver afterFirstDraw (sessionOps.drop 6)).mVkPipelines.find 110 = some 1005
      ∧ (run okDriver afterFirstDraw (sessionOps.drop 6)).mVkPipelines = [(110, 1005), (210, 1029)] :=
  ⟨by decide, by decide,
    (C16_pipeline_map_only_grows okDriver afterFirstDraw (sessionOps.drop 6) 110 1005
      (by decide) (by decide)).1,
    by decide⟩

/-! ## C19: the setters and the dirty flag -/

/-- C19: `setShader` with the shader that is currently held and
`setRenderPass` with the render pass that is currently held leave the pipeline
state, the dirty flag included, as it was; with another shader or another
render pass they store the new value and set the dirty flag. -/
theorem C19_setters_mark_dirty (c : Context) (shader : Shader) (renderPass : Handle) :
    (c.mCurrentGraphicsPipelineState.mShader.map Shader.id = some shader.id →
        (c.setShader shader).mCurrentGraphicsPipelineState = c.mCurrentGraphicsPipelineState)
      ∧ (c.mCurrentGraphicsPipelineState.mShader.map Shader.id ≠ some shader.id →
        (c.setShader shader).mCurrentGraphicsPipelineState.mDirty = true
          ∧ (c.setShader shader).mCurrentGraphicsPipelineState.mShader = some shader)
      ∧ (c.mCurrentGraphicsPipelineState.mRenderPass = renderPass →
        (c.setRenderPass renderPass).mCurrentGraphicsPipelineState
          = c.mCurrentGraphicsPipelineState)
      ∧ (c.mCurrentGraphicsPipelineState.mRenderPass ≠ renderPass →
        (c.setRenderPass renderPass).mCurrentGraphicsPipelineState.mDirty = true
          ∧ (c.setRenderPass renderPass).mCurrentGraphicsPipelineState.mRenderPass = renderPass) := by
  refine ⟨fun h => ?_, fun h => ?_, fun h => ?_, fun h => ?_⟩
  · simp [Context.setShader, GraphicsPipelineState.setShader, h]
  · simp [Context.setShader, GraphicsPipelineState.setShader, h]
  · simp [Context.setRenderPass, GraphicsPipelineState.setRenderPass, h]
  · simp [Context.setRenderPass, GraphicsPipelineState.setRenderPass, h]

set_option maxRecDepth 100000 in
/-- C19, on the sample session after its first draw (shader A bound, state
clean): setting shader A again leaves the state clean, setting shader B makes
it dirty. -/
theorem C19_setters_mark_dirty_witness :
    afterFirstDraw.mCurrentGraphicsPipelineState.mDirty = false
      ∧ (afterFirstDraw.setShader shaderA).mCurrentGraphicsPipelineState
          = afterFirstDraw.mCurrentGraphicsPipelineState
      ∧ (afterFirstDraw.setShader shaderB).mCurrentGraphicsPipelineState.mDirty = true
      ∧ (afterFirstDraw.setRenderPass 1).mCurrentGraphicsPipelineState
          = afterFirstDraw.mCurrentGraphicsPipelineState
      ∧ (afterFirstDraw.setRenderPass 2).mCurrentGraphicsPipelineState.mDirty = true :=
  ⟨by decide,
    (C19_setters_mark_dirty afterFirstDraw shaderA 1).1 (by decide),
    ((C19_setters_mark_dirty afterFirstDraw shaderB 1).2.1 (by decide)).1,
    (C19_setters_mark_dirty afterFirstDraw shaderA 1).2.2.1 (by decide),
    ((C19_setters_mark_dirty afterFirstDraw shaderA 2).2.2.2 (by decide)).1⟩

/-! ## What only `begin` and `reset` change -/

theorem setupCount_routine (t es : List Event) (hes : ∀ e ∈ es, e.isSetupCall = false) :
    setupCount (t ++ es) = setupCount t := by
  have h0 : es.countP Event.isSetupCall = 0 := by
    rw [List.countP_eq_zero]
    intro e he hpe
    rw [hes e he] at hpe
    exact Bool.false_ne_true hpe
  unfold setupCount
  rw [List.countP_append, h0, Nat.add_zero]

theorem Map.contains_assign {V : Type} (m : Map V) (k : Nat) (u v : V)
    (hk : m.find k = some u) : (m.assign k v).contains = m.contains := by
  funext k'
  simp only [Map.contains, Map.find_assign]
  by_cases h : k = k'
  · subst h
    simp [hk]
  · simp [h]

theorem Map.find_map {V : Type} (m : Map V) (f : V → V) (k : Nat) :
    Map.find (m.map fun p => (p.1, f p.2)) k = (m.find k).map f := by
  induction m with
  | nil => rfl
  | cons p rest ih =>
    obtain ⟨k0, v0⟩ := p
    simp only [List.map_cons, Map.find]
    split
    · rfl
    · exact ih

theorem setupObs_emit (c : Context) (e : Event) (he : e.isSetupCall = false) :
    setupObs (c.emit e) = setupObs c := by
  simp only [setupObs, Context.emit]
  rw [setupCount_routine]
  intro e' he'
  rw [List.mem_singleton.mp he', he]

theorem setupObs_addShader (s : Shader) (c : Context) :
    setupObs (c.addShader s) = setupObs c := by
  unfold Context.addShader
  split
  · exact setupObs_emit c _ rfl
  · rfl

theorem setupObs_withUbo (key : Nat) (f : UboStack → UboStack) (c : Context) :
    setupObs (c.withUbo key f) = setupObs c := by
  unfold Context.withUbo
  split
  · rfl
  · rename_i u hu
    simp only [setupObs, Map.contains_assign _ key u (f u) hu]

theorem setupObs_pushBuffer (n : String) (c : Context) :
    setupObs (c.pushBuffer n) = setupObs c := by
  unfold Context.pushBuffer
  split
  · exact setupObs_withUbo _ _ c
  · rfl

theorem setupObs_popBuffer (n : String) (c : Context) :
    setupObs (c.popBuffer n) = setupObs c := by
  unfold Context.popBuffer
  split
  · exact setupObs_withUbo _ _ c
  · rfl

theorem setupObs_setUniform (n : String) (bytes : List Nat) (c : Context) :
    setupObs (c.setUniform n bytes) = setupObs c := by
  unfold Context.setUniform
  split
  · rfl
  · exact setupObs_withUbo _ _ c

theorem setupObs_allocate (c : Context) (n q o : Nat) :
    setupObs (c.allocate n q o).1 = setupObs c := by
  simp only [setupObs, Context.allocate]
  rw [setupCount_routine]
  intro e he
  rw [List.mem_singleton.mp he]
  rfl

theorem setupObs_allocateAndCopy (c : Context) (n q o : Nat) (src : List Nat) :
    setupObs (c.allocateAndCopy n q o src).1 = setupObs c := by
  unfold Context.allocateAndCopy
  simp only
  split
  · rw [setupObs_emit _ _ (by rfl), setupObs_allocate]
  · rw [setupObs_allocate]

theorem setupObs_storeMesh (mesh : Mesh) (vo io : List Nat) (c : Context) :
    setupObs (c.storeMesh mesh vo io).1 = setupObs c := by
  unfold Context.storeMesh
  simp only
  split
  · rw [setupObs_emit _ _ (by rfl), setupObs_allocate, setupObs_allocateAndCopy,
      setupObs_allocateAndCopy, setupObs_allocateAndCopy, setupObs_allocateAndCopy]
  · rw [setupObs_allocate, setupObs_allocateAndCopy,
      setupObs_allocateAndCopy, setupObs_allocateAndCopy, setupObs_allocateAndCopy]

theorem setupObs_resolveSet (d : Driver) (acc : Context × List Nat) (i : Nat) :
    setupObs (Context.resolveSet d acc i).1 = setupObs acc.1 := by
  unfold Context.resolveSet
  simp only
  split
  · rfl
  · simp only [setupObs, List.append_assoc]
    rw [setupCount_routine]
    intro e he
    simp only [List.mem_append, List.mem_singleton] at he
    rcases he with he | he
    · rw [he]; rfl
    · split at he
      · simp at he
      · rw [List.mem_singleton.mp he]; rfl

theorem setupObs_writeSet (acc : Context × List DescriptorWrite) (j : Nat) :
    setupObs (Context.writeSet acc j).1 = setupObs acc.1 := by
  unfold Context.writeSet
  simp only
  rw [foldl_keeps (fun a : Context × List DescriptorWrite => setupObs a.1) _
    (fun a b => (rfl : setupObs (Context.writeBinding j a b).1 = setupObs a.1))]
  rfl

theorem setupObs_updateDescriptorSets (l : List Nat) (c : Context) :
    setupObs (c.updateDescriptorSets l) = setupObs c := by
  unfold Context.updateDescriptorSets
  simp only
  rw [setupObs_emit _ _ (by rfl),
    foldl_keeps (fun a : Context × List DescriptorWrite => setupObs a.1) _
      (fun a b => setupObs_writeSet a b)]

theorem setupObs_updateDescriptorSetState (d : Driver) (c : Context) :
    setupObs (c.updateDescriptorSetState d) = setupObs c := by
  have hres : setupObs (c.mPipelineLayoutState.dirtySetIndices.foldl (Context.resolveSet d) (c, [])).1
      = setupObs c :=
    foldl_keeps (fun a : Context × List Nat => setupObs a.1) _
      (fun a b => setupObs_resolveSet d a b) _ _
  have hdrop : ∀ x : Context, ∀ m, setupObs { x with mPipelineLayoutState := m } = setupObs x :=
    fun _ _ => rfl
  unfold Context.updateDescriptorSetState
  split
  · rfl
  · simp only
    rw [hdrop]
    split
    · rw [foldl_keeps setupObs _
        (fun a b => (rfl : setupObs (Context.cacheBindingState a b) = setupObs a)),
        setupObs_updateDescriptorSets]
      exact hres
    · exact hres

theorem setupObs_flushBinding (acc : Context × List Nat) (b : Nat × Nat) :
    setupObs (Context.flushBinding acc b).1 = setupObs acc.1 := by
  unfold Context.flushBinding
  simp only
  split
  · rfl
  · rename_i u hu
    split
    · have h1 : ∀ x : Context, ∀ v : UboStack, x.mCurrentFrameState.uboState.find b.2 = some u →
          setupObs { x with
            mCurrentFrameState :=
              { x.mCurrentFrameState with
                uboState := x.mCurrentFrameState.uboState.assign b.2 v } } = setupObs x := by
        intro x v hx
        simp only [setupObs, Map.contains_assign _ b.2 u v hx]
      rw [h1 _ _ (by split <;> exact hu), setupObs_emit _ _ (by rfl)]
      split
      · rw [setupObs_allocate]
      · rw [setupObs_emit _ _ (by rfl), setupObs_allocate]
    · rfl

theorem setupObs_flushUniformBufferState (d : Driver) (c : Context) :
    setupObs (c.flushUniformBufferState d) = setupObs c := by
  have hdrop : ∀ x : Context, ∀ l,
      setupObs { x with mCurrentFrameState := { x.mCurrentFrameState with bindingOffsets := l } }
        = setupObs x := fun _ _ => rfl
  unfold Context.flushUniformBufferState
  simp only
  rw [hdrop, foldl_flushTable,
    foldl_keeps (fun a : Context × List Nat => setupObs a.1) _
      (fun a b => setupObs_flushBinding a b)]
  exact setupObs_updateDescriptorSetState d c

theorem setupCount_createPipeline (d : Driver) (t : Nat) (s : GraphicsPipelineState) :
    setupCount (s.createPipeline d t).2 = 0 := by
  unfold GraphicsPipelineState.createPipeline setupCount
  rw [List.countP_eq_zero]
  intro e he
  simp only [List.mem_append, List.mem_singleton] at he
  rcases he with (he | he) | he
  · subst he
    simp [Event.isSetupCall]
  · split at he
    · simp at he
    · simp only [List.mem_singleton] at he
      subst he
      simp [Event.isSetupCall]
  · subst he
    simp [Event.isSetupCall]

theorem bindPipeline_frame (d : Driver) (c : Context) :
    (c.bindPipeline d).mCurrentFrameState = c.mCurrentFrameState
      ∧ (c.bindPipeline d).mDescriptorPool = c.mDescriptorPool
      ∧ (c.bindPipeline d).mAlloc = c.mAlloc
      ∧ (c.bindPipeline d).mFrameIndex = c.mFrameIndex := by
  unfold Context.bindPipeline
  split
  · exact ⟨rfl, rfl, rfl, rfl⟩
  · simp only [Context.emit]
    split <;> exact ⟨rfl, rfl, rfl, rfl⟩

theorem setupObs_bindPipeline (d : Driver) (c : Context) :
    setupObs (c.bindPipeline d) = setupObs c := by
  obtain ⟨h1, h2, _, _⟩ := bindPipeline_frame d c
  unfold setupObs
  rw [h1, h2]
  congr 5
  cases hd : c.mCurrentGraphicsPipelineState.mDirty with
  | false => rw [bindPipeline_clean d c hd]
  | true =>
    cases hf : c.mVkPipelines.find (d.calculateHash c.mCurrentGraphicsPipelineState) with
    | some q =>
      rw [(bindPipeline_hit d c q hd hf).2.2]
      simp [setupCount, List.countP_append, List.countP_cons, Event.isSetupCall]
    | none =>
      rw [(bindPipeline_miss d c hd hf).2.2]
      have h4 := setupCount_createPipeline d (c.trace.length + 1) c.mCurrentGraphicsPipelineState
      simp only [setupCount] at h4 ⊢
      simp only [List.countP_append, h4, List.countP_cons, List.countP_nil,
        Event.isSetupCall, Bool.false_eq_true, if_false, Nat.add_zero]

theorem setupObs_draw (d : Driver) (mesh : Mesh) (c : Context) :
    setupObs (c.draw d mesh) = setupObs c := by
  have h3 : setupObs (Context.bindDescriptorSets (Context.flushUniformBufferState d (c.bindPipeline d)))
      = setupObs c := by
    unfold Context.bindDescriptorSets
    rw [setupObs_emit _ _ (by rfl), setupObs_flushUniformBufferState, setupObs_bindPipeline]
  unfold Context.draw
  simp only
  split
  · rw [setupObs_emit _ _ (by rfl), setupObs_emit _ _ (by rfl), setupObs_storeMesh, h3]
  · rw [setupObs_emit _ _ (by rfl), setupObs_emit _ _ (by rfl), setupObs_emit _ _ (by rfl),
      setupObs_storeMesh, h3]

/-- A `begin` on an initialised context performs no setup: the flag, the
blocks, the member map, the names and the pools stay. -/
theorem setupObs_begin (d : Driver) (f : Nat) (c : Context)
    (hc : c.mCurrentFrameState.initialised = true) :
    setupObs (c.begin d f) = setupObs c := by
  unfold Context.begin
  simp only [hc, Bool.true_eq_false, if_false, setupObs, Context.emit]
  refine Prod.ext rfl (Prod.ext ?_ (Prod.ext rfl (Prod.ext rfl (Prod.ext rfl ?_))))
  · funext k
    simp only [Map.contains, Map.find_map]
    cases c.mCurrentFrameState.uboState.find k <;> rfl
  · simp only
    rw [setupCount_routine]
    intro e he
    rw [List.mem_singleton.mp he]
    rfl

/-- Every call other than `begin` and `reset` leaves the outcome of the
one-time setup alone. -/
theorem setupObs_step (d : Driver) (c : Context) (op : Op)
    (hb : op.isBegin = false) (hr : op.isReset = false) :
    setupObs (step d c op) = setupObs c := by
  cases op with
  | begin f => exact absurd hb (by simp [Op.isBegin])
  | reset => exact absurd hr (by simp [Op.isReset])
  | setup => rfl
  | addShader s => exact setupObs_addShader s c
  | endFrame => rfl
  | setShader s => rfl
  | setRenderPass r => rfl
  | setPolyMode m => rfl
  | pushBuffer n => exact setupObs_pushBuffer n c
  | popBuffer n => exact setupObs_popBuffer n c
  | setUniform n b => exact setupObs_setUniform n b c
  | debugSetTexture n t => rfl
  | bindPipeline => exact setupObs_bindPipeline d c
  | updateDescriptorSetState => exact setupObs_updateDescriptorSetState d c
  | flushUniformBufferState => exact setupObs_flushUniformBufferState d c
  | bindDescriptorSets => exact setupObs_emit c _ rfl
  | storeMesh m => exact setupObs_storeMesh m [] [] c
  | draw m => exact setupObs_draw d m c

theorem begin_initialised (d : Driver) (f : Nat) (c : Context) :
    (c.begin d f).mCurrentFrameState.initialised = true := by
  unfold Context.begin
  simp only [Context.emit]
  split
  · rfl
  · rename_i h
    simpa using h

theorem setupObs_run (d : Driver) (ops : List Op) (c : Context)
    (hinit : c.mCurrentFrameState.initialised = true)
    (hreset : ∀ op ∈ ops, op.isReset = false) :
    setupObs (run d c ops) = setupObs c := by
  induction ops generalizing c with
  | nil => rfl
  | cons op ops ih =>
    have hstep : setupObs (step d c op) = setupObs c := by
      cases hb : op.isBegin with
      | false => exact setupObs_step d c op hb (hreset op (List.mem_cons_self _ _))
      | true =>
        cases op with
        | begin f => exact setupObs_begin d f c hinit
        | _ => simp [Op.isBegin] at hb
    have hinit2 : (step d c op).mCurrentFrameState.initialised = true := by
      have := congrArg Prod.fst hstep
      simp only [setupObs] at this
      rw [this]
      exact hinit
    have hrun : run d c (op :: ops) = run d (step d c op) ops := rfl
    rw [hrun, ih _ hinit2 (fun o ho => hreset o (List.mem_cons_of_mem _ ho)), hstep]

/-! ## C12: shaders are added before the first `begin` only -/

/-- C12: on a context that is not initialised `addShader` appends the shader
at the end of the shader list and changes nothing else; on an initialised
context it leaves the shader list and every other member as they are and only
logs an error.  The flag is set by `begin`, cleared by `reset` and left alone
by every other call. -/
theorem C12_addShader_before_initialisation (d : Driver) (c : Context) (shader : Shader)
    (op : Op) (f : Nat) :
    (c.mCurrentFrameState.initialised = false →
        c.addShader shader = { c with mShaders := c.mShaders ++ [shader] })
      ∧ (c.mCurrentFrameState.initialised = true →
        { c.addShader shader with trace := c.trace } = c
          ∧ ∃ msg, (c.addShader shader).trace = c.trace ++ [Event.logError msg])
      ∧ (c.begin d f).mCurrentFrameState.initialised = true
      ∧ c.reset.mCurrentFrameState.initialised = false
      ∧ (op.isBegin = false → op.isReset = false →
        (step d c op).mCurrentFrameState.initialised = c.mCurrentFrameState.initialised) := by
  refine ⟨fun h => ?_, fun h => ?_, begin_initialised d f c, rfl, fun hb hr => ?_⟩
  · simp [Context.addShader, h]
  · refine ⟨?_, ?_⟩
    · simp only [Context.addShader, h, if_true, Context.emit]
    · simp only [Context.addShader, h, if_true, Context.emit]
      exact ⟨_, rfl⟩
  · have := congrArg Prod.fst (setupObs_step d c op hb hr)
    simpa only [setupObs] using this

set_option maxRecDepth 100000 in
/-- C12, on the sample session: the constructed context is not initialised
and takes shader A; after `begin` it is initialised and a further `addShader`
leaves the two shaders that were added before. -/
theorem C12_addShader_before_initialisation_witness :
    freshContext.mCurrentFrameState.initialised = false
      ∧ (freshContext.addShader shaderA).mShaders = [shaderA]
      ∧ afterBegin.mCurrentFrameState.initialised = true
      ∧ (afterBegin.addShader shaderTwin).mShaders = [shaderA, shaderB]
      ∧ { afterBegin.addShader shaderTwin with trace := afterBegin.trace } = afterBegin :=
  ⟨by decide,
    congrArg Context.mShaders
      ((C12_addShader_before_initialisation okDriver freshContext shaderA Op.endFrame 0).1
        (by decide)),
    by decide, by decide,
    ((C12_addShader_before_initialisation okDriver afterBegin shaderTwin Op.endFrame 0).2.1
      (by decide)).1⟩

/-! ## C15: the one-time setup -/

/-- C15: every `begin` leaves the context initialised.  A `begin` on a context
that is not initialised performs the one-time setup: it asks for the
descriptor-set layouts, creates one pool per virtual frame when there is none,
and builds the frame state from the descriptors.  From then on, along every
sequence of calls without `reset`, later calls of `begin` among them, nothing
of the setup happens again: no setup call is made, and the flag, the set of
uniform blocks, the member map, the block names and the descriptor pools stay
as the first `begin` left them. -/
theorem C15_one_time_setup (d : Driver) (c : Context) (f : Nat) (ops : List Op)
    (hreset : ∀ op ∈ ops, op.isReset = false) :
    (c.begin d f).mCurrentFrameState.initialised = true
      ∧ (c.mCurrentFrameState.initialised = false →
          Event.createVkDescriptorSetLayouts ∈ (c.begin d f).trace
            ∧ (c.mDescriptorPool = [] →
                (c.begin d f).mDescriptorPool.length = c.mSettings.numVirtualFrames)
            ∧ (c.begin d f).mCurrentFrameState.uboState.contains
                = (Context.buildFrame c.mShaderManager.descriptorInfos).1.uboState.contains
            ∧ (c.begin d f).mCurrentFrameState.mUboMembers
                = (Context.buildFrame c.mShaderManager.descriptorInfos).1.mUboMembers)
      ∧ setupObs (run d (c.begin d f) ops) = setupObs (c.begin d f)
      ∧ (run d (c.begin d f) ops).mDescriptorPool.length = (c.begin d f).mDescriptorPool.length := by
  have h3 := setupObs_run d ops (c.begin d f) (begin_initialised d f c) hreset
  refine ⟨begin_initialised d f c, fun h => ?_, h3, ?_⟩
  · have hm : ∀ x : Context, (Context.setupDescriptorPool d x).mShaderManager = x.mShaderManager := by
      intro x
      unfold Context.setupDescriptorPool
      split <;> rfl
    unfold Context.begin
    simp only [h, if_true, Context.emit, Context.initialiseFrameState, hm]
    refine ⟨?_, fun hp => ?_, ?_⟩
    · unfold Context.setupDescriptorPool
      split <;> simp
    · simp [Context.setupDescriptorPool, hp]
    · refine ⟨?_, trivial⟩
      funext k
      simp only [Map.contains, Map.find_map]
      cases (Context.buildFrame c.mShaderManager.descriptorInfos).1.uboState.find k <;> rfl
  · have := congrArg (fun o => o.2.2.2.2.1) h3
    simp only [setupObs] at this
    rw [this]

set_option maxRecDepth 100000 in
/-- C15, on the sample session followed by a second and a third `begin`: the
setup calls are the three of the first `begin`, and the pools are the two it
created. -/
theorem C15_one_time_setup_witness :
    (∀ op ∈ frameOps ++ [Op.begin 1, Op.begin 0], op.isReset = false)
      ∧ (run okDriver freshContext (sessionOps.take 3)).mCurrentFrameState.initialised = false
      ∧ setupObs (run okDriver
            ((run okDriver freshContext (sessionOps.take 3)).begin okDriver 0)
            (frameOps ++ [Op.begin 1, Op.begin 0]))
          = setupObs ((run okDriver freshContext (sessionOps.take 3)).begin okDriver 0)
      ∧ setupCount (run okDriver afterBegin (frameOps ++ [Op.begin 1, Op.begin 0])).trace = 3
      ∧ (run okDriver afterBegin (frameOps ++ [Op.begin 1, Op.begin 0])).mDescriptorPool
          = [3001, 3002] :=
  ⟨by decide, by decide,
    (C15_one_time_setup okDriver (run okDriver freshContext (sessionOps.take 3)) 0
      (frameOps ++ [Op.begin 1, Op.begin 0]) (by decide)).2.2.1,
    by decide, by decide⟩

/-! ## C13: a block that is not dirty is not uploaded again -/

theorem flushBinding_offsets_extend (acc : Context × List Nat) (b : Nat × Nat) :
    ∃ es, (Context.flushBinding acc b).2 = acc.2 ++ es := by
  cases h : acc.1.mCurrentFrameState.uboState.find b.2 with
  | none => exact ⟨[], by rw [flushBinding_absent acc b h, List.append_nil]⟩
  | some v =>
    by_cases hd : v.state.stackId = -1
    · exact ⟨_, (flushBinding_dirty acc b v h hd).2.1⟩
    · exact ⟨_, by rw [flushBinding_clean acc b v h hd]⟩

theorem flush_offsets_extend (l : List (Nat × Nat)) (acc : Context × List Nat) :
    ∃ es, (l.foldl Context.flushBinding acc).2 = acc.2 ++ es := by
  induction l generalizing acc with
  | nil => exact ⟨[], by simp⟩
  | cons b l ih =>
    obtain ⟨es1, h1⟩ := flushBinding_offsets_extend acc b
    obtain ⟨es2, h2⟩ := ih (Context.flushBinding acc b)
    exact ⟨es1 ++ es2, by rw [List.foldl_cons, h2, h1, List.append_assoc]⟩

/-- C13: let the block `u`, stored under the uniform hash `h`, not be dirty
(`stackId ≠ -1`) and let the binding `b` of some binding table reference it.
Then `flushUniformBufferState` leaves the block as it is (`stackId`,
`lastSavedStackId`, `memoryOffset` and bytes), and when the flush reaches `b`
it leaves the whole context untouched (no call of the allocator, no copy, no
other event) and appends the `memoryOffset` of the block, as a 32-bit value,
to the dynamic offsets, where it stays. -/
theorem C13_clean_block_reused (d : Driver) (c : Context) (h : Nat) (u : UboStack)
    (pre post : List (Nat × Nat)) (b : Nat × Nat)
    (hfind : c.mCurrentFrameState.uboState.find h = some u)
    (hclean : u.state.stackId ≠ -1)
    (hsplit : (c.updateDescriptorSetState d).boundBindings = pre ++ b :: post)
    (hb : b.2 = h) :
    (c.flushUniformBufferState d).mCurrentFrameState.uboState.find h = some u
      ∧ Context.flushBinding (pre.foldl Context.flushBinding (c.updateDescriptorSetState d, [])) b
        = ((pre.foldl Context.flushBinding (c.updateDescriptorSetState d, [])).1,
            (pre.foldl Context.flushBinding (c.updateDescriptorSetState d, [])).2
              ++ [u.state.memoryOffset % 2 ^ 32])
      ∧ (c.flushUniformBufferState d).mCurrentFrameState.bindingOffsets[
            (pre.foldl Context.flushBinding (c.updateDescriptorSetState d, [])).2.length]?
          = some (u.state.memoryOffset % 2 ^ 32) := by
  obtain ⟨h1, h2, _⟩ := flushUniformBufferState_eq d c
  have hobs := flushObs_updateDescriptorSetState d c
  simp only [flushObs, Prod.mk.injEq] at hobs
  have hstart : (c.updateDescriptorSetState d, ([] : List Nat)).1.mCurrentFrameState.uboState.find h
      = some u := by
    rw [hobs.1]
    exact hfind
  have hmid : (pre.foldl Context.flushBinding
      (c.updateDescriptorSetState d, [])).1.mCurrentFrameState.uboState.find b.2 = some u := by
    rw [hb]
    exact flush_settled pre _ h u hstart hclean
  have hstep := flushBinding_clean _ b u hmid hclean
  refine ⟨?_, hstep, ?_⟩
  · rw [h2]
    exact flush_settled _ _ h u hstart hclean
  · rw [h1, hsplit, List.foldl_append, List.foldl_cons, hstep]
    obtain ⟨es, hes⟩ := flush_offsets_extend post
      ((pre.foldl Context.flushBinding (c.updateDescriptorSetState d, [])).1,
        (pre.foldl Context.flushBinding (c.updateDescriptorSetState d, [])).2
          ++ [u.state.memoryOffset % 2 ^ 32])
    rw [hes]
    simp only [List.append_assoc, List.singleton_append]
    rw [List.getElem?_append_right (Nat.le_refl _), Nat.sub_self]
    exact List.getElem?_cons_zero

set_option maxRecDepth 100000 in
/-- C13, on the sample session after its first draw: both blocks are
uploaded; a second flush leaves the block `Style` at offset `256`, makes no
call and yields the offsets `[0, 256]` again. -/
theorem C13_clean_block_reused_witness :
    afterFirstDraw.mCurrentFrameState.uboState.find 12 = some styleUploaded
      ∧ (afterFirstDraw.updateDescriptorSetState okDriver).boundBindings = [(0, 11)] ++ (1, 12) :: []
      ∧ (afterFirstDraw.flushUniformBufferState okDriver).mCurrentFrameState.uboState.find 12
          = some styleUploaded
      ∧ (afterFirstDraw.flushUniformBufferState okDriver).trace = afterFirstDraw.trace
      ∧ (afterFirstDraw.flushUniformBufferState okDriver).mCurrentFrameState.bindingOffsets
          = [0, 256] :=
  ⟨by decide, by decide,
    (C13_clean_block_reused okDriver afterFirstDraw 12 styleUploaded [(0, 11)] [] (1, 12)
      (by decide) (by decide) (by decide) (by decide)).1,
    by decide, by decide⟩

/-! ## C14: every member is registered under two names -/

theorem StrMap.assign_present {V : Type} (m : StrMap V) (k q : String) (v : V)
    (h : (m.find q).isSome = true) : ((m.assign k v).find q).isSome = true := by
  rw [StrMap.find_assign_str]
  split
  · rfl
  · exact h

theorem registerMember_present (k : Nat) (n q : String) (acc : Frame × List Event)
    (mem : String × (Nat × Nat)) (h : (acc.1.mUboMembers.find q).isSome = true) :
    ((Context.registerMember k n acc mem).1.mUboMembers.find q).isSome = true := by
  unfold Context.registerMember StrMap.insert
  simp only
  split
  · exact StrMap.assign_present _ _ _ _ h
  · exact StrMap.assign_present _ _ _ _ (StrMap.assign_present _ _ _ _ h)

theorem registerMember_qualified (k : Nat) (n : String) (acc : Frame × List Event)
    (mem : String × (Nat × Nat)) :
    (Context.registerMember k n acc mem).1.mUboMembers.find (n ++ "." ++ mem.1)
      = some { offset := mem.2.1 % 2 ^ 32, range := mem.2.2 % 2 ^ 32, buffer := k } := by
  unfold Context.registerMember StrMap.insert
  simp only
  split
  · simp only
    rw [StrMap.find_assign_str, if_pos rfl]
  · simp only
    rw [StrMap.find_assign_str, StrMap.find_assign_str, if_pos rfl]
    split <;> rfl

theorem registerMember_bare (k : Nat) (n : String) (acc : Frame × List Event)
    (mem : String × (Nat × Nat)) :
    ((Context.registerMember k n acc mem).1.mUboMembers.find mem.1).isSome = true := by
  unfold Context.registerMember StrMap.insert
  simp only
  split
  · rename_i v hv
    simp only
    rw [hv]
    rfl
  · simp only
    rw [StrMap.find_assign_str, if_pos rfl]
    rfl

theorem registerMembers_present (k : Nat) (n q : String) (members : List (String × (Nat × Nat)))
    (acc : Frame × List Event) (h : (acc.1.mUboMembers.find q).isSome = true) :
    ((members.foldl (Context.registerMember k n) acc).1.mUboMembers.find q).isSome = true := by
  induction members generalizing acc with
  | nil => exact h
  | cons mem members ih => exact ih _ (registerMember_present k n q acc mem h)

theorem registerDescriptor_present (q : String) (acc : Frame × List Event)
    (b : Nat × DescriptorInfo) (h : (acc.1.mUboMembers.find q).isSome = true) :
    ((Context.registerDescriptor acc b).1.mUboMembers.find q).isSome = true := by
  unfold Context.registerDescriptor
  simp only
  split
  · exact registerMembers_present _ _ q _ _ h
  · exact h
  · exact h

theorem registerDescriptors_present (q : String) (infos : List (Nat × DescriptorInfo))
    (acc : Frame × List Event) (h : (acc.1.mUboMembers.find q).isSome = true) :
    ((infos.foldl Context.registerDescriptor acc).1.mUboMembers.find q).isSome = true := by
  induction infos generalizing acc with
  | nil => exact h
  | cons b infos ih => exact ih _ (registerDescriptor_present q acc b h)

/-- An entry stays through a descriptor none of whose members, if it is a
uniform block, has the entry's name as its qualified name. -/
theorem registerDescriptor_kept (m : String) (acc : Frame × List Event) (b : Nat × DescriptorInfo)
    (v : UboBindingInfo)
    (hq : b.2.type = DescriptorType.uniformBufferDynamic →
      ∀ mem ∈ b.2.memberRanges, b.2.name ++ "." ++ mem.1 ≠ m)
    (hv : acc.1.mUboMembers.find m = some v) :
    (Context.registerDescriptor acc b).1.mUboMembers.find m = some v := by
  unfold Context.registerDescriptor
  simp only
  split
  · rename_i ht
    exact registerMembers_taken _ _ m _ _ v (hq ht) hv
  · exact hv
  · exact hv

theorem registerDescriptors_kept (m : String) (infos : List (Nat × DescriptorInfo))
    (acc : Frame × List Event) (v : UboBindingInfo)
    (hq : ∀ b ∈ infos, b.2.type = DescriptorType.uniformBufferDynamic →
      ∀ mem ∈ b.2.memberRanges, b.2.name ++ "." ++ mem.1 ≠ m)
    (hv : acc.1.mUboMembers.find m = some v) :
    (infos.foldl Context.registerDescriptor acc).1.mUboMembers.find m = some v := by
  induction infos generalizing acc with
  | nil => exact hv
  | cons b infos ih =>
    exact ih _ (fun x hx => hq x (List.mem_cons_of_mem _ hx))
      (registerDescriptor_kept m acc b v (hq b (List.mem_cons_self _ _)) hv)

theorem registerMembers_uboState (k : Nat) (n : String) (members : List (String × (Nat × Nat)))
    (acc : Frame × List Event) :
    (members.foldl (Context.registerMember k n) acc).1.uboState = acc.1.uboState :=
  foldl_keeps (fun a : Frame × List Event => a.1.uboState) (Context.registerMember k n)
    (fun _ _ => rfl) members acc

theorem registerDescriptor_uboState (acc : Frame × List Event) (b : Nat × DescriptorInfo) :
    (Context.registerDescriptor acc b).1.uboState
      = if b.2.type = DescriptorType.uniformBufferDynamic then
          acc.1.uboState.assign b.1
            { name := b.2.name, struct_size := b.2.storageSize
              state := { data := List.replicate b.2.storageSize 0 } }
        else acc.1.uboState := by
  unfold Context.registerDescriptor
  simp only
  split
  · rename_i ht
    rw [if_pos ht, registerMembers_uboState]
  · rename_i ht
    rw [if_neg (by rw [ht]; decide)]
  · rename_i ht
    rw [if_neg (by rw [ht]; decide)]

theorem registerDescriptors_block (k : Nat) (infos : List (Nat × DescriptorInfo))
    (acc : Frame × List Event) (u : UboStack)
    (hk : ∀ b ∈ infos, b.2.type = DescriptorType.uniformBufferDynamic → b.1 ≠ k)
    (hu : acc.1.uboState.find k = some u) :
    (infos.foldl Context.registerDescriptor acc).1.uboState.find k = some u := by
  induction infos generalizing acc with
  | nil => exact hu
  | cons b infos ih =>
    apply ih _ (fun x hx => hk x (List.mem_cons_of_mem _ hx))
    rw [registerDescriptor_uboState]
    split
    · rename_i ht
      rw [Map.find_assign_ne _ _ _ _ (hk b (List.mem_cons_self _ _) ht)]
      exact hu
    · exact hu

/-- C14: let `(m, r)` be a member of the dynamic uniform buffer descriptor
`info`, stored under the key `k`. After `initialiseFrameState` the member map
has an entry under `info.name ++ "." ++ m` and an entry under `m`. When no
member registered later (a later member of the same block, or a member of a
later block) has the same qualified name, the qualified entry carries the
offset and the range of `r` (as 32-bit values) and the key `k`; and when no
later block is stored under `k`, the block under `k` is the fresh, zeroed
block named `info.name`. -/
theorem C14_members_registered (c : Context) (k : Nat) (info : DescriptorInfo)
    (m : String) (r : Nat × Nat)
    (pre post : List (Nat × DescriptorInfo)) (mpre mpost : List (String × (Nat × Nat)))
    (hinfos : c.mShaderManager.descriptorInfos = pre ++ (k, info) :: post)
    (htype : info.type = DescriptorType.uniformBufferDynamic)
    (hmem : info.memberRanges = mpre ++ (m, r) :: mpost) :
    (c.initialiseFrameState.mCurrentFrameState.mUboMembers.find (info.name ++ "." ++ m)).isSome = true
      ∧ (c.initialiseFrameState.mCurrentFrameState.mUboMembers.find m).isSome = true
      ∧ ((∀ x ∈ mpost, info.name ++ "." ++ x.1 ≠ info.name ++ "." ++ m) →
          (∀ b ∈ post, b.2.type = DescriptorType.uniformBufferDynamic →
            ∀ x ∈ b.2.memberRanges, b.2.name ++ "." ++ x.1 ≠ info.name ++ "." ++ m) →
          c.initialiseFrameState.mCurrentFrameState.mUboMembers.find (info.name ++ "." ++ m)
            = some { offset := r.1 % 2 ^ 32, range := r.2 % 2 ^ 32, buffer := k })
      ∧ ((∀ b ∈ post, b.2.type = DescriptorType.uniformBufferDynamic → b.1 ≠ k) →
          c.initialiseFrameState.mCurrentFrameState.uboState.find k
            = some { name := info.name, struct_size := info.storageSize
                     state := { data := List.replicate info.storageSize 0 } }) := by
  have hframe : c.initialiseFrameState.mCurrentFrameState
      = (post.foldl Context.registerDescriptor
          (Context.registerDescriptor (pre.foldl Context.registerDescriptor ({}, [])) (k, info))).1 := by
    unfold Context.initialiseFrameState Context.buildFrame
    simp only
    rw [hinfos, List.foldl_append, List.foldl_cons]
  have hdesc : ∀ acc : Frame × List Event, Context.registerDescriptor acc (k, info)
      = mpost.foldl (Context.registerMember k info.name)
          (Context.registerMember k info.name
            (mpre.foldl (Context.registerMember k info.name)
              ({ acc.1 with
                  uboState := acc.1.uboState.assign k
                    { name := info.name, struct_size := info.storageSize
                      state := { data := List.replicate info.storageSize 0 } }
                  uboNames := acc.1.uboNames.assign info.name k }, acc.2))
            (m, r)) := by
    intro acc
    unfold Context.registerDescriptor
    simp only [htype]
    rw [hmem, List.foldl_append, List.foldl_cons]
  rw [hframe, hdesc]
  refine ⟨?_, ?_, ?_, ?_⟩
  · apply registerDescriptors_present
    apply registerMembers_present
    rw [registerMember_qualified k info.name _ (m, r)]
    rfl
  · apply registerDescriptors_present
    apply registerMembers_present
    exact registerMember_bare k info.name _ (m, r)
  · intro hlater hblocks
    apply registerDescriptors_kept _ _ _ _ hblocks
    apply registerMembers_taken _ _ _ _ _ _ hlater
    exact registerMember_qualified k info.name _ (m, r)
  · intro hkeys
    apply registerDescriptors_block _ _ _ _ hkeys
    rw [registerMembers_uboState]
    show (mpre.foldl (Context.registerMember k info.name) _).1.uboState.find k = _
    rw [registerMembers_uboState]
    exact Map.find_assign_self _ _ _

set_option maxRecDepth 100000 in
/-- C14, on the sample reflection data: the member `viewMatrix` of the block
`DefaultMatrices` is found under both names, with offset `4`, range `4` and
the key `11` of its block. -/
theorem C14_members_registered_witness :
    freshContext.initialiseFrameState.mCurrentFrameState.mUboMembers.find "DefaultMatrices.viewMatrix"
        = some { offset := 4, range := 4, buffer := 11 }
      ∧ freshContext.initialiseFrameState.mCurrentFrameState.mUboMembers.find "viewMatrix"
        = some { offset := 4, range := 4, buffer := 11 }
      ∧ (freshContext.initialiseFrameState.mCurrentFrameState.uboState.find 11).map UboStack.name
        = some "DefaultMatrices" :=
  ⟨(C14_members_registered freshContext 11 matricesInfo "viewMatrix" (4, 4) []
      [(12, styleInfo), (13, samplerInfo)] [("modelMatrix", (0, 4))] []
      (by decide) (by decide) (by decide)).2.2.1 (by decide) (by decide),
    by decide,
    by rw [(C14_members_registered freshContext 11 matricesInfo "viewMatrix" (4, 4) []
      [(12, styleInfo), (13, samplerInfo)] [("modelMatrix", (0, 4))] []
      (by decide) (by decide) (by decide)).2.2.2 (by decide)]; rfl⟩

/-! ## C18: the copies of `storeMesh` are guarded -/

theorem Allocator.allocate_granted (a : Allocator) (n : Nat) (p : Handle) (o f : Nat)
    (h : (a.allocate n p o f).success = true) :
    (a.allocate n p o f).pData = a.mapped + (a.allocate n p o f).offset := by
  unfold Allocator.allocate at h ⊢
  simp only at h ⊢
  split
  · simp only [Nat.add_assoc]
  · rename_i hc
    rw [if_neg hc] at h
    exact absurd h Bool.false_ne_true

theorem Allocator.allocate_mapped (a : Allocator) (n : Nat) (p : Handle) (o f : Nat) :
    (a.allocate n p o f).alloc.mapped = a.mapped := by
  unfold Allocator.allocate
  simp only
  split <;> rfl

theorem allocateAndCopy_events (c : Context) (n : Nat) (p : Handle) (o : Nat) (src : List Nat) :
    ∃ es, (c.allocateAndCopy n p o src).1.trace = c.trace ++ es
      ∧ (c.allocateAndCopy n p o src).1.mAlloc.mapped = c.mAlloc.mapped
      ∧ (c.allocateAndCopy n p o src).1.mFrameIndex = c.mFrameIndex
      ∧ (∀ ranges rest, guardedCopies c.mAlloc.mapped c.mFrameIndex ((n, src) :: ranges) (es ++ rest)
          = guardedCopies c.mAlloc.mapped c.mFrameIndex ranges rest)
      ∧ (∀ acc, es.foldl noteAllocation acc
          = some ((c.allocateAndCopy n p o src).2.2.2, (c.allocateAndCopy n p o src).2.2.1)) := by
  unfold Context.allocateAndCopy Context.allocate Context.emit
  simp only
  split
  · rename_i hs
    refine ⟨[Event.allocate n c.mFrameIndex true (c.mAlloc.allocate n p o c.mFrameIndex).offset,
      Event.memcpy (c.mAlloc.allocate n p o c.mFrameIndex).pData src n], ?_, ?_, rfl, ?_,
      fun _ => rfl⟩
    · simp only [hs, List.append_assoc, List.singleton_append]
    · exact Allocator.allocate_mapped _ _ _ _ _
    · intro ranges rest
      rw [Allocator.allocate_granted _ _ _ _ _ hs]
      simp [guardedCopies]
  · rename_i hs
    have hs' : (c.mAlloc.allocate n p o c.mFrameIndex).success = false := by
      simpa using hs
    refine ⟨[Event.allocate n c.mFrameIndex false (c.mAlloc.allocate n p o c.mFrameIndex).offset],
      ?_, ?_, rfl, ?_, ?_⟩
    · simp only [hs']
    · exact Allocator.allocate_mapped _ _ _ _ _
    · intro ranges rest
      simp [guardedCopies]
    · intro acc
      simp only [noteAllocation, List.foldl_cons, List.foldl_nil, hs']

/-- C18: the calls that `storeMesh` makes are guarded copies of the five
ranges of the mesh (positions, colours, normals, texture coordinates,
indices): one allocation for each range, and the bytes of a range are copied,
to the pointer that belongs to the granted offset, exactly when the allocation
of that range was granted; a refused allocation is followed by no copy.  The
offset of the indices is appended to `indexOffsets` exactly when the last
allocation, the one for the indices, was granted. -/
theorem C18_storeMesh_copies_guarded (c : Context) (mesh : Mesh) (vo io : List Nat) :
    guardedCopies c.mAlloc.mapped c.mFrameIndex (meshRanges mesh)
        ((c.storeMesh mesh vo io).1.trace.drop c.trace.length) = true
      ∧ (c.storeMesh mesh vo io).2.2.1
          = (match lastAllocation ((c.storeMesh mesh vo io).1.trace.drop c.trace.length) with
              | some (true, offset) => io ++ [offset]
              | _ => io) := by
  have h4 : ∀ (x : Context) (n : Nat) (p : Handle) (src : List Nat) (v : List Nat),
      (if (x.allocate n p 0).2.success = true then
          ((x.allocate n p 0).1.emit (Event.memcpy (x.allocate n p 0).2.pData src n),
            v, io ++ [(x.allocate n p 0).2.offset], false)
        else ((x.allocate n p 0).1, v, io, false))
      = ((x.allocateAndCopy n p 0 src).1, v,
          (if (x.allocateAndCopy n p 0 src).2.2.2 = true then
            io ++ [(x.allocateAndCopy n p 0 src).2.2.1] else io), false) := by
    intro x n p src v
    unfold Context.allocateAndCopy
    simp only
    split <;> simp
  unfold Context.storeMesh meshRanges
  simp only [h4]
  obtain ⟨e0, t0, m0, f0, g0, -⟩ := allocateAndCopy_events c
    (mesh.numVertices % 2 ^ 32 * 12 % 2 ^ 32) 0 ((resize vo 4 0).getD 0 0) mesh.vertices
  generalize c.allocateAndCopy _ 0 _ mesh.vertices = r0 at t0 m0 f0 g0 ⊢
  obtain ⟨e1, t1, m1, f1, g1, -⟩ := allocateAndCopy_events r0.1
    (mesh.numColors % 2 ^ 32 * 16 % 2 ^ 32) r0.2.1
    (((resize vo 4 0).set 0 r0.2.2.1).getD 1 0) mesh.colors
  generalize r0.1.allocateAndCopy _ _ _ mesh.colors = r1 at t1 m1 f1 g1 ⊢
  obtain ⟨e2, t2, m2, f2, g2, -⟩ := allocateAndCopy_events r1.1
    (mesh.numNormals % 2 ^ 32 * 12 % 2 ^ 32) r1.2.1
    ((((resize vo 4 0).set 0 r0.2.2.1).set 1 r1.2.2.1).getD 2 0) mesh.normals
  generalize r1.1.allocateAndCopy _ _ _ mesh.normals = r2 at t2 m2 f2 g2 ⊢
  obtain ⟨e3, t3, m3, f3, g3, -⟩ := allocateAndCopy_events r2.1
    (mesh.numTexCoords % 2 ^ 32 * 8 % 2 ^ 32) r2.2.1
    (((((resize vo 4 0).set 0 r0.2.2.1).set 1 r1.2.2.1).set 2 r2.2.2.1).getD 3 0) mesh.texCoords
  generalize r2.1.allocateAndCopy _ _ _ mesh.texCoords = r3 at t3 m3 f3 g3 ⊢
  obtain ⟨e4, t4, -, -, g4, l4⟩ := allocateAndCopy_events r3.1
    (mesh.numIndices % 2 ^ 32 * 4 % 2 ^ 32) r3.2.1 0 mesh.indices
  generalize r3.1.allocateAndCopy _ _ _ mesh.indices = r4 at t4 g4 l4 ⊢
  have htrace : List.drop c.trace.length r4.1.trace = e0 ++ (e1 ++ (e2 ++ (e3 ++ (e4 ++ [])))) := by
    rw [t4, t3, t2, t1, t0]
    simp only [List.append_assoc, List.append_nil]
    exact List.drop_left _ _
  rw [m2, m1, m0] at m3
  rw [f2, f1, f0] at f3
  rw [m1, m0] at m2
  rw [f1, f0] at f2
  rw [m0] at m1
  rw [f0] at f1
  rw [m3, f3] at g4
  rw [m2, f2] at g3
  rw [m1, f1] at g2
  rw [m0, f0] at g1
  refine ⟨?_, ?_⟩
  · show guardedCopies _ _ _ (List.drop c.trace.length r4.1.trace) = true
    rw [htrace, g0, g1, g2, g3, g4]
    rfl
  · show (if r4.2.2.2 = true then io ++ [r4.2.2.1] else io)
      = (match lastAllocation (List.drop c.trace.length r4.1.trace) with
          | some (true, offset) => io ++ [offset]
          | _ => io)
    have hlast : lastAllocation (List.drop c.trace.length r4.1.trace)
        = some (r4.2.2.2, r4.2.2.1) := by
      rw [htrace]
      unfold lastAllocation
      simp only [List.foldl_append, List.foldl_nil]
      exact l4 _
    rw [hlast]
    cases r4.2.2.2 <;> rfl

/-! ## The two caches of the layout state across the calls of a frame -/

theorem cachesGrow_refl (a : PipelineLayoutState) : CachesGrow a a :=
  ⟨fun _ _ h => h, fun _ _ h => h⟩

theorem cachesGrow_of_eq (a b : PipelineLayoutState)
    (h1 : b.descriptorSetCache = a.descriptorSetCache)
    (h2 : b.bindingStateCache = a.bindingStateCache) : CachesGrow a b := by
  unfold CachesGrow
  rw [h1, h2]
  exact ⟨fun _ _ h => h, fun _ _ h => h⟩

theorem cachesGrow_trans (a b c : PipelineLayoutState) (h1 : CachesGrow a b)
    (h2 : CachesGrow b c) : CachesGrow a c :=
  ⟨fun k s h => h2.1 k s (h1.1 k s h), fun k t h => h2.2 k t (h1.2 k t h)⟩

theorem cachesAligned_of_eq (a b : PipelineLayoutState)
    (h1 : b.descriptorSetCache = a.descriptorSetCache)
    (h2 : b.bindingStateCache = a.bindingStateCache) (h : CachesAligned a) : CachesAligned b := by
  unfold CachesAligned
  rw [h1, h2]
  exact h

theorem layoutState_withUbo (key : Nat) (f : UboStack → UboStack) (c : Context) :
    (c.withUbo key f).mPipelineLayoutState = c.mPipelineLayoutState := by
  unfold Context.withUbo
  split <;> rfl

theorem layoutState_allocateAndCopy (c : Context) (n : Nat) (p : Handle) (o : Nat)
    (src : List Nat) :
    (c.allocateAndCopy n p o src).1.mPipelineLayoutState = c.mPipelineLayoutState := by
  unfold Context.allocateAndCopy
  simp only
  split <;> rfl

theorem layoutState_emit (c : Context) (e : Event) :
    (c.emit e).mPipelineLayoutState = c.mPipelineLayoutState := rfl

theorem layoutState_allocate (c : Context) (n : Nat) (p : Handle) (o : Nat) :
    (c.allocate n p o).1.mPipelineLayoutState = c.mPipelineLayoutState := rfl

theorem layoutState_storeMesh (mesh : Mesh) (vo io : List Nat) (c : Context) :
    (c.storeMesh mesh vo io).1.mPipelineLayoutState = c.mPipelineLayoutState := by
  unfold Context.storeMesh
  simp only
  split
  · rw [layoutState_emit, layoutState_allocate, layoutState_allocateAndCopy,
      layoutState_allocateAndCopy, layoutState_allocateAndCopy, layoutState_allocateAndCopy]
  · rw [layoutState_allocate, layoutState_allocateAndCopy,
      layoutState_allocateAndCopy, layoutState_allocateAndCopy, layoutState_allocateAndCopy]

theorem rebindLayouts_tables (layouts : List Nat) (pls : PipelineLayoutState) :
    (Context.rebindLayouts layouts pls).bindingStateCache = pls.bindingStateCache := by
  unfold Context.rebindLayouts
  simp only
  rw [foldl_keeps (fun a : PipelineLayoutState × Bool => a.1.bindingStateCache)
    (Context.invalidateSet layouts)]
  intro b a
  unfold Context.invalidateSet
  split <;> rfl

theorem bindPipeline_tables (d : Driver) (c : Context) :
    (c.bindPipeline d).mPipelineLayoutState.bindingStateCache
      = c.mPipelineLayoutState.bindingStateCache := by
  unfold Context.bindPipeline
  split
  · rfl
  · simp only [Context.emit, rebindLayouts_tables]
    split <;> rfl

theorem Map.contains_assign_iff {V : Type} (m : Map V) (k q : Nat) (v : V) :
    (m.assign k v).contains q = true ↔ k = q ∨ m.contains q = true := by
  simp only [Map.contains, Map.find_assign]
  by_cases h : k = q
  · simp [h]
  · simp [h]

theorem Map.find_none_of_not_contains {V : Type} (m : Map V) (k : Nat)
    (h : ¬ m.contains k = true) : m.find k = none := by
  unfold Map.contains at h
  cases hf : m.find k with
  | none => rfl
  | some v => rw [hf] at h; exact absurd rfl h

theorem resolveSet_caches (d : Driver) (a : PipelineLayoutState) (acc : Context × List Nat)
    (i : Nat) (h : ResolveInv a acc) : ResolveInv a (Context.resolveSet d acc i) := by
  obtain ⟨hk, hg, ha, hn⟩ := h
  unfold Context.resolveSet
  simp only
  split
  · rename_i s hs
    refine ⟨hk, ⟨hg.1, ?_⟩, ?_, hn⟩
    · intro k t hkt
      have h1 := hg.2 k t hkt
      simp only
      split
      · exact h1
      · rename_i hc
        rw [Map.find_assign_ne _ _ _ _ (fun he => hc (by
          rw [he]
          simp only [Map.contains, h1, Option.isSome_some]))]
        exact h1
    · intro q hq
      simp only at hq ⊢
      split at hq
      · exact ha q hq
      · rcases (Map.contains_assign_iff _ _ _ _).mp hq with he | hq'
        · rw [← he]
          simp only [Map.contains, hs, Option.isSome_some]
        · exact ha q hq'
  · rename_i hs
    refine ⟨hk, ⟨?_, hg.2⟩, ?_, ?_⟩
    · intro k s hks
      have h1 := hg.1 k s hks
      simp only
      rw [Map.find_assign_ne _ _ _ _ (fun he => by
        rw [← he, hs] at h1
        exact absurd h1 (by simp))]
      exact h1
    · intro q hq
      simp only
      exact (Map.contains_assign_iff _ _ _ _).mpr (Or.inr (ha q hq))
    · intro j hj
      simp only
      rcases List.mem_append.mp hj with hj | hj
      · exact ⟨(hn j hj).1, (Map.contains_assign_iff _ _ _ _).mpr (Or.inr (hn j hj).2)⟩
      · rw [List.mem_singleton] at hj
        subst hj
        rw [hk] at hs ⊢
        refine ⟨?_, (Map.contains_assign_iff _ _ _ _).mpr (Or.inl rfl)⟩
        cases hf : a.descriptorSetCache.find (a.setLayoutKeys.getD j 0) with
        | none => rfl
        | some s =>
          rw [hg.1 _ s hf] at hs
          exact absurd hs (by simp)

theorem resolveSets_caches (d : Driver) (a : PipelineLayoutState) (l : List Nat)
    (acc : Context × List Nat) (h : ResolveInv a acc) :
    ResolveInv a (l.foldl (Context.resolveSet d) acc) := by
  induction l generalizing acc with
  | nil => exact h
  | cons i l ih => exact ih _ (resolveSet_caches d a acc i h)

theorem keysAndCaches_writeBinding (j : Nat) (acc : Context × List DescriptorWrite)
    (b : Nat × DescriptorInfo) :
    keysAndCaches (Context.writeBinding j acc b).1 = keysAndCaches acc.1 := rfl

theorem keysAndCaches_writeSet (acc : Context × List DescriptorWrite) (j : Nat) :
    keysAndCaches (Context.writeSet acc j).1 = keysAndCaches acc.1 := by
  unfold Context.writeSet
  simp only
  rw [foldl_keeps (fun a : Context × List DescriptorWrite => keysAndCaches a.1)
    (Context.writeBinding j) (keysAndCaches_writeBinding j)]
  rfl

theorem keysAndCaches_updateDescriptorSets (l : List Nat) (c : Context) :
    keysAndCaches (c.updateDescriptorSets l) = keysAndCaches c := by
  unfold Context.updateDescriptorSets
  simp only
  show keysAndCaches (l.foldl Context.writeSet (c, [])).1 = _
  exact foldl_keeps (fun a : Context × List DescriptorWrite => keysAndCaches a.1)
    Context.writeSet keysAndCaches_writeSet l (c, [])

/-- The second loop of `updateDescriptorSetState` stores tables only under
layout keys that were in neither cache when the method began. -/
theorem cacheBindingStates_caches (a : PipelineLayoutState) (dsc : Map Handle) (l : List Nat)
    (x : Context) (ha : CachesAligned a)
    (hl : ∀ j ∈ l, a.descriptorSetCache.find (a.setLayoutKeys.getD j 0) = none
      ∧ dsc.contains (a.setLayoutKeys.getD j 0) = true)
    (hk : x.mPipelineLayoutState.setLayoutKeys = a.setLayoutKeys)
    (hd : x.mPipelineLayoutState.descriptorSetCache = dsc)
    (hg : ∀ k t, a.bindingStateCache.find k = some t →
      x.mPipelineLayoutState.bindingStateCache.find k = some t)
    (hal : CachesAligned x.mPipelineLayoutState) :
    (l.foldl Context.cacheBindingState x).mPipelineLayoutState.descriptorSetCache = dsc
      ∧ (∀ k t, a.bindingStateCache.find k = some t →
          (l.foldl Context.cacheBindingState x).mPipelineLayoutState.bindingStateCache.find k = some t)
      ∧ CachesAligned (l.foldl Context.cacheBindingState x).mPipelineLayoutState := by
  induction l generalizing x with
  | nil => exact ⟨hd, hg, hal⟩
  | cons i l ih =>
    rw [List.foldl_cons]
    refine ih _ (fun j hj => hl j (List.mem_cons_of_mem _ hj)) ?_ ?_ ?_ ?_
    · exact hk
    · exact hd
    · intro k t hkt
      unfold Context.cacheBindingState
      simp only
      rw [hk, Map.find_assign_ne _ _ _ _ (fun he => by
        have hnone := Map.find_none_of_not_contains a.bindingStateCache (a.setLayoutKeys.getD i 0)
          (fun hc => by
            have h1 := ha _ hc
            simp only [Map.contains, (hl i (List.mem_cons_self _ _)).1] at h1
            exact absurd h1 (by simp))
        rw [he, hkt] at hnone
        exact absurd hnone (by simp))]
      exact hg k t hkt
    · intro q hq
      unfold Context.cacheBindingState at hq ⊢
      simp only at hq ⊢
      rcases (Map.contains_assign_iff _ _ _ _).mp hq with he | hq'
      · rw [← he, hk, hd]
        exact (hl i (List.mem_cons_self _ _)).2
      · exact hal q hq'

theorem updateDescriptorSetState_caches (d : Driver) (c : Context)
    (ha : CachesAligned c.mPipelineLayoutState) :
    CachesGrow c.mPipelineLayoutState (c.updateDescriptorSetState d).mPipelineLayoutState
      ∧ CachesAligned (c.updateDescriptorSetState d).mPipelineLayoutState := by
  unfold Context.updateDescriptorSetState
  split
  · exact ⟨cachesGrow_refl _, ha⟩
  · simp only
    have hinv := resolveSets_caches d c.mPipelineLayoutState c.mPipelineLayoutState.dirtySetIndices
      (c, []) ⟨rfl, cachesGrow_refl _, ha, fun j hj => absurd hj (List.not_mem_nil j)⟩
    generalize c.mPipelineLayoutState.dirtySetIndices.foldl (Context.resolveSet d) (c, []) = r
      at hinv ⊢
    obtain ⟨hk, hg, hal, hn⟩ := hinv
    split
    · have hw := keysAndCaches_updateDescriptorSets r.2 r.1
      simp only [keysAndCaches, Prod.mk.injEq] at hw
      obtain ⟨h1, h2, h3⟩ := cacheBindingStates_caches c.mPipelineLayoutState
        r.1.mPipelineLayoutState.descriptorSetCache r.2 (Context.updateDescriptorSets r.2 r.1) ha hn
        (hw.1.trans hk) hw.2.1
        (fun k t hkt => by rw [hw.2.2]; exact hg.2 k t hkt)
        (cachesAligned_of_eq _ _ hw.2.1 hw.2.2 hal)
      refine ⟨⟨?_, h2⟩, h3⟩
      intro k s hks
      show (List.foldl Context.cacheBindingState _ _).mPipelineLayoutState.descriptorSetCache.find k = _
      rw [h1]
      exact hg.1 k s hks
    · exact ⟨hg, hal⟩

theorem caches_of_layoutState (c x : Context)
    (h : x.mPipelineLayoutState = c.mPipelineLayoutState)
    (ha : CachesAligned c.mPipelineLayoutState) :
    CachesGrow c.mPipelineLayoutState x.mPipelineLayoutState
      ∧ CachesAligned x.mPipelineLayoutState := by
  rw [h]
  exact ⟨cachesGrow_refl _, ha⟩

theorem flushUniformBufferState_caches (d : Driver) (c : Context)
    (ha : CachesAligned c.mPipelineLayoutState) :
    CachesGrow c.mPipelineLayoutState (c.flushUniformBufferState d).mPipelineLayoutState
      ∧ CachesAligned (c.flushUniformBufferState d).mPipelineLayoutState := by
  rw [(flushUniformBufferState_eq d c).2.2]
  exact updateDescriptorSetState_caches d c ha

theorem bindPipeline_caches (d : Driver) (c : Context)
    (ha : CachesAligned c.mPipelineLayoutState) :
    CachesGrow c.mPipelineLayoutState (c.bindPipeline d).mPipelineLayoutState
      ∧ CachesAligned (c.bindPipeline d).mPipelineLayoutState :=
  ⟨cachesGrow_of_eq _ _ (bindPipeline_cache d c) (bindPipeline_tables d c),
    cachesAligned_of_eq _ _ (bindPipeline_cache d c) (bindPipeline_tables d c) ha⟩

theorem draw_layoutState (d : Driver) (mesh : Mesh) (c : Context) :
    (c.draw d mesh).mPipelineLayoutState
      = ((c.bindPipeline d).flushUniformBufferState d).mPipelineLayoutState := by
  unfold Context.draw
  simp only
  split
  · rw [layoutState_emit, layoutState_emit, layoutState_storeMesh]
    rfl
  · rw [layoutState_emit, layoutState_emit, layoutState_emit, layoutState_storeMesh]
    rfl

theorem draw_caches (d : Driver) (mesh : Mesh) (c : Context)
    (ha : CachesAligned c.mPipelineLayoutState) :
    CachesGrow c.mPipelineLayoutState (c.draw d mesh).mPipelineLayoutState
      ∧ CachesAligned (c.draw d mesh).mPipelineLayoutState := by
  rw [draw_layoutState]
  have h1 := bindPipeline_caches d c ha
  have h2 := flushUniformBufferState_caches d (c.bindPipeline d) h1.2
  exact ⟨cachesGrow_trans _ _ _ h1.1 h2.1, h2.2⟩

/-- Both caches across one call other than `begin`. -/
theorem step_caches (d : Driver) (c : Context) (op : Op) (hop : op.isBegin = false)
    (ha : CachesAligned c.mPipelineLayoutState) :
    CachesGrow c.mPipelineLayoutState (step d c op).mPipelineLayoutState
      ∧ CachesAligned (step d c op).mPipelineLayoutState := by
  cases op with
  | begin f => exact absurd hop (by simp [Op.isBegin])
  | reset => exact caches_of_layoutState c _ rfl ha
  | setup => exact caches_of_layoutState c _ rfl ha
  | addShader s =>
    refine caches_of_layoutState c _ ?_ ha
    simp only [step, Context.addShader]
    split <;> rfl
  | endFrame => exact caches_of_layoutState c _ rfl ha
  | setShader s => exact caches_of_layoutState c _ rfl ha
  | setRenderPass r => exact caches_of_layoutState c _ rfl ha
  | setPolyMode m => exact caches_of_layoutState c _ rfl ha
  | pushBuffer n =>
    refine caches_of_layoutState c _ ?_ ha
    simp only [step, Context.pushBuffer]
    split
    · exact layoutState_withUbo _ _ _
    · rfl
  | popBuffer n =>
    refine caches_of_layoutState c _ ?_ ha
    simp only [step, Context.popBuffer]
    split
    · exact layoutState_withUbo _ _ _
    · rfl
  | setUniform n b =>
    refine caches_of_layoutState c _ ?_ ha
    simp only [step, Context.setUniform]
    split
    · rfl
    · exact layoutState_withUbo _ _ _
  | debugSetTexture n t => exact caches_of_layoutState c _ rfl ha
  | bindPipeline => exact bindPipeline_caches d c ha
  | updateDescriptorSetState => exact updateDescriptorSetState_caches d c ha
  | flushUniformBufferState => exact flushUniformBufferState_caches d c ha
  | bindDescriptorSets => exact caches_of_layoutState c _ rfl ha
  | storeMesh mesh => exact caches_of_layoutState c _ (layoutState_storeMesh _ _ _ _) ha
  | draw mesh => exact draw_caches d mesh c ha

theorem run_caches (d : Driver) (ops : List Op) (c : Context)
    (hframe : ∀ op ∈ ops, op.isBegin = false)
    (ha : CachesAligned c.mPipelineLayoutState) :
    CachesGrow c.mPipelineLayoutState (run d c ops).mPipelineLayoutState
      ∧ CachesAligned (run d c ops).mPipelineLayoutState := by
  induction ops generalizing c with
  | nil => exact ⟨cachesGrow_refl _, ha⟩
  | cons op ops ih =>
    have h1 := step_caches d c op (hframe op (List.mem_cons_self _ _)) ha
    have h2 := ih (step d c op) (fun o ho => hframe o (List.mem_cons_of_mem _ ho)) h1.2
    exact ⟨cachesGrow_trans _ _ _ h1.1 h2.1, h2.2⟩

/-! ## C17: the descriptor-set cache lasts for a frame, not for the session -/

set_option maxRecDepth 100000 in
/-- C17, as stated, fails: at the end of the frame of the sample session both
caches hold an entry for the layout `101`; after the `begin` of the next frame
both caches are empty. -/
theorem C17_begin_empties_caches_counterexample :
    frameDone.mPipelineLayoutState.descriptorSetCache.find 101 = some 2008
      ∧ frameDone.mPipelineLayoutState.bindingStateCache.find 101 = some [(0, 11), (1, 12)]
      ∧ (step okDriver frameDone (Op.begin 1)).mPipelineLayoutState.descriptorSetCache.find 101 = none
      ∧ (step okDriver frameDone (Op.begin 1)).mPipelineLayoutState.bindingStateCache.find 101 = none := by
  decide

/-- C17, amended: within a frame the two caches only grow. Along every
sequence of calls that contains no `begin`, started in a state whose caches
are aligned (every key of `bindingStateCache` is a key of `descriptorSetCache`,
as it is when both are empty), every entry of `descriptorSetCache` keeps its
handle and every entry of `bindingStateCache` keeps its table, and the caches
stay aligned.  A `begin` leaves both caches empty. -/
theorem C17_caches_grow_within_frame (d : Driver) (c : Context) (ops : List Op) (f : Nat)
    (hframe : ∀ op ∈ ops, op.isBegin = false)
    (ha : CachesAligned c.mPipelineLayoutState) :
    (∀ k s, c.mPipelineLayoutState.descriptorSetCache.find k = some s →
        (run d c ops).mPipelineLayoutState.descriptorSetCache.find k = some s)
      ∧ (∀ k t, c.mPipelineLayoutState.bindingStateCache.find k = some t →
        (run d c ops).mPipelineLayoutState.bindingStateCache.find k = some t)
      ∧ CachesAligned (run d c ops).mPipelineLayoutState
      ∧ (step d c (Op.begin f)).mPipelineLayoutState.descriptorSetCache = []
      ∧ (step d c (Op.begin f)).mPipelineLayoutState.bindingStateCache = []
      ∧ CachesAligned (step d c (Op.begin f)).mPipelineLayoutState := by
  obtain ⟨hg, hal⟩ := run_caches d ops c hframe ha
  exact ⟨hg.1, hg.2, hal, rfl, rfl, fun k hk => absurd hk (by
    show ¬ (Map.contains ([] : Map BindingTable) k = true)
    simp [Map.contains, Map.find])⟩

set_option maxRecDepth 100000 in
/-- C17, amended, on the sample session: after the first draw both caches
hold the layout `101`; the two draws that follow in the same frame, one of
them with the two-set shader, keep both entries and add the layout `102`. -/
theorem C17_caches_grow_within_frame_witness :
    (∀ op ∈ sessionOps.drop 6, op.isBegin = false)
      ∧ afterFirstDraw.mPipelineLayoutState.descriptorSetCache.find 101 = some 2008
      ∧ (run okDriver afterFirstDraw (sessionOps.drop 6)).mPipelineLayoutState.descriptorSetCache.find 101
          = some 2008
      ∧ (run okDriver afterFirstDraw (sessionOps.drop 6)).mPipelineLayoutState.bindingStateCache.find 101
          = some [(0, 11), (1, 12)]
      ∧ (run okDriver afterFirstDraw (sessionOps.drop 6)).mPipelineLayoutState.descriptorSetCache
          = [(101, 2008), (102, 2032)] :=
  have ha : CachesAligned afterFirstDraw.mPipelineLayoutState := by
    intro k hk
    have hb : afterFirstDraw.mPipelineLayoutState.bindingStateCache = [(101, [(0, 11), (1, 12)])] := by
      decide
    have hd : afterFirstDraw.mPipelineLayoutState.descriptorSetCache = [(101, 2008)] := by
      decide
    rw [hb] at hk
    rw [hd]
    simp only [Map.contains, Map.find] at hk ⊢
    split at hk
    · rename_i he
      rw [if_pos he]
      rfl
    · exact absurd hk (by simp)
  ⟨by decide, by decide,
    (C17_caches_grow_within_frame okDriver afterFirstDraw (sessionOps.drop 6) 1 (by decide) ha).1
      101 2008 (by decide),
    (C17_caches_grow_within_frame okDriver afterFirstDraw (sessionOps.drop 6) 1 (by decide) ha).2.1
      101 [(0, 11), (1, 12)] (by decide),
    by decide⟩

/-! ## The stacks of saved block states -/

theorem stacksObs_withUbo (key : Nat) (f : UboStack → UboStack) (c : Context)
    (hf : ∀ u, (f u).stateStack = u.stateStack) :
    stacksObs (c.withUbo key f) = stacksObs c := by
  unfold Context.withUbo
  split
  · rfl
  · rename_i u hu
    simp only [stacksObs, Prod.mk.injEq, true_and]
    funext k
    rw [Map.find_assign]
    split
    · rename_i hk
      rw [← hk, hu]
      simp only [Option.map_some', hf]
    · rfl

theorem stacksObs_setUniform (n : String) (b : List Nat) (c : Context) :
    stacksObs (c.setUniform n b) = stacksObs c := by
  unfold Context.setUniform
  split
  · rfl
  · exact stacksObs_withUbo _ _ _ (fun _ => rfl)

theorem frameState_allocateAndCopy (c : Context) (n : Nat) (p : Handle) (o : Nat)
    (src : List Nat) :
    (c.allocateAndCopy n p o src).1.mCurrentFrameState = c.mCurrentFrameState := by
  unfold Context.allocateAndCopy
  simp only
  split <;> rfl

theorem frameState_emit (c : Context) (e : Event) :
    (c.emit e).mCurrentFrameState = c.mCurrentFrameState := rfl

theorem frameState_allocate (c : Context) (n : Nat) (p : Handle) (o : Nat) :
    (c.allocate n p o).1.mCurrentFrameState = c.mCurrentFrameState := rfl

theorem frameState_storeMesh (mesh : Mesh) (vo io : List Nat) (c : Context) :
    (c.storeMesh mesh vo io).1.mCurrentFrameState = c.mCurrentFrameState := by
  unfold Context.storeMesh
  simp only
  split
  · rw [frameState_emit, frameState_allocate, frameState_allocateAndCopy,
      frameState_allocateAndCopy, frameState_allocateAndCopy, frameState_allocateAndCopy]
  · rw [frameState_allocate, frameState_allocateAndCopy,
      frameState_allocateAndCopy, frameState_allocateAndCopy, frameState_allocateAndCopy]

theorem stacksObs_of_frameState (c x : Context)
    (h : x.mCurrentFrameState = c.mCurrentFrameState) : stacksObs x = stacksObs c := by
  unfold stacksObs
  rw [h]

theorem stacksObs_flushBinding (acc : Context × List Nat) (b : Nat × Nat) :
    stacksObs (Context.flushBinding acc b).1 = stacksObs acc.1 := by
  unfold Context.flushBinding
  simp only
  split
  · rfl
  · rename_i u hu
    split
    · simp only [stacksObs, Context.emit, Prod.mk.injEq]
      refine ⟨by split <;> rfl, ?_⟩
      funext k
      rw [Map.find_assign]
      split
      · rename_i hk
        rw [← hk, hu]
        rfl
      · split <;> rfl
    · rfl

theorem stacksObs_flushUniformBufferState (d : Driver) (c : Context) :
    stacksObs (c.flushUniformBufferState d) = stacksObs c := by
  have hdrop : ∀ x : Context, ∀ l,
      stacksObs { x with mCurrentFrameState := { x.mCurrentFrameState with bindingOffsets := l } }
        = stacksObs x := fun _ _ => rfl
  have hobs := flushObs_updateDescriptorSetState d c
  simp only [flushObs, Prod.mk.injEq] at hobs
  unfold Context.flushUniformBufferState
  simp only
  rw [hdrop, foldl_flushTable,
    foldl_keeps (fun a : Context × List Nat => stacksObs a.1) _
      (fun a b => stacksObs_flushBinding a b)]
  exact stacksObs_of_frameState _ _ hobs.1

theorem stacksObs_draw (d : Driver) (mesh : Mesh) (c : Context) :
    stacksObs (c.draw d mesh) = stacksObs c := by
  have h : (c.draw d mesh).mCurrentFrameState
      = ((c.bindPipeline d).flushUniformBufferState d).mCurrentFrameState := by
    unfold Context.draw
    simp only
    split
    · rw [frameState_emit, frameState_emit, frameState_storeMesh]
      rfl
    · rw [frameState_emit, frameState_emit, frameState_emit, frameState_storeMesh]
      rfl
  rw [stacksObs_of_frameState _ _ h, stacksObs_flushUniformBufferState]
  exact stacksObs_of_frameState _ _ (bindPipeline_frame d c).1

/-- The names and the stacks across one plain call. -/
theorem stacksObs_step (d : Driver) (c : Context) (op : Op) (hop : op.isPlain = true) :
    stacksObs (step d c op) = stacksObs c := by
  cases op with
  | begin f => exact absurd hop (by simp [Op.isPlain])
  | pushBuffer n => exact absurd hop (by simp [Op.isPlain])
  | popBuffer n => exact absurd hop (by simp [Op.isPlain])
  | reset => rfl
  | setup => rfl
  | addShader s =>
    refine stacksObs_of_frameState _ _ ?_
    simp only [step, Context.addShader]
    split <;> rfl
  | endFrame => rfl
  | setShader s => rfl
  | setRenderPass r => rfl
  | setPolyMode m => rfl
  | setUniform n b => exact stacksObs_setUniform n b c
  | debugSetTexture n t => rfl
  | bindPipeline => exact stacksObs_of_frameState _ _ (bindPipeline_frame d c).1
  | updateDescriptorSetState =>
    have hobs := flushObs_updateDescriptorSetState d c
    simp only [flushObs, Prod.mk.injEq] at hobs
    exact stacksObs_of_frameState _ _ hobs.1
  | flushUniformBufferState => exact stacksObs_flushUniformBufferState d c
  | bindDescriptorSets => rfl
  | storeMesh mesh => exact stacksObs_of_frameState _ _ (frameState_storeMesh _ _ _ _)
  | draw mesh => exact stacksObs_draw d mesh c

theorem withUbo_find (k key : Nat) (f : UboStack → UboStack) (c : Context) :
    (c.withUbo k f).mCurrentFrameState.uboNames = c.mCurrentFrameState.uboNames
      ∧ (c.withUbo k f).mCurrentFrameState.uboState.find key
        = if k = key then (c.mCurrentFrameState.uboState.find key).map f
          else c.mCurrentFrameState.uboState.find key := by
  unfold Context.withUbo
  split
  · rename_i hn
    refine ⟨rfl, ?_⟩
    split
    · rename_i hk
      rw [← hk, hn]
      rfl
    · rfl
  · rename_i u hu
    refine ⟨rfl, ?_⟩
    simp only
    rw [Map.find_assign]
    split
    · rename_i hk
      rw [← hk, hu]
      rfl
    · rfl

theorem pushBuffer_find (n : String) (key : Nat) (c : Context) :
    (c.pushBuffer n).mCurrentFrameState.uboNames = c.mCurrentFrameState.uboNames
      ∧ (c.pushBuffer n).mCurrentFrameState.uboState.find key
        = if c.mCurrentFrameState.uboNames.find n = some key then
            (c.mCurrentFrameState.uboState.find key).map UboStack.push
          else c.mCurrentFrameState.uboState.find key := by
  unfold Context.pushBuffer
  split
  · rename_i k hk
    rw [(withUbo_find k key _ c).1, (withUbo_find k key _ c).2, hk]
    simp only [Option.some.injEq, true_and]
  · rename_i hk
    rw [hk]
    simp

theorem popBuffer_find (n : String) (key : Nat) (c : Context) :
    (c.popBuffer n).mCurrentFrameState.uboNames = c.mCurrentFrameState.uboNames
      ∧ (c.popBuffer n).mCurrentFrameState.uboState.find key
        = if c.mCurrentFrameState.uboNames.find n = some key then
            (c.mCurrentFrameState.uboState.find key).map UboStack.pop
          else c.mCurrentFrameState.uboState.find key := by
  unfold Context.popBuffer
  split
  · rename_i k hk
    rw [(withUbo_find k key _ c).1, (withUbo_find k key _ c).2, hk]
    simp only [Option.some.injEq, true_and]
  · rename_i hk
    rw [hk]
    simp

/-- A push of block `name`, then anything that keeps the names and the stack
of the block, then a pop of `name`: the stack of the block is what it was, and
the state of the block is the one before the push, marked dirty. -/
theorem pair_restores (name : String) (key : Nat) (c c2 : Context)
    (hname : c.mCurrentFrameState.uboNames.find name = some key)
    (hn2 : c2.mCurrentFrameState.uboNames = (c.pushBuffer name).mCurrentFrameState.uboNames)
    (hs2 : (c2.mCurrentFrameState.uboState.find key).map UboStack.stateStack
      = ((c.pushBuffer name).mCurrentFrameState.uboState.find key).map UboStack.stateStack) :
    (c2.popBuffer name).mCurrentFrameState.uboNames = c.mCurrentFrameState.uboNames
      ∧ ((c2.popBuffer name).mCurrentFrameState.uboState.find key).map UboStack.stateStack
        = (c.mCurrentFrameState.uboState.find key).map UboStack.stateStack
      ∧ ∀ u, c.mCurrentFrameState.uboState.find key = some u →
          ∃ v, (c2.popBuffer name).mCurrentFrameState.uboState.find key = some v
            ∧ v.state = { u.state with stackId := -1 } ∧ v.stateStack = u.stateStack := by
  have hp := pushBuffer_find name key c
  rw [hname, if_pos rfl] at hp
  rw [hp.1] at hn2
  rw [hp.2] at hs2
  have hq := popBuffer_find name key c2
  rw [hn2, hname, if_pos rfl] at hq
  rw [hq.1, hq.2]
  refine ⟨rfl, ?_, ?_⟩
  · cases hu : c.mCurrentFrameState.uboState.find key with
    | none =>
      rw [hu] at hs2
      cases h2 : c2.mCurrentFrameState.uboState.find key with
      | none => rfl
      | some u2 => rw [h2] at hs2; simp at hs2
    | some u =>
      rw [hu] at hs2
      cases h2 : c2.mCurrentFrameState.uboState.find key with
      | none => rw [h2] at hs2; simp at hs2
      | some u2 =>
        rw [h2] at hs2
        simp only [Option.map_some', Option.some.injEq, UboStack.push] at hs2
        simp only [Option.map_some', Option.some.injEq, UboStack.pop, hs2]
  · intro u hu
    rw [hu] at hs2
    cases h2 : c2.mCurrentFrameState.uboState.find key with
    | none => rw [h2] at hs2; simp at hs2
    | some u2 =>
      rw [h2] at hs2
      simp only [Option.map_some', Option.some.injEq, UboStack.push] at hs2
      refine ⟨u2.pop, rfl, ?_, ?_⟩
      · simp only [UboStack.pop, hs2]
      · simp only [UboStack.pop, hs2]

/-- Calls in which the pushes and pops of a block are paired keep the names
and the stack of saved states of the block. -/
theorem scoped_keeps (d : Driver) (name : String) (key : Nat) (ops : List Op)
    (hs : Scoped name ops) :
    ∀ c : Context, c.mCurrentFrameState.uboNames.find name = some key →
      (∀ other, c.mCurrentFrameState.uboNames.find other = some key → other = name) →
      (run d c ops).mCurrentFrameState.uboNames = c.mCurrentFrameState.uboNames
        ∧ ((run d c ops).mCurrentFrameState.uboState.find key).map UboStack.stateStack
          = (c.mCurrentFrameState.uboState.find key).map UboStack.stateStack := by
  induction hs with
  | done => exact fun _ _ _ => ⟨rfl, rfl⟩
  | plain op rest hop _ ih =>
    intro c hname hinj
    have h1 := stacksObs_step d c op hop
    simp only [stacksObs, Prod.mk.injEq] at h1
    have h2 := ih (step d c op) (by rw [h1.1]; exact hname) (by rw [h1.1]; exact hinj)
    exact ⟨h2.1.trans h1.1, h2.2.trans (congrFun h1.2 key)⟩
  | pushOther other rest hne _ ih =>
    intro c hname hinj
    have h1 := pushBuffer_find other key c
    rw [if_neg (fun h => hne (hinj other h))] at h1
    have h2 := ih (step d c (Op.pushBuffer other)) (by show StrMap.find (Context.pushBuffer other c).mCurrentFrameState.uboNames name = _; rw [h1.1]; exact hname)
      (by show ∀ o, StrMap.find (Context.pushBuffer other c).mCurrentFrameState.uboNames o = _ → _; rw [h1.1]; exact hinj)
    refine ⟨h2.1.trans h1.1, h2.2.trans ?_⟩
    show Option.map _ (Map.find (Context.pushBuffer other c).mCurrentFrameState.uboState key) = _
    rw [h1.2]
  | popOther other rest hne _ ih =>
    intro c hname hinj
    have h1 := popBuffer_find other key c
    rw [if_neg (fun h => hne (hinj other h))] at h1
    have h2 := ih (step d c (Op.popBuffer other)) (by show StrMap.find (Context.popBuffer other c).mCurrentFrameState.uboNames name = _; rw [h1.1]; exact hname)
      (by show ∀ o, StrMap.find (Context.popBuffer other c).mCurrentFrameState.uboNames o = _ → _; rw [h1.1]; exact hinj)
    refine ⟨h2.1.trans h1.1, h2.2.trans ?_⟩
    show Option.map _ (Map.find (Context.popBuffer other c).mCurrentFrameState.uboState key) = _
    rw [h1.2]
  | nest inner rest _ _ ihi ihr =>
    intro c hname hinj
    have hp := (pushBuffer_find name key c).1
    have hrun : run d c (Op.pushBuffer name :: (inner ++ Op.popBuffer name :: rest))
        = run d ((run d (c.pushBuffer name) inner).popBuffer name) rest := by
      simp only [run, List.foldl_cons, List.foldl_append, step]
    have h1 := ihi (c.pushBuffer name) (by rw [hp]; exact hname) (by rw [hp]; exact hinj)
    have h2 := pair_restores name key c (run d (c.pushBuffer name) inner) hname h1.1 h1.2
    have h3 := ihr ((run d (c.pushBuffer name) inner).popBuffer name)
      (by rw [h2.1]; exact hname) (by rw [h2.1]; exact hinj)
    rw [hrun]
    exact ⟨h3.1.trans h2.1, h3.2.trans h2.2.1⟩

/-! ## C20: a pop restores what the matching push saved -/

/-- C20: let `name` be the name of the block stored under `key` (and of no
other block), and let the calls `inner` pair and nest their pushes and pops of
`name`, with any writes, draws and other calls between them.  Then
`pushBuffer name`, `inner`, `popBuffer name` leaves the block with the bytes
and the offset it had before the push, marked dirty, and with the stack of
saved states it had before the push.  As `inner` may itself contain such
pairs, to any depth, every pop restores what the matching push saved. -/
theorem C20_push_pop_restores (d : Driver) (c : Context) (name : String) (key : Nat)
    (u : UboStack) (inner : List Op)
    (hname : c.mCurrentFrameState.uboNames.find name = some key)
    (hinj : ∀ other, c.mCurrentFrameState.uboNames.find other = some key → other = name)
    (hu : c.mCurrentFrameState.uboState.find key = some u)
    (hs : Scoped name inner) :
    ∃ v, (run d c (Op.pushBuffer name :: (inner ++ [Op.popBuffer name]))).mCurrentFrameState.uboState.find key
          = some v
      ∧ v.state.data = u.state.data
      ∧ v.state.memoryOffset = u.state.memoryOffset
      ∧ v.state.stackId = -1
      ∧ v.stateStack = u.stateStack := by
  have hp := (pushBuffer_find name key c).1
  have hrun : run d c (Op.pushBuffer name :: (inner ++ [Op.popBuffer name]))
      = (run d (c.pushBuffer name) inner).popBuffer name := by
    simp only [run, List.foldl_cons, List.foldl_append, List.foldl_nil, step]
  have h1 := scoped_keeps d name key inner hs (c.pushBuffer name)
    (by rw [hp]; exact hname) (by rw [hp]; exact hinj)
  obtain ⟨v, hv, hstate, hstack⟩ :=
    (pair_restores name key c (run d (c.pushBuffer name) inner) hname h1.1 h1.2).2.2 u hu
  rw [hrun]
  exact ⟨v, hv, by rw [hstate], by rw [hstate], by rw [hstate], hstack⟩

set_option maxRecDepth 100000 in
/-- C20, on the sample session: inside a pair for `DefaultMatrices` the model
matrix is written, a nested pair writes it again and draws, and a draw
follows; the nested pair has the bytes `9` inside and `5` after its pop, and
after the outer pop the block has the zero bytes it had before the push. -/
theorem C20_push_pop_restores_witness :
    afterBegin.mCurrentFrameState.uboState.find 11 = some matricesBlock
      ∧ ((run okDriver afterBegin (Op.pushBuffer "DefaultMatrices" :: nestedOps.take 4)
            ).mCurrentFrameState.uboState.find 11).map (fun u => u.state.data)
          = some [9, 9, 9, 9, 0, 0, 0, 0]
      ∧ ((run okDriver afterBegin (Op.pushBuffer "DefaultMatrices" :: nestedOps.take 5)
            ).mCurrentFrameState.uboState.find 11).map (fun u => u.state.data)
          = some [5, 5, 5, 5, 0, 0, 0, 0]
      ∧ ∃ v, (run okDriver afterBegin (Op.pushBuffer "DefaultMatrices"
              :: (nestedOps ++ [Op.popBuffer "DefaultMatrices"]))).mCurrentFrameState.uboState.find 11
            = some v
          ∧ v.state.data = [0, 0, 0, 0, 0, 0, 0, 0]
          ∧ v.state.memoryOffset = 0
          ∧ v.state.stackId = -1
          ∧ v.stateStack = [] :=
  ⟨by decide, by decide, by decide,
    C20_push_pop_restores okDriver afterBegin "DefaultMatrices" 11 matricesBlock nestedOps
      (by decide)
      (by
        intro other h
        have hn : afterBegin.mCurrentFrameState.uboNames = [("DefaultMatrices", 11), ("Style", 12)] := by
          decide
        rw [hn] at h
        simp only [StrMap.find] at h
        split at h
        · rename_i he
          exact he.symm
        · split at h
          · exact absurd h (by decide)
          · exact absurd h (by simp))
      (by decide)
      (Scoped.plain _ _ rfl
        (Scoped.nest [Op.setUniform "modelMatrix" [9, 9, 9, 9], Op.draw triangle] [Op.draw triangle]
          (Scoped.plain _ _ rfl (Scoped.plain _ _ rfl Scoped.done))
          (Scoped.plain _ _ rfl Scoped.done)))⟩

/-! ## C25: the size of the allocator -/

set_option maxRecDepth 100000 in
/-- C25: `setup` gives the allocator `2 << 24` bytes, which is 32 * 2^20 and
not 16 * 2^20, for every virtual frame (the number of frames taken as a 32-bit
value): twice the size the comment beside the assignment announces.  For the
two frames of the sample context the size is 67108864 bytes, not 33554432. -/
theorem C25_allocator_size (d : Driver) (c : Context) :
    (c.setup d).mAlloc.size = 2 * (16 * 2 ^ 20 * (c.mSettings.numVirtualFrames % 2 ^ 32))
      ∧ (c.setup d).mAlloc.frames = c.mSettings.numVirtualFrames % 2 ^ 32
      ∧ freshContext.mSettings.numVirtualFrames = 2
      ∧ (freshContext.setup okDriver).mAlloc.size = 67108864
      ∧ (freshContext.setup okDriver).mAlloc.size ≠ 16 * 2 ^ 20 * 2 := by
  refine ⟨?_, rfl, rfl, by decide, by decide⟩
  show (2 <<< 24) * (c.mSettings.numVirtualFrames % 2 ^ 32) = _
  rw [Nat.shiftLeft_eq]
  ring

/-! ## C26: the flag that `storeMesh` returns -/

set_option maxRecDepth 100000 in
/-- C26: `storeMesh` returns `false` for every context, every mesh and every
pair of offset vectors, whatever the allocator answers: in the sample frame,
where the last allocation is granted, as well as in a frame whose slot is
full, where it is refused. -/
theorem C26_storeMesh_returns_false (c : Context) (mesh : Mesh) (vo io : List Nat) :
    (c.storeMesh mesh vo io).2.2.2 = false
      ∧ lastAllocation ((afterBegin.storeMesh triangle [] []).1.trace.drop afterBegin.trace.length)
          = some (true, 512)
      ∧ (afterBegin.storeMesh triangle [] []).2 = ([0, 256, 256, 512], [512], false)
      ∧ lastAllocation ((exhausted.storeMesh triangle [] []).1.trace.drop exhausted.trace.length)
          = some (false, 0)
      ∧ (exhausted.storeMesh triangle [] []).2.2 = ([], false) := by
  refine ⟨?_, by decide, by decide, by decide, by decide⟩
  unfold Context.storeMesh
  simp only
  split <;> rfl

/-! ## The layout keys after `bindPipeline` -/

theorem getD_resize {α : Type} (l : List α) (n i : Nat) (v : α) (h : i < n) :
    (resize l n v).getD i v = l.getD i v := by
  rw [List.getD_eq_getElem?_getD, getElem?_resize, if_pos h]
  rfl

/-- The loop of `bindPipeline` over the first `m` set indices: the lengths
stay, the binding tables stay, and the layout keys of the indices visited are
the ones of the new shader. -/
theorem invalidate_keys (layouts : List Nat) (pls : PipelineLayoutState) (m : Nat) :
    ((List.range m).foldl (Context.invalidateSet layouts) (pls, false)).1.setLayoutKeys.length
        = pls.setLayoutKeys.length
      ∧ ((List.range m).foldl (Context.invalidateSet layouts) (pls, false)).1.vkDescriptorSets.length
        = pls.vkDescriptorSets.length
      ∧ ((List.range m).foldl (Context.invalidateSet layouts) (pls, false)).1.bindingState
        = pls.bindingState
      ∧ ∀ i, i < m → i < pls.setLayoutKeys.length →
          ((List.range m).foldl (Context.invalidateSet layouts) (pls, false)).1.setLayoutKeys[i]?
            = some (layouts.getD i 0) := by
  induction m with
  | zero => exact ⟨rfl, rfl, rfl, fun i hi => absurd hi (Nat.not_lt_zero i)⟩
  | succ m ih =>
    obtain ⟨h1, h2, h3, h4⟩ := ih
    rw [List.range_succ, List.foldl_append]
    generalize (List.range m).foldl (Context.invalidateSet layouts) (pls, false) = r at h1 h2 h3 h4
    simp only [List.foldl_cons, List.foldl_nil]
    unfold Context.invalidateSet
    split
    · refine ⟨by simp only [List.length_set, h1], by simp only [List.length_set, h2], h3, ?_⟩
      intro i hi hlen
      simp only
      rw [List.getElem?_set]
      by_cases him : m = i
      · rw [if_pos him, if_pos (by rw [h1, him]; exact hlen), him]
      · rw [if_neg him]
        exact h4 i (by omega) hlen
    · rename_i hno
      refine ⟨h1, h2, h3, ?_⟩
      intro i hi hlen
      by_cases him : i = m
      · have heq : r.1.setLayoutKeys.getD m 0 = layouts.getD m 0 := by
          by_contra hne
          exact hno (Or.inl hne)
        rw [him, ← heq, List.getD_eq_getElem?_getD]
        have hlt : m < r.1.setLayoutKeys.length := by rw [h1, ← him]; exact hlen
        rw [List.getElem?_eq_getElem hlt]
        rfl
      · exact h4 i (by omega) hlen

theorem rebindLayouts_keys (layouts : List Nat) (pls : PipelineLayoutState) :
    (Context.rebindLayouts layouts pls).setLayoutKeys = layouts
      ∧ (Context.rebindLayouts layouts pls).vkDescriptorSets.length = layouts.length
      ∧ (Context.rebindLayouts layouts pls).bindingState.length = layouts.length := by
  unfold Context.rebindLayouts
  simp only
  obtain ⟨h1, h2, h3, h4⟩ := invalidate_keys layouts
    { pls with
      setLayoutKeys := resize pls.setLayoutKeys layouts.length 0
      vkDescriptorSets := resize pls.vkDescriptorSets layouts.length 0
      bindingState := resize pls.bindingState layouts.length [] } layouts.length
  simp only [length_resize] at h1 h2 h4
  refine ⟨?_, h2, by rw [h3, length_resize]⟩
  apply List.ext_getElem?
  intro i
  by_cases hi : i < layouts.length
  · rw [h4 i hi hi, List.getD_eq_getElem?_getD, List.getElem?_eq_getElem hi]
    rfl
  · rw [List.getElem?_eq_none (by rw [h1]; omega), List.getElem?_eq_none (by omega)]

/-! ## C27: the layout state mirrors the layouts of the shader -/

/-- C27: after a `bindPipeline` that ran on a dirty state whose shader is
`sh`, `setLayoutKeys` is the list of layout keys of `sh`, and
`vkDescriptorSets` and `bindingState` have the length of that list. -/
theorem C27_layout_state_mirrors_shader (d : Driver) (c : Context) (sh : Shader)
    (hd : c.mCurrentGraphicsPipelineState.mDirty = true)
    (hs : c.mCurrentGraphicsPipelineState.mShader = some sh) :
    (c.bindPipeline d).mPipelineLayoutState.setLayoutKeys = sh.setLayoutKeys
      ∧ (c.bindPipeline d).mPipelineLayoutState.vkDescriptorSets.length = sh.setLayoutKeys.length
      ∧ (c.bindPipeline d).mPipelineLayoutState.bindingState.length = sh.setLayoutKeys.length := by
  rw [bindPipeline_layoutState d c sh hd hs]
  exact rebindLayouts_keys sh.setLayoutKeys c.mPipelineLayoutState

set_option maxRecDepth 100000 in
/-- C27, on the sample session: binding shader B over the layouts `[101]` of
shader A leaves the keys `[101, 102]`, two set handles and two binding tables. -/
theorem C27_layout_state_mirrors_shader_witness :
    beforeSecondBind.mPipelineLayoutState.setLayoutKeys = [101]
      ∧ (Context.bindPipeline okDriver beforeSecondBind).mPipelineLayoutState.setLayoutKeys
          = shaderB.setLayoutKeys
      ∧ (Context.bindPipeline okDriver beforeSecondBind).mPipelineLayoutState.vkDescriptorSets.length
          = shaderB.setLayoutKeys.length
      ∧ (Context.bindPipeline okDriver beforeSecondBind).mPipelineLayoutState.bindingState.length
          = shaderB.setLayoutKeys.length
      ∧ (Context.bindPipeline okDriver beforeSecondBind).mPipelineLayoutState.vkDescriptorSets
          = [2008, 0] :=
  ⟨by decide,
    (C27_layout_state_mirrors_shader okDriver beforeSecondBind shaderB (by decide) (by decide)).1,
    (C27_layout_state_mirrors_shader okDriver beforeSecondBind shaderB (by decide) (by decide)).2.1,
    (C27_layout_state_mirrors_shader okDriver beforeSecondBind shaderB (by decide) (by decide)).2.2,
    by decide⟩

/-! ## C23: set indices added by a shader with more layouts -/

/-- The set indices that `bindPipeline` marks dirty: an index is marked
exactly when the old layout key of that index or of an index before it differs
from the new one, where a key beyond the old length reads as `0`. -/
theorem bindPipeline_marks (d : Driver) (c : Context) (sh : Shader)
    (hd : c.mCurrentGraphicsPipelineState.mDirty = true)
    (hs : c.mCurrentGraphicsPipelineState.mShader = some sh) :
    ∃ app, (c.bindPipeline d).mPipelineLayoutState.dirtySetIndices
          = c.mPipelineLayoutState.dirtySetIndices ++ app
      ∧ ∀ i, i < sh.setLayoutKeys.length →
          (i ∈ app ↔ ∃ j, j ≤ i
            ∧ c.mPipelineLayoutState.setLayoutKeys.getD j 0 ≠ sh.setLayoutKeys.getD j 0) := by
  rw [bindPipeline_layoutState d c sh hd hs]
  unfold Context.rebindLayouts
  simp only
  by_cases hex : ∃ k, k < sh.setLayoutKeys.length
      ∧ c.mPipelineLayoutState.setLayoutKeys.getD k 0 ≠ sh.setLayoutKeys.getD k 0
  · have hk := Nat.find_spec hex
    have hmin : ∀ j, j < Nat.find hex →
        c.mPipelineLayoutState.setLayoutKeys.getD j 0 = sh.setLayoutKeys.getD j 0 := by
      intro j hj
      by_contra hne
      exact Nat.find_min hex hj ⟨by omega, hne⟩
    generalize Nat.find hex = k at hk hmin
    obtain ⟨t, ht⟩ : ∃ t, sh.setLayoutKeys.length = k + 1 + t :=
      ⟨sh.setLayoutKeys.length - (k + 1), by omega⟩
    obtain ⟨_, h2, _⟩ := invalidate_from sh.setLayoutKeys
      { c.mPipelineLayoutState with
        setLayoutKeys := resize c.mPipelineLayoutState.setLayoutKeys sh.setLayoutKeys.length 0
        vkDescriptorSets := resize c.mPipelineLayoutState.vkDescriptorSets sh.setLayoutKeys.length 0
        bindingState := resize c.mPipelineLayoutState.bindingState sh.setLayoutKeys.length [] }
      k (fun j hj => by
        show (resize _ _ 0).getD j 0 = _
        rw [getD_resize _ _ _ _ (by omega)]
        exact hmin j hj)
      (by
        show (resize _ _ 0).getD k 0 ≠ _
        rw [getD_resize _ _ _ _ hk.1]
        exact hk.2) t
    rw [← ht] at h2
    refine ⟨_, h2, fun i hi => ?_⟩
    rw [List.mem_range'_1]
    constructor
    · intro h
      exact ⟨k, h.1, hk.2⟩
    · rintro ⟨j, hj, hne⟩
      refine ⟨?_, by omega⟩
      by_contra hlt
      exact hne (hmin j (by omega))
  · have hall : ∀ j, j < sh.setLayoutKeys.length →
        (resize c.mPipelineLayoutState.setLayoutKeys sh.setLayoutKeys.length 0).getD j 0
          = sh.setLayoutKeys.getD j 0 := by
      intro j hj
      rw [getD_resize _ _ _ _ hj]
      by_contra hne
      exact hex ⟨j, hj, hne⟩
    rw [invalidate_agreeing sh.setLayoutKeys _ sh.setLayoutKeys.length hall]
    refine ⟨[], (List.append_nil _).symm, fun i hi => ?_⟩
    constructor
    · intro h
      exact absurd h (List.not_mem_nil i)
    · rintro ⟨j, hj, hne⟩
      exact absurd ⟨j, by omega, hne⟩ hex

set_option maxRecDepth 100000 in
/-- C23, as stated, fails: the layouts `[101]` are bound and the state is
dirty with a shader whose layouts are `[101, 0]`; `bindPipeline` adds the set
index `1` with the key `0` and does not mark it dirty, so that no set is ever
allocated for it and the draw binds the null handle as the second set. -/
theorem C23_zero_key_counterexample :
    beforeZeroBind.mPipelineLayoutState.setLayoutKeys = [101]
      ∧ beforeZeroBind.mCurrentGraphicsPipelineState.mDirty = true
      ∧ beforeZeroBind.mCurrentGraphicsPipelineState.mShader = some shaderZero
      ∧ (Context.bindPipeline okDriver beforeZeroBind).mPipelineLayoutState.setLayoutKeys = [101, 0]
      ∧ (Context.bindPipeline okDriver beforeZeroBind).mPipelineLayoutState.dirtySetIndices = []
      ∧ (Context.draw okDriver triangle beforeZeroBind).mPipelineLayoutState.vkDescriptorSets
          = [2008, 0]
      ∧ allocateSetCount 0 (Context.draw okDriver triangle beforeZeroBind).trace = 0 := by
  decide

/-- C23, amended: let the state be dirty with the shader `sh` and let `i` be
a set index that `sh` adds (not below the old number of layout keys).  Then
`bindPipeline` marks `i` dirty exactly when a layout key at or before `i`
differs from the old one, an added index counting as holding the old key `0`.
So `i` is marked when its own key is not `0`; and `i` is not marked when all
old keys agree with the keys of `sh` and the added keys up to `i` are `0`. -/
theorem C23_added_sets_marked (d : Driver) (c : Context) (sh : Shader) (i : Nat)
    (hd : c.mCurrentGraphicsPipelineState.mDirty = true)
    (hs : c.mCurrentGraphicsPipelineState.mShader = some sh)
    (hnew : c.mPipelineLayoutState.setLayoutKeys.length ≤ i)
    (hi : i < sh.setLayoutKeys.length) :
    (i ∈ (c.bindPipeline d).mPipelineLayoutState.dirtySetIndices.drop
          c.mPipelineLayoutState.dirtySetIndices.length
        ↔ ∃ j, j ≤ i
          ∧ c.mPipelineLayoutState.setLayoutKeys.getD j 0 ≠ sh.setLayoutKeys.getD j 0)
      ∧ (sh.setLayoutKeys.getD i 0 ≠ 0 →
          i ∈ (c.bindPipeline d).mPipelineLayoutState.dirtySetIndices)
      ∧ ((∀ j, j < c.mPipelineLayoutState.setLayoutKeys.length →
            c.mPipelineLayoutState.setLayoutKeys.getD j 0 = sh.setLayoutKeys.getD j 0) →
          (∀ j, c.mPipelineLayoutState.setLayoutKeys.length ≤ j → j ≤ i →
            sh.setLayoutKeys.getD j 0 = 0) →
          i ∉ (c.bindPipeline d).mPipelineLayoutState.dirtySetIndices.drop
            c.mPipelineLayoutState.dirtySetIndices.length) := by
  obtain ⟨app, happ, hmem⟩ := bindPipeline_marks d c sh hd hs
  have hdrop : (c.bindPipeline d).mPipelineLayoutState.dirtySetIndices.drop
      c.mPipelineLayoutState.dirtySetIndices.length = app := by
    rw [happ]
    exact List.drop_left _ _
  have hzero : ∀ j, c.mPipelineLayoutState.setLayoutKeys.length ≤ j →
      c.mPipelineLayoutState.setLayoutKeys.getD j 0 = 0 := by
    intro j hj
    rw [List.getD_eq_getElem?_getD, List.getElem?_eq_none hj]
    rfl
  rw [hdrop]
  refine ⟨hmem i hi, fun hne => ?_, fun hold hadd hin => ?_⟩
  · rw [happ]
    apply List.mem_append_right
    exact (hmem i hi).mpr ⟨i, Nat.le_refl i, by rw [hzero i hnew]; exact fun h => hne h.symm⟩
  · obtain ⟨j, hj, hne⟩ := (hmem i hi).mp hin
    by_cases hjl : j < c.mPipelineLayoutState.setLayoutKeys.length
    · exact hne (hold j hjl)
    · rw [hzero j (by omega), hadd j (by omega) hj] at hne
      exact hne rfl

set_option maxRecDepth 100000 in
/-- C23, amended, on the sample session: shader B adds the set index `1` with
the key `102`, which is marked dirty; the shader with the layouts `[101, 0]`
adds the index `1` with the key `0`, which is not. -/
theorem C23_added_sets_marked_witness :
    1 ∈ (Context.bindPipeline okDriver beforeSecondBind).mPipelineLayoutState.dirtySetIndices
      ∧ 1 ∉ (Context.bindPipeline okDriver beforeZeroBind).mPipelineLayoutState.dirtySetIndices.drop
          beforeZeroBind.mPipelineLayoutState.dirtySetIndices.length :=
  ⟨(C23_added_sets_marked okDriver beforeSecondBind shaderB 1 (by decide) (by decide)
      (by decide) (by decide)).2.1 (by decide),
    (C23_added_sets_marked okDriver beforeZeroBind shaderZero 1 (by decide) (by decide)
      (by decide) (by decide)).2.2
      (by
        intro j hj
        have hl : beforeZeroBind.mPipelineLayoutState.setLayoutKeys = [101] := by decide
        rw [hl] at hj ⊢
        have hj0 : j = 0 := by simpa using hj
        subst hj0
        decide)
      (by
        intro j hj hj1
        have hl : beforeZeroBind.mPipelineLayoutState.setLayoutKeys = [101] := by decide
        rw [hl] at hj
        have hj1' : j = 1 := by
          simp only [List.length_singleton] at hj
          omega
        subst hj1'
        decide)⟩

/-! ## C21: a failed allocation of a descriptor set -/

theorem updateDescriptorSetState_setCache (d : Driver) (k : Nat) (c : Context)
    (hdirty : c.mPipelineLayoutState.dirtySetIndices ≠ []) :
    setCacheObs k (c.updateDescriptorSetState d)
      = setCacheObs k (c.mPipelineLayoutState.dirtySetIndices.foldl (Context.resolveSet d) (c, [])).1 := by
  have hq := isAllocateSet_driverCall k
  have hdrop : ∀ x : Context,
      setCacheObs k
          { x with mPipelineLayoutState := { x.mPipelineLayoutState with dirtySetIndices := [] } }
        = setCacheObs k x := fun _ => rfl
  unfold Context.updateDescriptorSetState
  rw [if_neg hdirty]
  simp only
  rw [hdrop]
  split
  · apply setCacheObs_of_cacheObs
    rw [foldl_keeps (cacheObs (Event.isAllocateSet k)) _
      (fun a b => cacheObs_cacheBindingState _ hq a b), cacheObs_updateDescriptorSets _ hq]
  · rfl

theorem resolveSet_allocated (d : Driver) (acc : Context × List Nat) (j x : Nat)
    (hx : x ∈ acc.2) : x ∈ (Context.resolveSet d acc j).2 := by
  unfold Context.resolveSet
  simp only
  split
  · exact hx
  · exact List.mem_append_left _ hx

theorem resolveSets_allocated (d : Driver) (l : List Nat) (acc : Context × List Nat) (x : Nat)
    (hx : x ∈ acc.2) : x ∈ (l.foldl (Context.resolveSet d) acc).2 := by
  induction l generalizing acc with
  | nil => exact hx
  | cons j l ih => exact ih _ (resolveSet_allocated d acc j x hx)

/-- C21: let the loop of `updateDescriptorSetState` reach the dirty set index
`i` in the state `acc`, with the layout key `key` of `i` not in the cache, and
let the driver refuse the allocation.  Then the turn makes the one call,
logs a warning and goes on: the handle left in slot `i` is stored in
`descriptorSetCache` under `key`, and `i` is among the indices handed to
`updateDescriptorSets`.  When the method returns the entry is in the cache,
with one allocation counted for `key`; and along all calls that follow in the
frame (no `begin`) the entry stays and no further allocation is made for
`key`. -/
theorem C21_failed_allocation_is_cached (d : Driver) (c : Context) (pre post : List Nat)
    (i key : Nat) (acc : Context × List Nat) (ops : List Op)
    (hsplit : c.mPipelineLayoutState.dirtySetIndices = pre ++ i :: post)
    (hacc : pre.foldl (Context.resolveSet d) (c, []) = acc)
    (hkey : acc.1.mPipelineLayoutState.setLayoutKeys.getD i 0 = key)
    (hmiss : acc.1.mPipelineLayoutState.descriptorSetCache.find key = none)
    (hfail : (d.vkAllocateDescriptorSets acc.1.trace.length
      (acc.1.mDescriptorPool.getD acc.1.mFrameIndex 0)
      (acc.1.mShaderManager.vkDescriptorSetLayout key)).1 = false)
    (hframe : ∀ op ∈ ops, op.isBegin = false) :
    (Context.resolveSet d acc i).1.trace
        = acc.1.trace
          ++ [Event.allocateDescriptorSets (acc.1.mDescriptorPool.getD acc.1.mFrameIndex 0) key false
                (d.vkAllocateDescriptorSets acc.1.trace.length
                  (acc.1.mDescriptorPool.getD acc.1.mFrameIndex 0)
                  (acc.1.mShaderManager.vkDescriptorSetLayout key)).2,
              Event.logWarning "Failed to allocate descriptors"]
      ∧ (Context.resolveSet d acc i).1.mPipelineLayoutState.vkDescriptorSets
        = acc.1.mPipelineLayoutState.vkDescriptorSets.set i
            (d.vkAllocateDescriptorSets acc.1.trace.length
              (acc.1.mDescriptorPool.getD acc.1.mFrameIndex 0)
              (acc.1.mShaderManager.vkDescriptorSetLayout key)).2
      ∧ (Context.resolveSet d acc i).1.mPipelineLayoutState.descriptorSetCache.find key
        = some ((Context.resolveSet d acc i).1.mPipelineLayoutState.vkDescriptorSets.getD i 0)
      ∧ (Context.resolveSet d acc i).2 = acc.2 ++ [i]
      ∧ i ∈ (c.mPipelineLayoutState.dirtySetIndices.foldl (Context.resolveSet d) (c, [])).2
      ∧ (c.updateDescriptorSetState d).mPipelineLayoutState.descriptorSetCache.find key
        = some ((Context.resolveSet d acc i).1.mPipelineLayoutState.vkDescriptorSets.getD i 0)
      ∧ allocateSetCount key (c.updateDescriptorSetState d).trace
        = allocateSetCount key acc.1.trace + 1
      ∧ (run d (c.updateDescriptorSetState d) ops).mPipelineLayoutState.descriptorSetCache.find key
        = some ((Context.resolveSet d acc i).1.mPipelineLayoutState.vkDescriptorSets.getD i 0)
      ∧ allocateSetCount key (run d (c.updateDescriptorSetState d) ops).trace
        = allocateSetCount key (c.updateDescriptorSetState d).trace := by
  subst hkey
  obtain ⟨m1, m2, m3, m4⟩ := resolveSet_miss d acc i hmiss
  have hfind : (Context.resolveSet d acc i).1.mPipelineLayoutState.descriptorSetCache.find
      (acc.1.mPipelineLayoutState.setLayoutKeys.getD i 0)
      = some ((Context.resolveSet d acc i).1.mPipelineLayoutState.vkDescriptorSets.getD i 0) := by
    rw [m2]
    exact Map.find_assign_self _ _ _
  have hfold : c.mPipelineLayoutState.dirtySetIndices.foldl (Context.resolveSet d) (c, [])
      = post.foldl (Context.resolveSet d) (Context.resolveSet d acc i) := by
    rw [hsplit, List.foldl_append, List.foldl_cons, hacc]
  have hpost := CacheStep.foldl (acc.1.mPipelineLayoutState.setLayoutKeys.getD i 0)
    (fun a : Context × List Nat =>
      setCacheObs (acc.1.mPipelineLayoutState.setLayoutKeys.getD i 0) a.1)
    (Context.resolveSet d) (fun a b => resolveSet_step d _ a b) post (Context.resolveSet d acc i)
  have hend := hpost.1 _ hfind
  have hdirty : c.mPipelineLayoutState.dirtySetIndices ≠ [] := by
    rw [hsplit]
    simp
  have hobs := updateDescriptorSetState_setCache d
    (acc.1.mPipelineLayoutState.setLayoutKeys.getD i 0) c hdirty
  rw [hfold] at hobs
  simp only [setCacheObs, Prod.mk.injEq] at hobs hend
  have hrun := (run_setCache d ops (c.updateDescriptorSetState d)
    (acc.1.mPipelineLayoutState.setLayoutKeys.getD i 0) hframe).1 _ (hobs.1 ▸ hend.1)
  simp only [setCacheObs] at hrun
  refine ⟨?_, m1, hfind, m4, ?_, ?_, ?_, hrun.1, hrun.2⟩
  · simp only [Context.resolveSet, hmiss, hfail, Bool.false_eq_true, if_false, List.append_assoc,
      List.singleton_append]
  · rw [hfold]
    apply resolveSets_allocated
    rw [m4]
    exact List.mem_append_right _ (List.mem_singleton_self i)
  · rw [hobs.1]
    exact hend.1
  · rw [hobs.2, hend.2, m3, if_pos rfl]

set_option maxRecDepth 100000 in
/-- C21, on the sample session with a driver whose pools are exhausted: the
allocation for the layout `101` fails once, the null handle is cached, and
the three draws of the frame make no second attempt for `101`. -/
theorem C21_failed_allocation_is_cached_witness :
    poolFullBound.mPipelineLayoutState.dirtySetIndices = [] ++ 0 :: []
      ∧ (poolFullBound.updateDescriptorSetState poolFullDriver).mPipelineLayoutState.descriptorSetCache.find 101
          = some 0
      ∧ (poolFullBound.updateDescriptorSetState poolFullDriver).trace.drop poolFullBound.trace.length
          = [Event.allocateDescriptorSets 3001 101 false 0,
              Event.logWarning "Failed to allocate descriptors",
              Event.updateDescriptorSets
                [{ dstSet := 0, dstBinding := 0, count := 1, type := DescriptorType.uniformBufferDynamic
                   bufferInfo := some (0, 8) },
                  { dstSet := 0, dstBinding := 1, count := 1, type := DescriptorType.uniformBufferDynamic
                    bufferInfo := some (0, 4) }]]
      ∧ allocateSetCount 101
            (run poolFullDriver (poolFullBound.updateDescriptorSetState poolFullDriver)
              (sessionOps.drop 5)).trace
          = allocateSetCount 101 (poolFullBound.updateDescriptorSetState poolFullDriver).trace
      ∧ allocateSetCount 101
            (run poolFullDriver (poolFullBound.updateDescriptorSetState poolFullDriver)
              (sessionOps.drop 5)).trace = 1 :=
  ⟨by decide, by decide, by decide,
    (C21_failed_allocation_is_cached poolFullDriver poolFullBound [] [] 0 101 (poolFullBound, [])
      (sessionOps.drop 5) (by decide) rfl (by decide) (by decide) (by decide) (by decide)).2.2.2.2.2.2.2.2,
    by decide⟩

/-! ## C22: a dirty block referenced by several bindings -/

/-- C22: let the block `u`, stored under the uniform hash `h`, be dirty, with
its counter at least `-1`, and let the bindings `b` and, later, `b'` of the
binding tables both reference it, `b` being the first that does.  When the
flush reaches `b` (in the state `acc`) it makes one allocation and one copy
and appends the offset it got; when it reaches `b'` it leaves the whole
context untouched (no allocation, no copy) and appends the same offset.  After
the flush the block is the one uploaded at `b`. -/
theorem C22_shared_block_uploaded_once (d : Driver) (c : Context) (h : Nat) (u : UboStack)
    (pre mid post : List (Nat × Nat)) (b b' : Nat × Nat) (acc : Context × List Nat)
    (hfind : c.mCurrentFrameState.uboState.find h = some u)
    (hdirty : u.state.stackId = -1)
    (hid : -1 ≤ u.lastSavedStackId)
    (hsplit : (c.updateDescriptorSetState d).boundBindings = pre ++ b :: (mid ++ b' :: post))
    (hpre : ∀ x ∈ pre, x.2 ≠ h) (hb : b.2 = h) (hb' : b'.2 = h)
    (hacc : pre.foldl Context.flushBinding (c.updateDescriptorSetState d, []) = acc) :
    (Context.flushBinding acc b).1.trace
        = acc.1.trace
          ++ [Event.allocate u.struct_size acc.1.mFrameIndex
                (acc.1.mAlloc.allocate u.struct_size 0 0 acc.1.mFrameIndex).success
                (acc.1.mAlloc.allocate u.struct_size 0 0 acc.1.mFrameIndex).offset]
          ++ (if (acc.1.mAlloc.allocate u.struct_size 0 0 acc.1.mFrameIndex).success then []
              else [Event.logError "out of buffer space."])
          ++ [Event.memcpy (acc.1.mAlloc.allocate u.struct_size 0 0 acc.1.mFrameIndex).pData
                u.state.data u.struct_size]
      ∧ (Context.flushBinding acc b).2
        = acc.2 ++ [(acc.1.mAlloc.allocate u.struct_size 0 0 acc.1.mFrameIndex).offset % 2 ^ 32]
      ∧ Context.flushBinding (mid.foldl Context.flushBinding (Context.flushBinding acc b)) b'
        = ((mid.foldl Context.flushBinding (Context.flushBinding acc b)).1,
            (mid.foldl Context.flushBinding (Context.flushBinding acc b)).2
              ++ [(acc.1.mAlloc.allocate u.struct_size 0 0 acc.1.mFrameIndex).offset % 2 ^ 32])
      ∧ (c.flushUniformBufferState d).mCurrentFrameState.uboState.find h
        = some (u.uploaded (acc.1.mAlloc.allocate u.struct_size 0 0 acc.1.mFrameIndex).offset) := by
  obtain ⟨_, h2, _⟩ := flushUniformBufferState_eq d c
  have hobs := flushObs_updateDescriptorSetState d c
  simp only [flushObs, Prod.mk.injEq] at hobs
  have hstart : acc.1.mCurrentFrameState.uboState.find b.2 = some u := by
    rw [hb, ← hacc, flush_other _ _ h hpre, hobs.1]
    exact hfind
  obtain ⟨d1, d2, _, d4⟩ := flushBinding_dirty acc b u hstart hdirty
  have hclean : (u.uploaded
      (acc.1.mAlloc.allocate u.struct_size 0 0 acc.1.mFrameIndex).offset).state.stackId ≠ -1 := by
    simp only [UboStack.uploaded]
    omega
  have hup : (Context.flushBinding acc b).1.mCurrentFrameState.uboState.find h
      = some (u.uploaded (acc.1.mAlloc.allocate u.struct_size 0 0 acc.1.mFrameIndex).offset) := by
    rw [d1, hb]
    exact Map.find_assign_self _ _ _
  have hmid := flush_settled mid (Context.flushBinding acc b) h _ hup hclean
  refine ⟨d4, d2, ?_, ?_⟩
  · rw [flushBinding_clean _ b' _ (by rw [hb']; exact hmid) hclean]
    rfl
  · rw [h2, hsplit, List.foldl_append, List.foldl_cons, hacc]
    exact flush_settled _ _ h _ hup hclean

set_option maxRecDepth 100000 in
/-- C22, on a shader whose two sets both hold the block `DefaultMatrices`:
the flush visits the bindings `(0, 11)`, `(1, 12)`, `(0, 11)`, makes two
allocations and two copies, one for each block, and hands out the offset `0`
for both references of the block `11`. -/
theorem C22_shared_block_uploaded_once_witness :
    (sharedBound.updateDescriptorSetState okDriver).boundBindings
        = [] ++ (0, 11) :: ([(1, 12)] ++ (0, 11) :: [])
      ∧ (sharedBound.flushUniformBufferState okDriver).mCurrentFrameState.bindingOffsets
          = [0, 256, 0]
      ∧ ((sharedBound.flushUniformBufferState okDriver).trace.filter
            (fun e => decide (noteAllocation none e ≠ none))).length = 2
      ∧ (sharedBound.flushUniformBufferState okDriver).mCurrentFrameState.uboState.find 11
          = some (matricesBlock.uploaded
              ((sharedBound.updateDescriptorSetState okDriver).mAlloc.allocate 8 0 0 0).offset) :=
  ⟨by decide, by decide, by decide,
    (C22_shared_block_uploaded_once okDriver sharedBound 11 matricesBlock [] [(1, 12)] []
      (0, 11) (0, 11) (sharedBound.updateDescriptorSetState okDriver, [])
      (by decide) (by decide) (by decide) (by decide) (by decide) (by decide) (by decide) rfl).2.2.2⟩

/-! ## C24: one descriptor pool for every virtual frame -/

theorem setupDescriptorPool_pools (d : Driver) (c : Context) :
    (c.mDescriptorPool ≠ [] → (c.setupDescriptorPool d).mDescriptorPool = c.mDescriptorPool)
      ∧ (c.mDescriptorPool = [] →
          (c.setupDescriptorPool d).mDescriptorPool.length = c.mSettings.numVirtualFrames) := by
  unfold Context.setupDescriptorPool
  constructor
  · intro h
    rw [if_pos h]
  · intro h
    rw [if_neg (by rw [h]; exact fun hne => hne rfl)]
    simp only [List.length_map, List.length_range]

theorem begin_pools (d : Driver) (f : Nat) (c : Context) :
    (c.begin d f).mFrameIndex = f
      ∧ (c.mCurrentFrameState.initialised = true →
          (c.begin d f).mDescriptorPool = c.mDescriptorPool)
      ∧ (c.mCurrentFrameState.initialised = false →
          (c.begin d f).mDescriptorPool
            = (Context.setupDescriptorPool d
                (Context.emit { c with mFrameIndex := f, mAlloc := c.mAlloc.free f }
                  Event.createVkDescriptorSetLayouts)).mDescriptorPool) := by
  unfold Context.begin
  simp only [Context.emit]
  refine ⟨?_, fun h => ?_, fun h => ?_⟩
  · split
    · unfold Context.initialiseFrameState Context.setupDescriptorPool
      simp only
      split <;> rfl
    · rfl
  · rw [if_neg (by rw [h]; decide)]
  · rw [if_pos h]
    rfl

theorem begin_pool_count (d : Driver) (f : Nat) (c : Context)
    (hstart : (c.mDescriptorPool = [] ∧ c.mCurrentFrameState.initialised = false)
      ∨ c.mDescriptorPool.length = c.mSettings.numVirtualFrames) :
    (c.begin d f).mDescriptorPool.length = c.mSettings.numVirtualFrames := by
  obtain ⟨_, h2, h3⟩ := begin_pools d f c
  cases hi : c.mCurrentFrameState.initialised with
  | true =>
    rw [h2 hi]
    rcases hstart with ⟨_, h⟩ | h
    · rw [hi] at h
      exact absurd h (by decide)
    · exact h
  | false =>
    rw [h3 hi]
    obtain ⟨p1, p2⟩ := setupDescriptorPool_pools d
      (Context.emit { c with mFrameIndex := f, mAlloc := c.mAlloc.free f }
        Event.createVkDescriptorSetLayouts)
    by_cases hp : c.mDescriptorPool = []
    · exact p2 hp
    · rw [p1 hp]
      rcases hstart with ⟨h, _⟩ | h
      · exact absurd h hp
      · exact h

theorem frameIndex_allocateAndCopy (c : Context) (n : Nat) (p : Handle) (o : Nat)
    (src : List Nat) : (c.allocateAndCopy n p o src).1.mFrameIndex = c.mFrameIndex := by
  unfold Context.allocateAndCopy
  simp only
  split <;> rfl

theorem frameIndex_emit (c : Context) (e : Event) : (c.emit e).mFrameIndex = c.mFrameIndex := rfl

theorem frameIndex_allocate (c : Context) (n : Nat) (p : Handle) (o : Nat) :
    (c.allocate n p o).1.mFrameIndex = c.mFrameIndex := rfl

theorem frameIndex_storeMesh (mesh : Mesh) (vo io : List Nat) (c : Context) :
    (c.storeMesh mesh vo io).1.mFrameIndex = c.mFrameIndex := by
  unfold Context.storeMesh
  simp only
  split
  · rw [frameIndex_emit, frameIndex_allocate, frameIndex_allocateAndCopy,
      frameIndex_allocateAndCopy, frameIndex_allocateAndCopy, frameIndex_allocateAndCopy]
  · rw [frameIndex_allocate, frameIndex_allocateAndCopy,
      frameIndex_allocateAndCopy, frameIndex_allocateAndCopy, frameIndex_allocateAndCopy]

theorem frameIndex_withUbo (key : Nat) (f : UboStack → UboStack) (c : Context) :
    (c.withUbo key f).mFrameIndex = c.mFrameIndex := by
  unfold Context.withUbo
  split <;> rfl

theorem frameIndex_flushUniformBufferState (d : Driver) (c : Context) :
    (c.flushUniformBufferState d).mFrameIndex = c.mFrameIndex := by
  have hobs := flushObs_updateDescriptorSetState d c
  simp only [flushObs, Prod.mk.injEq] at hobs
  unfold Context.flushUniformBufferState
  simp only [foldl_flushTable]
  rw [(flush_layoutState _ _).2]
  exact hobs.2.2

theorem frameIndex_draw (d : Driver) (mesh : Mesh) (c : Context) :
    (c.draw d mesh).mFrameIndex = c.mFrameIndex := by
  have h : (c.draw d mesh).mFrameIndex
      = ((c.bindPipeline d).flushUniformBufferState d).mFrameIndex := by
    unfold Context.draw
    simp only
    split
    · rw [frameIndex_emit, frameIndex_emit, frameIndex_storeMesh]
      rfl
    · rw [frameIndex_emit, frameIndex_emit, frameIndex_emit, frameIndex_storeMesh]
      rfl
  rw [h, frameIndex_flushUniformBufferState]
  exact (bindPipeline_frame d c).2.2.2

/-- The index of the frame across one call other than `begin`. -/
theorem frameIndex_step (d : Driver) (c : Context) (op : Op) (hop : op.isBegin = false) :
    (step d c op).mFrameIndex = c.mFrameIndex := by
  cases op with
  | begin f => exact absurd hop (by simp [Op.isBegin])
  | reset => rfl
  | setup => rfl
  | addShader s =>
    simp only [step, Context.addShader]
    split <;> rfl
  | endFrame => rfl
  | setShader s => rfl
  | setRenderPass r => rfl
  | setPolyMode m => rfl
  | pushBuffer n =>
    simp only [step, Context.pushBuffer]
    split
    · exact frameIndex_withUbo _ _ _
    · rfl
  | popBuffer n =>
    simp only [step, Context.popBuffer]
    split
    · exact frameIndex_withUbo _ _ _
    · rfl
  | setUniform n b =>
    simp only [step, Context.setUniform]
    split
    · rfl
    · exact frameIndex_withUbo _ _ _
  | debugSetTexture n t => rfl
  | bindPipeline => exact (bindPipeline_frame d c).2.2.2
  | updateDescriptorSetState =>
    have hobs := flushObs_updateDescriptorSetState d c
    simp only [flushObs, Prod.mk.injEq] at hobs
    exact hobs.2.2
  | flushUniformBufferState => exact frameIndex_flushUniformBufferState d c
  | bindDescriptorSets => rfl
  | storeMesh mesh => exact frameIndex_storeMesh _ _ _ _
  | draw mesh => exact frameIndex_draw d mesh c

/-- Once the context is initialised, calls other than `reset` whose frames
are below `n` keep the pools and keep the index of the frame below `n`. -/
theorem run_pools (d : Driver) (n : Nat) (ops : List Op) (c : Context)
    (hinit : c.mCurrentFrameState.initialised = true)
    (hframe : c.mFrameIndex < n)
    (hops : ∀ op ∈ ops, op.isReset = false ∧ op.frameBelow n = true) :
    (run d c ops).mDescriptorPool = c.mDescriptorPool ∧ (run d c ops).mFrameIndex < n := by
  induction ops generalizing c with
  | nil => exact ⟨rfl, hframe⟩
  | cons op ops ih =>
    have hop := hops op (List.mem_cons_self _ _)
    have hstep : setupObs (step d c op) = setupObs c
        ∧ (step d c op).mFrameIndex < n := by
      cases hb : op.isBegin with
      | false =>
        exact ⟨setupObs_step d c op hb hop.1, by rw [frameIndex_step d c op hb]; exact hframe⟩
      | true =>
        cases op with
        | begin f =>
          refine ⟨setupObs_begin d f c hinit, ?_⟩
          show (c.begin d f).mFrameIndex < n
          rw [(begin_pools d f c).1]
          simpa [Op.frameBelow] using hop.2
        | _ => simp [Op.isBegin] at hb
    have hobs := hstep.1
    simp only [setupObs, Prod.mk.injEq] at hobs
    have h2 := ih (step d c op) (by rw [hobs.1]; exact hinit) hstep.2
      (fun o ho => hops o (List.mem_cons_of_mem _ ho))
    exact ⟨h2.1.trans hobs.2.2.2.2.1, h2.2⟩

/-- C24: `setupDescriptorPool` creates one pool for every virtual frame when
there is none and leaves the pools it finds.  Hence, in a context that has no
pools and is not initialised (a new one, or one that was reset), or that has
one pool for every virtual frame, `begin` leaves exactly `numVirtualFrames`
pools, and they stay along all calls without `reset`; so when every `begin`
names a frame below `numVirtualFrames`, the pool of the frame that `begin`
resets and the pool of the current frame from which `updateDescriptorSetState`
allocates exist. -/
theorem C24_pool_lookups_in_range (d : Driver) (c : Context) (f : Nat) (ops : List Op)
    (hstart : (c.mDescriptorPool = [] ∧ c.mCurrentFrameState.initialised = false)
      ∨ c.mDescriptorPool.length = c.mSettings.numVirtualFrames)
    (hf : f < c.mSettings.numVirtualFrames)
    (hops : ∀ op ∈ ops, op.isReset = false ∧ op.frameBelow c.mSettings.numVirtualFrames = true) :
    (c.mDescriptorPool = [] →
        (c.setupDescriptorPool d).mDescriptorPool.length = c.mSettings.numVirtualFrames)
      ∧ (c.mDescriptorPool ≠ [] → (c.setupDescriptorPool d).mDescriptorPool = c.mDescriptorPool)
      ∧ (c.begin d f).mDescriptorPool.length = c.mSettings.numVirtualFrames
      ∧ f < (c.begin d f).mDescriptorPool.length
      ∧ (run d (c.begin d f) ops).mDescriptorPool.length = c.mSettings.numVirtualFrames
      ∧ (run d (c.begin d f) ops).mFrameIndex < (run d (c.begin d f) ops).mDescriptorPool.length
      ∧ (∀ (acc : Context × List Nat) (i : Nat),
          (Context.resolveSet d acc i).1.mDescriptorPool = acc.1.mDescriptorPool
            ∧ (Context.resolveSet d acc i).1.mFrameIndex = acc.1.mFrameIndex) := by
  have hcount := begin_pool_count d f c hstart
  obtain ⟨hp, hfr⟩ := run_pools d c.mSettings.numVirtualFrames ops (c.begin d f)
    (begin_initialised d f c) (by rw [(begin_pools d f c).1]; exact hf) hops
  refine ⟨(setupDescriptorPool_pools d c).2, (setupDescriptorPool_pools d c).1, hcount,
    by rw [hcount]; exact hf, by rw [hp]; exact hcount, by rw [hp, hcount]; exact hfr, ?_⟩
  intro acc i
  have h1 := setupObs_resolveSet d acc i
  have h2 := flushObs_resolveSet d acc i
  simp only [setupObs, flushObs, Prod.mk.injEq] at h1 h2
  exact ⟨h1.2.2.2.2.1, h2.2.2⟩

set_option maxRecDepth 100000 in
/-- C24, on the sample session: the new context has two virtual frames and no
pool; after `begin 0` it has two pools, and after the three draws of the frame
and the `begin 1` of the next frame it still has the same two, with the index
of the frame at `1`. -/
theorem C24_pool_lookups_in_range_witness :
    (run okDriver freshContext (sessionOps.take 3)).mDescriptorPool = []
      ∧ (run okDriver freshContext (sessionOps.take 3)).mSettings.numVirtualFrames = 2
      ∧ (Context.begin okDriver 0 (run okDriver freshContext (sessionOps.take 3))).mDescriptorPool.length
          = 2
      ∧ (run okDriver (Context.begin okDriver 0 (run okDriver freshContext (sessionOps.take 3)))
            (frameOps ++ [Op.begin 1])).mDescriptorPool = [3001, 3002]
      ∧ (run okDriver (Context.begin okDriver 0 (run okDriver freshContext (sessionOps.take 3)))
            (frameOps ++ [Op.begin 1])).mFrameIndex
          < (run okDriver (Context.begin okDriver 0 (run okDriver freshContext (sessionOps.take 3)))
            (frameOps ++ [Op.begin 1])).mDescriptorPool.length :=
  ⟨by decide, by decide,
    (C24_pool_lookups_in_range okDriver (run okDriver freshContext (sessionOps.take 3)) 0
      (frameOps ++ [Op.begin 1]) (Or.inl (by decide)) (by decide) (by decide)).2.2.1,
    by decide,
    (C24_pool_lookups_in_range okDriver (run okDriver freshContext (sessionOps.take 3)) 0
      (frameOps ++ [Op.begin 1]) (Or.inl (by decide)) (by decide) (by decide)).2.2.2.2.2.1⟩

end OfVk
